import Mathlib

/-!
# socket-omok: the board, the move heuristic and the session engine

A shallow embedding of `src/board.c`, `src/protocol.c` and the command
handling of `src/server.c`.  C `int` values are modelled by `Int`.  Where a value can
leave the 32-bit range it is reduced with `to_int`: the numbers that `sscanf` stores from a
received line, and the squared distance to the last human move in `evaluate_cell`.  All
other arithmetic of the program works on board coordinates, counters and scores that stay
far inside the range.  The `int` results of `place_stone` and `check_win` are kept as
the integers 0 and 1; `in_range` and `is_five_if`, which return a comparison, are `Bool`.
-/

namespace Omok

/-! ## Machine integers -/

/-- The `int` that holds the integer `v`: `v` reduced modulo 2^32 into the range
-2^31 .. 2^31 - 1.  It is the result of a conversion from `long` to `int`, and of `int`
arithmetic on the two's complement machine the server is built for. -/
def to_int (v : Int) : Int := (v + 2147483648) % 4294967296 - 2147483648

/-! ## include/board.h, src/board.c -/

/-- The macro `BOARD_SIZE` of `include/board.h`. -/
def BOARD_SIZE : Int := 15

/-- The global `static int board[BOARD_SIZE][BOARD_SIZE]`; `b y x` is `board[y][x]`.
Only the cells with both indices in 0..14 are ever read or written. -/
abbrev Board := Int → Int → Int

/-- The loop indices `0, 1, ..., BOARD_SIZE - 1` of `for (int v = 0; v < BOARD_SIZE; v++)`. -/
def indices : List Int := (List.range 15).map Int.ofNat

/-- `get_stone`: -1 outside the board, otherwise `board[y][x]`. -/
def get_stone (b : Board) (x y : Int) : Int :=
  if x < 0 ∨ x ≥ BOARD_SIZE ∨ y < 0 ∨ y ≥ BOARD_SIZE then -1 else b y x

/-- `init_board`: every cell becomes 0. -/
def init_board : Board := fun _ _ => 0

/-- The assignment `board[y][x] = v`. -/
def set_cell (b : Board) (x y v : Int) : Board :=
  fun yy xx => if yy = y ∧ xx = x then v else b yy xx

/-- `place_stone`: the returned integer (1 success, 0 failure) and the board afterwards. -/
def place_stone (b : Board) (x y player : Int) : Int × Board :=
  if x < 0 ∨ x ≥ BOARD_SIZE ∨ y < 0 ∨ y ≥ BOARD_SIZE then (0, b)
  else if b y x ≠ 0 then (0, b)
  else (1, set_cell b x y player)

/-- The body of the double loop of `check_win` at the cell `(x, y)`: true when one of the
four `return 1` statements is reached there. -/
def win_at (b : Board) (player x y : Int) : Bool :=
  decide (b y x = player) &&
  ( (decide (x + 4 < BOARD_SIZE) &&
      (decide (b y (x+1) = player) && decide (b y (x+2) = player) &&
       decide (b y (x+3) = player) && decide (b y (x+4) = player)))
  || (decide (y + 4 < BOARD_SIZE) &&
      (decide (b (y+1) x = player) && decide (b (y+2) x = player) &&
       decide (b (y+3) x = player) && decide (b (y+4) x = player)))
  || (decide (x + 4 < BOARD_SIZE ∧ y + 4 < BOARD_SIZE) &&
      (decide (b (y+1) (x+1) = player) && decide (b (y+2) (x+2) = player) &&
       decide (b (y+3) (x+3) = player) && decide (b (y+4) (x+4) = player)))
  || (decide (x + 4 < BOARD_SIZE ∧ y - 4 ≥ 0) &&
      (decide (b (y-1) (x+1) = player) && decide (b (y-2) (x+2) = player) &&
       decide (b (y-3) (x+3) = player) && decide (b (y-4) (x+4) = player))) )

/-- `check_win`: scans `y` then `x` and returns 1 at the first cell where a test succeeds,
0 when the scan ends. -/
def check_win (b : Board) (player : Int) : Int :=
  if indices.any (fun y => indices.any (fun x => win_at b player x y)) then 1 else 0

/-! ## src/server.c: the move heuristic -/

/-- `in_range` of `server.c`. -/
def in_range (x y : Int) : Bool :=
  decide (x ≥ 0 ∧ x < BOARD_SIZE ∧ y ≥ 0 ∧ y < BOARD_SIZE)

/-- The `while` loop of `count_dir`, run for at most `fuel` iterations: `(nx, ny)` is the
cell under test and `cnt` the counter.  `count_dir_loop_fuel` shows that 15 iterations are
never exceeded when `(dx, dy)` is not `(0, 0)`. -/
def count_dir_loop (b : Board) (dx dy player : Int) : Nat → Int → Int → Int → Int
  | 0, _, _, cnt => cnt
  | fuel + 1, nx, ny, cnt =>
    if in_range nx ny && decide (get_stone b nx ny = player) then
      count_dir_loop b dx dy player fuel (nx + dx) (ny + dy) (cnt + 1)
    else cnt

/-- `count_dir`: the number of consecutive `player` stones from the cell after `(x, y)` in
direction `(dx, dy)`. -/
def count_dir (b : Board) (x y dx dy player : Int) : Int :=
  count_dir_loop b dx dy player 15 (x + dx) (y + dy) 0

/-- The table `dirs` of `longest_line_if`. -/
def dirs : List (Int × Int) := [(1, 0), (0, 1), (1, 1), (1, -1)]

/-- The value `len` computed inside the loop of `longest_line_if` for one direction. -/
def line_len (b : Board) (x y player : Int) (d : Int × Int) : Int :=
  1 + count_dir b x y d.1 d.2 player + count_dir b x y (-d.1) (-d.2) player

/-- `longest_line_if`: the largest `len` over the four directions, starting from `best = 0`. -/
def longest_line_if (b : Board) (x y player : Int) : Int :=
  dirs.foldl (fun best d => if line_len b x y player d > best then line_len b x y player d
    else best) 0

/-- `is_five_if`. -/
def is_five_if (b : Board) (x y player : Int) : Bool :=
  decide (longest_line_if b x y player ≥ 5)

/-- `evaluate_cell`, with `ai = 2` and `human = 1`.  Past the first test `x` and `y` are in
0..14 and the score lies between -98 and 1,990,000, so the arithmetic up to `score -= dist2`
is exact.  With `hx` and `hy` non-negative values of an `int`, `x - hx` and `y - hy` are
exact as well, but their squares, the sum `pd2` and the last subtraction can leave the range
of `int`: they are reduced with `to_int`. -/
def evaluate_cell (b : Board) (x y hx hy : Int) : Int :=
  if !in_range x y || decide (get_stone b x y ≠ 0) then -1000000000
  else
    let score : Int := 0
    let score := if is_five_if b x y 2 then score + 1000000 else score
    let score := if is_five_if b x y 1 then score + 900000 else score
    let myLen := longest_line_if b x y 2
    let oppLen := longest_line_if b x y 1
    let score := if myLen = 4 then score + 50000 else if myLen = 3 then score + 10000 else score
    let score := if oppLen = 4 then score + 40000 else if oppLen = 3 then score + 8000 else score
    let center : Int := (BOARD_SIZE - 1) / 2
    let dx := x - center
    let dy := y - center
    let dist2 := dx * dx + dy * dy
    let score := score - dist2
    if hx ≥ 0 ∧ hy ≥ 0 then
      let pdx := x - hx
      let pdy := y - hy
      let pd2 := to_int (to_int (pdx * pdx) + to_int (pdy * pdy))
      to_int (score - pd2)
    else score

/-- The locals `bestScore`, `bestX`, `bestY` of `choose_ai_move`. -/
structure Best where
  bestScore : Int
  bestX : Int
  bestY : Int
deriving DecidableEq, Repr

/-- The body of the inner loop of `choose_ai_move` at the cell `(x, y)`. -/
def choose_step (b : Board) (hx hy : Int) (y : Int) (st : Best) (x : Int) : Best :=
  if get_stone b x y ≠ 0 then st
  else
    let s := evaluate_cell b x y hx hy
    if s > st.bestScore then { bestScore := s, bestX := x, bestY := y } else st

/-- The inner loop (`x` from 0 to 14) of `choose_ai_move` for the row `y`. -/
def choose_row (b : Board) (hx hy : Int) (st : Best) (y : Int) : Best :=
  indices.foldl (choose_step b hx hy y) st

/-- The state of `choose_ai_move` after both loops. -/
def choose_scan (b : Board) (hx hy : Int) : Best :=
  indices.foldl (choose_row b hx hy) { bestScore := -1000000000, bestX := 0, bestY := 0 }

/-- `choose_ai_move`: the pair `(*out_x, *out_y)`. -/
def choose_ai_move (b : Board) (hx hy : Int) : Int × Int :=
  ((choose_scan b hx hy).bestX, (choose_scan b hx hy).bestY)

/-! ## include/protocol.h, src/protocol.c -/

def CMD_NONE : Int := 0
def CMD_JOIN : Int := 1
def CMD_MOVE : Int := 2
def CMD_EXIT : Int := 3
def CMD_RESTART : Int := 4
def CMD_MODE : Int := 5

/-- The C string that starts at the head of `l`: the bytes before the first NUL. -/
def c_str (l : List Char) : List Char := l.takeWhile (fun c => c ≠ '\x00')

/-- The test `strncmp(msg, lit, n) == 0` for a C string `msg` and a literal `lit` of at
least `n` characters. -/
def strncmp_eq (msg : List Char) (lit : String) (n : Nat) : Bool :=
  msg.take n == lit.toList.take n

/-- `parse_command`, on the characters of the C string `msg`. -/
def parse_command (msg : List Char) : Int :=
  if strncmp_eq msg "JOIN" 4 then CMD_JOIN
  else if strncmp_eq msg "MOVE" 4 then CMD_MOVE
  else if strncmp_eq msg "EXIT" 4 then CMD_EXIT
  else if strncmp_eq msg "MODE" 4 then CMD_MODE
  else if strncmp_eq msg "RESTART" 7 then CMD_RESTART
  else CMD_NONE

/-! ## The C library's `sscanf`, for the two formats the server uses

A model of the library, not of repository code: `%d` skips white space, takes an optional
sign and one or more decimal digits.  The library converts the digits as `strtol` does, to
a `long` of 64 bits that saturates at `LONG_MIN` and `LONG_MAX`, and stores the result in
the `int` argument, which keeps its low 32 bits: `MODE 4294967297` stores 1 and
`MOVE 4294967303 4294967303` stores 7 and 7. -/

/-- `isspace` in the C locale. -/
def is_space (c : Char) : Bool :=
  c = ' ' || c = '\t' || c = '\n' || c = '\x0b' || c = '\x0c' || c = '\r'

/-- The value of a string of decimal digits. -/
def digits_value (ds : List Char) : Nat :=
  ds.foldl (fun acc c => 10 * acc + (c.toNat - 48)) 0

/-- The `long` that `strtol` returns for a digit string of value `v`: `v` itself, or
`LONG_MAX` or `LONG_MIN` when `v` lies beyond them. -/
def strtol_value (v : Int) : Int :=
  if v > 9223372036854775807 then 9223372036854775807
  else if v < -9223372036854775808 then -9223372036854775808
  else v

/-- One `%d` conversion: the `int` stored and the rest of the input, `none` when no
integer can be read. -/
def scan_d (l : List Char) : Option (Int × List Char) :=
  let l1 := l.dropWhile is_space
  let neg : Bool := match l1 with
    | '-' :: _ => true
    | _ => false
  let l2 := match l1 with
    | '-' :: r => r
    | '+' :: r => r
    | _ => l1
  let ds := l2.takeWhile Char.isDigit
  if ds = [] then none
  else some (to_int (strtol_value
               (if neg then -(digits_value ds : Int) else (digits_value ds : Int))),
             l2.dropWhile Char.isDigit)

/-- `sscanf(s, "%d %d", &x, &y)`: `some (x, y)` exactly when the call returns 2. -/
def sscanf_d_d (s : List Char) : Option (Int × Int) :=
  match scan_d s with
  | none => none
  | some (x, rest) =>
    match scan_d rest with
    | none => none
    | some (y, _) => some (x, y)

/-- `sscanf(s, "MODE %d", &mode_num)`: `some mode_num` exactly when the call returns 1. -/
def sscanf_MODE_d (s : List Char) : Option Int :=
  if s.take 4 = "MODE".toList then (scan_d (s.drop 4)).map Prod.fst else none

/-! ## src/server.c: the session engine -/

def MAX_CLIENTS : Nat := 2
def MODE_NONE : Int := 0
def MODE_PVP : Int := 1
def MODE_PVAI : Int := 2

/-- The state the command handling of `main` works on: the board of `board.c`, the global
`game_mode`, and the locals `current_turn`, `game_over`, `joined`, `client_fd` (-1 marks a
free slot) and `player_count`. -/
structure Session where
  board : Board
  game_mode : Int
  current_turn : Int
  game_over : Int
  joined : Fin 2 → Int
  client_fd : Fin 2 → Int
  player_count : Int

/-- One call `write(client_fd[slot], text, len)`. -/
structure Write where
  slot : Fin 2
  text : String
  len : Nat
deriving DecidableEq, Repr

/-- `strlen` of a string literal or of a formatted message. -/
def strlen (s : String) : Nat := s.utf8ByteSize

/-- `broadcast`: one write of `msg` to each slot whose descriptor is not -1, slot 0 first. -/
def broadcast (client_fds : Fin 2 → Int) (msg : String) : List Write :=
  (if client_fds 0 ≠ -1 then [{ slot := 0, text := msg, len := strlen msg }] else []) ++
  (if client_fds 1 ≠ -1 then [{ slot := 1, text := msg, len := strlen msg }] else [])

/-- `send_mode_select_message`. -/
def send_mode_select_message (slot : Fin 2) : List Write :=
  [{ slot := slot, text := "MODE_SELECT\n", len := strlen "MODE_SELECT\n" }]

/-- `snprintf(move_msg, ..., "MOVE %d %d %d\n", player, x, y)`. -/
def move_msg (player x y : Int) : String :=
  "MOVE " ++ toString player ++ " " ++ toString x ++ " " ++ toString y ++ "\n"

/-- `snprintf(win_msg, ..., "WIN P%d\n", player)`. -/
def win_msg (player : Int) : String := "WIN P" ++ toString player ++ "\n"

/-- `snprintf(turn_msg, ..., "TURN %d\n", turn)`. -/
def turn_msg (turn : Int) : String := "TURN " ++ toString turn ++ "\n"

/-- The buffer `buf` after `buf[n] = '\0'` and `if (newline) *newline = '\0'`, for the `n`
bytes `data` that `read` returned: the first newline of the C string is replaced by NUL.
The bytes of `buf` after `data` are NUL and are left implicit. -/
def cut_newline : List Char → List Char
  | [] => []
  | c :: cs =>
    if c = '\x00' then c :: cs
    else if c = '\n' then '\x00' :: cs
    else c :: cut_newline cs

/-- The fallback scan of the PVAI branch: the first cell in row-major order at which
`place_stone(xx, yy, 2)` succeeds, with the board after it; `none` when `placed` stays 0. -/
def fallback_scan (b : Board) : Option (Int × Int × Board) :=
  indices.foldl (fun acc yy =>
    indices.foldl (fun acc xx =>
      match acc with
      | some r => some r
      | none =>
        if (place_stone b xx yy 2).1 ≠ 0 then some (xx, yy, (place_stone b xx yy 2).2)
        else none) acc) none

/-- The end of the PVAI branch, once the AI stone is on the board `b` at `(ax, ay)`. -/
def ai_announce (s : Session) (b : Board) (player_id ax ay : Int) : Session × List Write :=
  let out := broadcast s.client_fd (move_msg 2 ax ay)
  if check_win b 2 ≠ 0 then
    ({ s with board := b, game_over := 1 },
      out ++ broadcast s.client_fd (win_msg 2) ++ broadcast s.client_fd "GAME_OVER\n")
  else
    ({ s with board := b, current_turn := player_id },
      out ++ broadcast s.client_fd (turn_msg player_id))

/-- The PVAI branch of the `CMD_MOVE` handling, entered with the human stone on `b`. -/
def ai_reply (s : Session) (b : Board) (player_id x y : Int) : Session × List Write :=
  let a := choose_ai_move b x y
  if !in_range a.1 a.2 || decide (get_stone b a.1 a.2 ≠ 0) then
    match fallback_scan b with
    | none => ({ s with board := b, game_over := 1 }, broadcast s.client_fd "GAME_OVER\n")
    | some (ax, ay, b2) => ai_announce s b2 player_id ax ay
  else ai_announce s (place_stone b a.1 a.2 2).2 player_id a.1 a.2

/-- The `CMD_JOIN` branch. -/
def handle_join (s : Session) (i : Fin 2) : Session × List Write :=
  let s1 := { s with joined := Function.update s.joined i 1 }
  if i = 0 then
    (s1, [{ slot := i, text := "OK PLAYER1\n", len := 11 }] ++ send_mode_select_message i)
  else
    (s1, [{ slot := i, text := "OK PLAYER2\n", len := 11 }] ++
      (if s1.game_mode = MODE_PVP ∧ s1.joined 0 ≠ 0 ∧ s1.joined 1 ≠ 0 then
        broadcast s1.client_fd "START\n" ++ broadcast s1.client_fd "TURN 1\n"
       else []))

/-- The `CMD_MODE` branch; `line` is the C string in `buf`. -/
def handle_mode (s : Session) (i : Fin 2) (line : List Char) : Session × List Write :=
  match sscanf_MODE_d line with
  | none => (s, [{ slot := i, text := "ERR INVALID_MODE\n", len := 18 }])
  | some mode_num =>
    if mode_num = 1 then
      ({ s with game_mode := MODE_PVAI, board := init_board, current_turn := 1, game_over := 0 },
        broadcast s.client_fd "START\n" ++ broadcast s.client_fd "TURN 1\n")
    else if mode_num = 2 then
      ({ s with game_mode := MODE_PVP },
        [{ slot := i, text := "상대방을 기다리는 중입니다...\n",
           len := strlen "상대방을 기다리는 중입니다...\n" }] ++
        (if s.joined 0 ≠ 0 ∧ s.joined 1 ≠ 0 then
          broadcast s.client_fd "START\n" ++ broadcast s.client_fd "TURN 1\n"
         else []))
    else (s, [{ slot := i, text := "ERR MODE_MUST_BE_1_OR_2\n", len := 24 }])

/-- The `CMD_MOVE` branch; `payload` is the C string at `buf + 5`. -/
def handle_move (s : Session) (i : Fin 2) (payload : List Char) : Session × List Write :=
  let player_id : Int := (i.val : Int) + 1
  if s.game_over ≠ 0 then (s, [{ slot := i, text := "ERR GAME_OVER\n", len := 14 }])
  else if player_id ≠ s.current_turn then
    (s, [{ slot := i, text := "ERR NOT_YOUR_TURN\n", len := 19 }])
  else
    match sscanf_d_d payload with
    | none => (s, [{ slot := i, text := "ERR BAD_FORMAT\n", len := 16 }])
    | some (x, y) =>
      if (place_stone s.board x y player_id).1 = 0 then
        (s, [{ slot := i, text := "ERR INVALID_MOVE\n", len := 18 }])
      else
        let b1 := (place_stone s.board x y player_id).2
        let out := broadcast s.client_fd (move_msg player_id x y)
        if check_win b1 player_id ≠ 0 then
          ({ s with board := b1, game_over := 1 },
            out ++ broadcast s.client_fd (win_msg player_id) ++
              broadcast s.client_fd "GAME_OVER\n")
        else if s.game_mode = MODE_PVP then
          let turn : Int := if s.current_turn = 1 then 2 else 1
          ({ s with board := b1, current_turn := turn },
            out ++ broadcast s.client_fd (turn_msg turn))
        else if s.game_mode = MODE_PVAI then
          let r := ai_reply s b1 player_id x y
          (r.1, out ++ r.2)
        else
          let turn : Int := if s.current_turn = 1 then 2 else 1
          ({ s with board := b1, current_turn := turn },
            out ++ broadcast s.client_fd (turn_msg turn))

/-- The `CMD_RESTART` branch. -/
def handle_restart (s : Session) (i : Fin 2) : Session × List Write :=
  if s.game_over = 0 then (s, [{ slot := i, text := "ERR NOT_GAME_OVER\n", len := 18 }])
  else
    ({ s with board := init_board, current_turn := 1, game_over := 0 },
      broadcast s.client_fd "RESET\n" ++ broadcast s.client_fd "TURN 1\n")

/-- The `CMD_EXIT` branch. -/
def handle_exit (s : Session) (i : Fin 2) : Session × List Write :=
  let other : Fin 2 := if i = 0 then 1 else 0
  ({ s with
      client_fd := Function.update s.client_fd i (-1),
      joined := Function.update s.joined i 0,
      player_count := s.player_count - 1,
      board := init_board, current_turn := 1, game_over := 0 },
    if s.client_fd other ≠ -1 then [{ slot := other, text := "OPPONENT_EXIT\n", len := 14 }]
    else [])

/-- The handling of the `n > 0` bytes `data` read from slot `i` (the part of the loop body of
`main` after the read): the session afterwards and the writes made, in order. -/
def handle_line (s : Session) (i : Fin 2) (data : List Char) : Session × List Write :=
  let buf := cut_newline data
  let cmd := parse_command (c_str buf)
  if cmd = CMD_JOIN then handle_join s i
  else if cmd = CMD_MODE then handle_mode s i (c_str buf)
  else if cmd = CMD_MOVE then handle_move s i (c_str (buf.drop 5))
  else if cmd = CMD_RESTART then handle_restart s i
  else if cmd = CMD_EXIT then handle_exit s i
  else (s, [])

/-- The read-failure branch (`n <= 0`) of the loop body of `main`: the descriptor is closed,
the slot is freed, its joined flag is cleared and `player_count` is decremented; nothing is
written and nothing else is assigned. -/
def handle_disconnect (s : Session) (i : Fin 2) : Session × List Write :=
  ({ s with
      client_fd := Function.update s.client_fd i (-1),
      joined := Function.update s.joined i 0,
      player_count := s.player_count - 1 },
    [])

/-- One iteration of the `for` loop over the slots for a slot whose descriptor is readable:
`n` is the value `read` returned and `data` the bytes it stored.  A free slot is skipped. -/
def on_read (s : Session) (i : Fin 2) (n : Int) (data : List Char) : Session × List Write :=
  if s.client_fd i = -1 then (s, [])
  else if n ≤ 0 then handle_disconnect s i
  else handle_line s i data

/-- The handling of a new connection in the loop body of `main`: `new_fd` is the value
`accept` returned.  With fewer than `MAX_CLIENTS` players the descriptor goes to slot 0 when
that slot is free and to slot 1 otherwise; else the connection is closed at once. -/
def handle_accept (s : Session) (new_fd : Int) : Session :=
  if new_fd ≠ -1 then
    if s.player_count < 2 then
      { s with
          client_fd := Function.update s.client_fd (if s.client_fd 0 = -1 then 0 else 1) new_fd,
          player_count := s.player_count + 1 }
    else s
  else s

/-- The session when the loop of `main` is entered: `init_board()` was called, `game_mode`
is `MODE_NONE`, `current_turn` is 1, `game_over` is 0 and both slots are free. -/
def initial : Session :=
  { board := init_board, game_mode := MODE_NONE, current_turn := 1, game_over := 0,
    joined := fun _ => 0, client_fd := fun _ => -1, player_count := 0 }

/-- What one pass of the loop of `main` can handle: a new connection, or a `read` on a slot
that returned `n` with the bytes `data`. -/
inductive Event where
  | accept (new_fd : Int)
  | read (i : Fin 2) (n : Int) (data : List Char)

/-- The session after one event and the writes made. -/
def step (s : Session) : Event → Session × List Write
  | Event.accept new_fd => (handle_accept s new_fd, [])
  | Event.read i n data => on_read s i n data

/-- The session after a sequence of events. -/
def run_events (s : Session) : List Event → Session
  | [] => s
  | e :: es => run_events (step s e).1 es

/-- The sessions the server can be in: those reached from `initial` by some sequence of
events. -/
def Reachable (s : Session) : Prop := ∃ evs : List Event, s = run_events initial evs

/-! ## Runs of the engine -/

/-- The line received is one whose handling calls `init_board`: `EXIT`, `RESTART` while the
game is over, or `MODE` with the number 1. -/
def is_reset (s : Session) (data : List Char) : Prop :=
  parse_command (c_str (cut_newline data)) = CMD_EXIT ∨
  (parse_command (c_str (cut_newline data)) = CMD_RESTART ∧ s.game_over ≠ 0) ∨
  (parse_command (c_str (cut_newline data)) = CMD_MODE ∧
    sscanf_MODE_d (c_str (cut_newline data)) = some 1)

instance (s : Session) (data : List Char) : Decidable (is_reset s data) := by
  unfold is_reset; infer_instance

/-- The session after a sequence of received lines, each tagged with its slot. -/
def run (s : Session) : List (Fin 2 × List Char) → Session
  | [] => s
  | e :: es => run (handle_line s e.1 e.2).1 es

/-- No step of the run from `s` is a reset step. -/
def no_reset (s : Session) : List (Fin 2 × List Char) → Prop
  | [] => True
  | e :: es => ¬ is_reset s e.2 ∧ no_reset (handle_line s e.1 e.2).1 es

/-- A session with both clients connected and joined, used in the examples: descriptors 4
and 5, the given mode, board, turn and game-over flag. -/
def example_session (mode : Int) (b : Board) (turn over : Int) : Session :=
  { board := b, game_mode := mode, current_turn := turn, game_over := over,
    joined := fun _ => 1, client_fd := fun i => if i = 0 then 4 else 5, player_count := 2 }

/-- Player `p` stones placed one after the other with `place_stone`, from the board `b`. -/
def place_all (b : Board) (p : Int) : List (Int × Int) → Board
  | [] => b
  | c :: cs => place_all (place_stone b c.1 c.2 p).2 p cs

/-- The seven error replies of the protocol, as written by the server. -/
def err_lines : List String :=
  ["ERR GAME_OVER\n", "ERR NOT_YOUR_TURN\n", "ERR BAD_FORMAT\n", "ERR INVALID_MOVE\n",
   "ERR INVALID_MODE\n", "ERR MODE_MUST_BE_1_OR_2\n", "ERR NOT_GAME_OVER\n"]

/-- The text does not begin with the four characters `ERR `. -/
def NotErr (t : String) : Prop := t.toList.take 4 ≠ ['E', 'R', 'R', ' ']

instance (t : String) : Decidable (NotErr t) := by
  unfold NotErr; infer_instance

/-- The board right after the stone of the sender (slot `i`, player `i + 1`) is placed at
`(x, y)`: the second component of `place_stone(x, y, player_id)`. -/
def after_human (s : Session) (i : Fin 2) (x y : Int) : Board :=
  (place_stone s.board x y ((i.val : Int) + 1)).2

/-- A run without any `MODE` command: two clients connect and join, then move in turn
until player 1 completes the row `(0, 0) .. (4, 0)`. -/
def won_without_mode : List Event :=
  [Event.accept 4, Event.accept 5,
   Event.read 0 7 "JOIN a\n".toList, Event.read 1 7 "JOIN b\n".toList,
   Event.read 0 9 "MOVE 0 0\n".toList, Event.read 1 9 "MOVE 0 1\n".toList,
   Event.read 0 9 "MOVE 1 0\n".toList, Event.read 1 9 "MOVE 1 1\n".toList,
   Event.read 0 9 "MOVE 2 0\n".toList, Event.read 1 9 "MOVE 2 1\n".toList,
   Event.read 0 9 "MOVE 3 0\n".toList, Event.read 1 9 "MOVE 3 1\n".toList,
   Event.read 0 9 "MOVE 4 0\n".toList]

/-! ## Specification vocabulary -/

/-- The cell `(x, y)` is scanned before `(x2, y2)` in row-major order (`y` outer, `x` inner). -/
def scan_before (x y x2 y2 : Int) : Prop := y < y2 ∨ (y = y2 ∧ x < x2)

/-- The invariant of the double loop of `choose_ai_move` once the cells in `P` have been
scanned: either nothing has been recorded and no scanned cell is empty, or the recorded cell
is a scanned empty cell whose score is `bestScore`, no scanned empty cell has a larger score,
and every empty cell scanned before it has a smaller one. -/
def ScanInv (b : Board) (hx hy : Int) (P : Int → Int → Prop) (st : Best) : Prop :=
  (st = { bestScore := -1000000000, bestX := 0, bestY := 0 } ∧ ∀ x y, P x y → b y x ≠ 0) ∨
  (P st.bestX st.bestY ∧ b st.bestY st.bestX = 0 ∧
    st.bestScore = evaluate_cell b st.bestX st.bestY hx hy ∧
    ∀ x y, P x y → b y x = 0 →
      evaluate_cell b x y hx hy ≤ st.bestScore ∧
      (scan_before x y st.bestX st.bestY → evaluate_cell b x y hx hy < st.bestScore))

/-- The five cells `(x + k*dx, y + k*dy)`, `k = 0..4`, are on the board and hold `p`. -/
def Line5 (b : Board) (p x y dx dy : Int) : Prop :=
  ∀ k : Int, 0 ≤ k → k < 5 →
    (0 ≤ x + k * dx ∧ x + k * dx < 15 ∧ 0 ≤ y + k * dy ∧ y + k * dy < 15) ∧
    b (y + k * dy) (x + k * dx) = p

/-- The eight unit steps along a row, a column or a diagonal, as `(dx, dy)`. -/
def unit_steps : List (Int × Int) :=
  [(1, 0), (-1, 0), (0, 1), (0, -1), (1, 1), (-1, -1), (1, -1), (-1, 1)]

/-- The cell `k` steps from `(x, y)` along `(dx, dy)` is on the board and holds `p`. -/
def owned_at (b : Board) (p x y dx dy k : Int) : Prop :=
  (0 ≤ x + k * dx ∧ x + k * dx < 15 ∧ 0 ≤ y + k * dy ∧ y + k * dy < 15) ∧
  b (y + k * dy) (x + k * dx) = p

/-- The cells at the steps `-m, ..., n` from `(x, y)` along `(dx, dy)` are the maximal
contiguous run of `p` cells through `(x, y)` on that line: each of them holds `p`, and the
next cell at either end is off the board or does not hold `p`.  Its length is `n + m + 1`. -/
def MaxRun (b : Board) (p x y dx dy : Int) (n m : Nat) : Prop :=
  (∀ k : Int, -(m : Int) ≤ k → k ≤ (n : Int) → owned_at b p x y dx dy k) ∧
  ¬ owned_at b p x y dx dy ((n : Int) + 1) ∧
  ¬ owned_at b p x y dx dy (-((m : Int) + 1))

/-- The line `msg` begins with the characters of `lit`; anything may follow. -/
def begins_with (msg : List Char) (lit : String) : Prop :=
  ∃ rest : List Char, msg = lit.toList ++ rest

/-- The bytes a `write(fd, text, len)` of a string literal sends: the first `len` bytes of
the characters of the literal followed by its terminating NUL (the texts concerned are
ASCII, one byte per character). -/
def bytes_written (w : Write) : List Char := (w.text.toList ++ ['\x00']).take w.len

/-- The notice that the `MODE 2` branch writes to the sender. -/
def waiting_line : String := "상대방을 기다리는 중입니다...\n"

/-- The server-to-client lines of fixed text, each with its newline. -/
def fixed_lines : List String :=
  ["OK PLAYER1\n", "OK PLAYER2\n", "MODE_SELECT\n", "START\n", "GAME_OVER\n", "RESET\n",
   "OPPONENT_EXIT\n", "ERR GAME_OVER\n", "ERR NOT_YOUR_TURN\n", "ERR BAD_FORMAT\n",
   "ERR INVALID_MOVE\n", "ERR INVALID_MODE\n", "ERR MODE_MUST_BE_1_OR_2\n",
   "ERR NOT_GAME_OVER\n"]

/-- The text is one of the documented server-to-client forms: a fixed line, `TURN <n>`,
`MOVE <player> <x> <y>` or `WIN P<player>`. -/
def Documented (t : String) : Prop :=
  t ∈ fixed_lines ∨ (∃ n : Int, t = turn_msg n) ∨ (∃ p x y : Int, t = move_msg p x y) ∨
  (∃ p : Int, t = win_msg p)

/-- The text is a documented form or the waiting notice of the `MODE 2` branch. -/
def Allowed (t : String) : Prop := Documented t ∨ t = waiting_line

/-- A board without empty cell and without five in a row: the cell `(x, y)` holds 1 when
`(x + 2 * y) % 4 < 2` and 2 otherwise, so no line has three equal cells in a row. -/
def striped : Board := fun y x => if (x + 2 * y) % 4 < 2 then 1 else 2

/-! ## Theorems -/

/-! ### Machine integers and the numbers `sscanf` stores -/

/-- An integer in the range of `int` is the `int` that holds it. -/
theorem to_int_of_range (v : Int) (h : -2147483648 ≤ v ∧ v < 2147483648) : to_int v = v := by
  unfold to_int
  omega

/-- Every `int` lies in the 32-bit range. -/
theorem to_int_range (v : Int) : -2147483648 ≤ to_int v ∧ to_int v < 2147483648 := by
  unfold to_int
  omega

/-- The number a `%d` conversion stores lies in the 32-bit range. -/
theorem scan_d_range {l r : List Char} {v : Int} (h : scan_d l = some (v, r)) :
    -2147483648 ≤ v ∧ v < 2147483648 := by
  unfold scan_d at h
  simp only [] at h
  split_ifs at h <;>
  · simp only [Option.some.injEq, Prod.mk.injEq] at h
    rw [← h.1]
    exact to_int_range _

/-- Both numbers that `sscanf(s, "%d %d", ...)` stores lie in the 32-bit range. -/
theorem sscanf_d_d_range {s : List Char} {x y : Int} (h : sscanf_d_d s = some (x, y)) :
    (-2147483648 ≤ x ∧ x < 2147483648) ∧ (-2147483648 ≤ y ∧ y < 2147483648) := by
  unfold sscanf_d_d at h
  cases h1 : scan_d s with
  | none => rw [h1] at h; cases h
  | some r1 =>
    obtain ⟨x1, rest⟩ := r1
    rw [h1] at h
    simp only [] at h
    cases h2 : scan_d rest with
    | none => rw [h2] at h; cases h
    | some r2 =>
      obtain ⟨y1, rest2⟩ := r2
      rw [h2] at h
      simp only [Option.some.injEq, Prod.mk.injEq] at h
      rw [← h.1, ← h.2]
      exact ⟨scan_d_range h1, scan_d_range h2⟩

/-- Digit strings beyond the range of `int` are stored as the library stores them: the
value saturates at the bounds of a 64-bit `long` and its low 32 bits are kept, so
`MODE 4294967297` is read as 1 and `4294967303 4294967303` as 7 and 7. -/
theorem sscanf_stores_int :
    sscanf_MODE_d "MODE 4294967297".toList = some 1 ∧
    sscanf_MODE_d "MODE 4294967298".toList = some 2 ∧
    sscanf_MODE_d "MODE -4294967295".toList = some 1 ∧
    sscanf_MODE_d "MODE 2147483648".toList = some (-2147483648) ∧
    sscanf_MODE_d "MODE 9223372036854775808".toList = some (-1) ∧
    sscanf_MODE_d "MODE -99999999999999999999999".toList = some 0 ∧
    sscanf_MODE_d "MODE 3".toList = some 3 ∧
    sscanf_d_d "4294967303 4294967303".toList = some (7, 7) ∧
    sscanf_d_d "-2147483649 1".toList = some (2147483647, 1) ∧
    sscanf_d_d " 7\t-3".toList = some (7, -3) := by
  decide

theorem mem_indices (v : Int) : v ∈ indices ↔ 0 ≤ v ∧ v < 15 := by
  unfold indices
  constructor
  · intro h
    obtain ⟨n, hn, rfl⟩ := List.mem_map.1 h
    have := List.mem_range.1 hn
    constructor
    · exact Int.ofNat_nonneg n
    · show (n : Int) < 15
      omega
  · rintro ⟨h0, h1⟩
    refine List.mem_map.2 ⟨v.toNat, List.mem_range.2 (by omega), ?_⟩
    show ((v.toNat : Nat) : Int) = v
    omega

/-- The three parts of the contract of `place_stone`. -/
theorem place_stone_char (b : Board) (x y p : Int) :
    ((place_stone b x y p).1 = 1 ↔ (0 ≤ x ∧ x < 15 ∧ 0 ≤ y ∧ y < 15 ∧ b y x = 0)) ∧
    ((place_stone b x y p).1 = 1 →
        (place_stone b x y p).2 y x = p ∧
        ∀ xx yy : Int, (xx, yy) ≠ (x, y) → (place_stone b x y p).2 yy xx = b yy xx) ∧
    ((place_stone b x y p).1 ≠ 1 →
        (place_stone b x y p).1 = 0 ∧ (place_stone b x y p).2 = b) := by
  unfold place_stone BOARD_SIZE
  by_cases h1 : x < 0 ∨ x ≥ 15 ∨ y < 0 ∨ y ≥ 15
  · rw [if_pos h1]
    refine ⟨?_, ?_, ?_⟩
    · constructor
      · intro h; simp at h
      · intro h; omega
    · intro h; simp at h
    · intro _; exact ⟨rfl, rfl⟩
  · rw [if_neg h1]
    by_cases h2 : b y x ≠ 0
    · rw [if_pos h2]
      refine ⟨?_, ?_, ?_⟩
      · constructor
        · intro h; simp at h
        · intro h; exact absurd h.2.2.2.2 h2
      · intro h; simp at h
      · intro _; exact ⟨rfl, rfl⟩
    · rw [if_neg h2]
      refine ⟨?_, ?_, ?_⟩
      · constructor
        · intro _
          refine ⟨by omega, by omega, by omega, by omega, ?_⟩
          exact not_not.1 h2
        · intro _; rfl
      · intro _
        refine ⟨by simp [set_cell], ?_⟩
        intro xx yy hne
        have : ¬ (yy = y ∧ xx = x) := by
          rintro ⟨rfl, rfl⟩; exact hne rfl
        simp [set_cell, this]
      · intro h; exact absurd rfl h

/-- C1: `place_stone(x, y, p)` succeeds exactly when `(x, y)` is on the board and empty;
on success the board holds `p` at `(x, y)` and is the original everywhere else; on failure
the board is the original at every cell. -/
theorem place_stone_spec (b : Board) (x y p : Int) :
    ((place_stone b x y p).1 = 1 ↔ (0 ≤ x ∧ x < 15 ∧ 0 ≤ y ∧ y < 15 ∧ b y x = 0)) ∧
    ((place_stone b x y p).1 = 1 →
        (place_stone b x y p).2 y x = p ∧
        ∀ xx yy : Int, (xx, yy) ≠ (x, y) → (place_stone b x y p).2 yy xx = b yy xx) ∧
    ((place_stone b x y p).1 ≠ 1 →
        (place_stone b x y p).1 = 0 ∧ (place_stone b x y p).2 = b) :=
  place_stone_char b x y p

theorem win_at_iff (b : Board) (p x y : Int) :
    win_at b p x y = true ↔
      b y x = p ∧
      ((x + 4 < 15 ∧ b y (x+1) = p ∧ b y (x+2) = p ∧ b y (x+3) = p ∧ b y (x+4) = p) ∨
       (y + 4 < 15 ∧ b (y+1) x = p ∧ b (y+2) x = p ∧ b (y+3) x = p ∧ b (y+4) x = p) ∨
       ((x + 4 < 15 ∧ y + 4 < 15) ∧
          b (y+1) (x+1) = p ∧ b (y+2) (x+2) = p ∧ b (y+3) (x+3) = p ∧ b (y+4) (x+4) = p) ∨
       ((x + 4 < 15 ∧ 0 ≤ y - 4) ∧
          b (y-1) (x+1) = p ∧ b (y-2) (x+2) = p ∧ b (y-3) (x+3) = p ∧ b (y-4) (x+4) = p)) := by
  simp only [win_at, BOARD_SIZE, Bool.and_eq_true, Bool.or_eq_true, decide_eq_true_eq, ge_iff_le,
    and_assoc, or_assoc]

theorem check_win_eq_one_iff (b : Board) (p : Int) :
    check_win b p = 1 ↔
      ∃ x y : Int, (0 ≤ x ∧ x < 15) ∧ (0 ≤ y ∧ y < 15) ∧ win_at b p x y = true := by
  unfold check_win
  split
  · rename_i h
    simp only [List.any_eq_true] at h
    obtain ⟨y, hy, x, hx, hw⟩ := h
    simp only [true_iff]
    exact ⟨x, y, (mem_indices x).1 hx, (mem_indices y).1 hy, hw⟩
  · rename_i h
    simp only [List.any_eq_true] at h
    constructor
    · intro h1; simp at h1
    · rintro ⟨x, y, hx, hy, hw⟩
      exact absurd ⟨y, (mem_indices y).2 hy, x, (mem_indices x).2 hx, hw⟩ h

theorem check_win_zero_or_one (b : Board) (p : Int) : check_win b p = 0 ∨ check_win b p = 1 := by
  unfold check_win
  split
  · exact Or.inr rfl
  · exact Or.inl rfl

theorem line5_cells {b : Board} {p x y dx dy : Int} (h : Line5 b p x y dx dy) :
    ((0 ≤ x ∧ x < 15 ∧ 0 ≤ y ∧ y < 15) ∧ b y x = p) ∧
    ((0 ≤ x + dx ∧ x + dx < 15 ∧ 0 ≤ y + dy ∧ y + dy < 15) ∧ b (y + dy) (x + dx) = p) ∧
    ((0 ≤ x + 2 * dx ∧ x + 2 * dx < 15 ∧ 0 ≤ y + 2 * dy ∧ y + 2 * dy < 15) ∧
        b (y + 2 * dy) (x + 2 * dx) = p) ∧
    ((0 ≤ x + 3 * dx ∧ x + 3 * dx < 15 ∧ 0 ≤ y + 3 * dy ∧ y + 3 * dy < 15) ∧
        b (y + 3 * dy) (x + 3 * dx) = p) ∧
    ((0 ≤ x + 4 * dx ∧ x + 4 * dx < 15 ∧ 0 ≤ y + 4 * dy ∧ y + 4 * dy < 15) ∧
        b (y + 4 * dy) (x + 4 * dx) = p) := by
  have h0 := h 0 (by decide) (by decide)
  have h1 := h 1 (by decide) (by decide)
  have h2 := h 2 (by decide) (by decide)
  have h3 := h 3 (by decide) (by decide)
  have h4 := h 4 (by decide) (by decide)
  simp only [zero_mul, one_mul, add_zero] at h0 h1
  exact ⟨h0, h1, h2, h3, h4⟩

theorem line5_of_cells {b : Board} {p x y dx dy : Int}
    (h0 : (0 ≤ x ∧ x < 15 ∧ 0 ≤ y ∧ y < 15) ∧ b y x = p)
    (h1 : (0 ≤ x + dx ∧ x + dx < 15 ∧ 0 ≤ y + dy ∧ y + dy < 15) ∧ b (y + dy) (x + dx) = p)
    (h2 : (0 ≤ x + 2 * dx ∧ x + 2 * dx < 15 ∧ 0 ≤ y + 2 * dy ∧ y + 2 * dy < 15) ∧
        b (y + 2 * dy) (x + 2 * dx) = p)
    (h3 : (0 ≤ x + 3 * dx ∧ x + 3 * dx < 15 ∧ 0 ≤ y + 3 * dy ∧ y + 3 * dy < 15) ∧
        b (y + 3 * dy) (x + 3 * dx) = p)
    (h4 : (0 ≤ x + 4 * dx ∧ x + 4 * dx < 15 ∧ 0 ≤ y + 4 * dy ∧ y + 4 * dy < 15) ∧
        b (y + 4 * dy) (x + 4 * dx) = p) :
    Line5 b p x y dx dy := by
  intro k hk0 hk5
  have hk : k = 0 ∨ k = 1 ∨ k = 2 ∨ k = 3 ∨ k = 4 := by omega
  rcases hk with rfl | rfl | rfl | rfl | rfl
  · simpa using h0
  · simpa using h1
  · exact h2
  · exact h3
  · exact h4

/-- A line of five in one of the four scan directions of `check_win` is reported. -/
theorem check_win_of_line5_scan {b : Board} {p x y dx dy : Int}
    (hd : (dx, dy) = (1, 0) ∨ (dx, dy) = (0, 1) ∨ (dx, dy) = (1, 1) ∨ (dx, dy) = (1, -1))
    (h : Line5 b p x y dx dy) : check_win b p = 1 := by
  obtain ⟨⟨hr0, c0⟩, ⟨hr1, c1⟩, ⟨hr2, c2⟩, ⟨hr3, c3⟩, ⟨hr4, c4⟩⟩ := line5_cells h
  refine (check_win_eq_one_iff b p).2 ⟨x, y, ⟨hr0.1, hr0.2.1⟩, ⟨hr0.2.2.1, hr0.2.2.2⟩, ?_⟩
  rw [win_at_iff]
  refine ⟨c0, ?_⟩
  rcases hd with hd | hd | hd | hd
  · obtain ⟨rfl, rfl⟩ := Prod.mk.inj hd
    simp only [mul_zero, add_zero, mul_one] at *
    exact Or.inl ⟨by omega, c1, c2, c3, c4⟩
  · obtain ⟨rfl, rfl⟩ := Prod.mk.inj hd
    simp only [mul_zero, add_zero, mul_one] at *
    exact Or.inr (Or.inl ⟨by omega, c1, c2, c3, c4⟩)
  · obtain ⟨rfl, rfl⟩ := Prod.mk.inj hd
    simp only [mul_zero, add_zero, mul_one] at *
    exact Or.inr (Or.inr (Or.inl ⟨⟨by omega, by omega⟩, c1, c2, c3, c4⟩))
  · obtain ⟨rfl, rfl⟩ := Prod.mk.inj hd
    simp only [mul_zero, add_zero, mul_one, mul_neg, ← sub_eq_add_neg] at *
    exact Or.inr (Or.inr (Or.inr ⟨⟨by omega, by omega⟩, c1, c2, c3, c4⟩))

/-- Reading a line of five from its other end. -/
theorem line5_reverse {b : Board} {p x y dx dy : Int} (h : Line5 b p x y dx dy) :
    Line5 b p (x + 4 * dx) (y + 4 * dy) (-dx) (-dy) := by
  intro k hk0 hk5
  have e1 : x + 4 * dx + k * -dx = x + (4 - k) * dx := by ring
  have e2 : y + 4 * dy + k * -dy = y + (4 - k) * dy := by ring
  rw [e1, e2]
  exact h (4 - k) (by omega) (by omega)

theorem check_win_of_line5 {b : Board} {p x y dx dy : Int}
    (hd : (dx, dy) ∈ unit_steps) (h : Line5 b p x y dx dy) : check_win b p = 1 := by
  simp only [unit_steps, List.mem_cons, List.mem_singleton, List.not_mem_nil, or_false,
    Prod.mk.injEq] at hd
  rcases hd with h | h | h | h | h | h | h | h <;> obtain ⟨hdx, hdy⟩ := h <;>
    subst hdx <;> subst hdy
  · exact check_win_of_line5_scan (Or.inl rfl) h
  · exact check_win_of_line5_scan (Or.inl (by simp)) (line5_reverse h)
  · exact check_win_of_line5_scan (Or.inr (Or.inl rfl)) h
  · exact check_win_of_line5_scan (Or.inr (Or.inl (by simp))) (line5_reverse h)
  · exact check_win_of_line5_scan (Or.inr (Or.inr (Or.inl rfl))) h
  · exact check_win_of_line5_scan (Or.inr (Or.inr (Or.inl (by simp)))) (line5_reverse h)
  · exact check_win_of_line5_scan (Or.inr (Or.inr (Or.inr rfl))) h
  · exact check_win_of_line5_scan (Or.inr (Or.inr (Or.inr (by simp)))) (line5_reverse h)

theorem line5_of_check_win {b : Board} {p : Int} (h : check_win b p = 1) :
    ∃ x y dx dy : Int,
      ((dx, dy) = (1, 0) ∨ (dx, dy) = (0, 1) ∨ (dx, dy) = (1, 1) ∨ (dx, dy) = (1, -1)) ∧
      Line5 b p x y dx dy := by
  obtain ⟨x, y, hx, hy, hw⟩ := (check_win_eq_one_iff b p).1 h
  rw [win_at_iff] at hw
  obtain ⟨c0, hw⟩ := hw
  rcases hw with ⟨hr, c1, c2, c3, c4⟩ | ⟨hr, c1, c2, c3, c4⟩ | ⟨hr, c1, c2, c3, c4⟩ |
    ⟨hr, c1, c2, c3, c4⟩
  · refine ⟨x, y, 1, 0, Or.inl rfl, line5_of_cells ?_ ?_ ?_ ?_ ?_⟩ <;>
      (try simp only [mul_zero, add_zero, mul_one]) <;>
      first
        | exact ⟨by omega, c0⟩ | exact ⟨by omega, c1⟩ | exact ⟨by omega, c2⟩
        | exact ⟨by omega, c3⟩ | exact ⟨by omega, c4⟩
  · refine ⟨x, y, 0, 1, Or.inr (Or.inl rfl), line5_of_cells ?_ ?_ ?_ ?_ ?_⟩ <;>
      (try simp only [mul_zero, add_zero, mul_one]) <;>
      first
        | exact ⟨by omega, c0⟩ | exact ⟨by omega, c1⟩ | exact ⟨by omega, c2⟩
        | exact ⟨by omega, c3⟩ | exact ⟨by omega, c4⟩
  · refine ⟨x, y, 1, 1, Or.inr (Or.inr (Or.inl rfl)), line5_of_cells ?_ ?_ ?_ ?_ ?_⟩ <;>
      (try simp only [mul_zero, add_zero, mul_one]) <;>
      first
        | exact ⟨by omega, c0⟩ | exact ⟨by omega, c1⟩ | exact ⟨by omega, c2⟩
        | exact ⟨by omega, c3⟩ | exact ⟨by omega, c4⟩
  · refine ⟨x, y, 1, -1, Or.inr (Or.inr (Or.inr rfl)), line5_of_cells ?_ ?_ ?_ ?_ ?_⟩ <;>
      (try simp only [mul_zero, add_zero, mul_one, mul_neg, ← sub_eq_add_neg]) <;>
      first
        | exact ⟨by omega, c0⟩ | exact ⟨by omega, c1⟩ | exact ⟨by omega, c2⟩
        | exact ⟨by omega, c3⟩ | exact ⟨by omega, c4⟩

/-- C2: `check_win(p)` returns 1 exactly when five cells of the board in a straight
contiguous segment (along a row, a column or either diagonal, read in either orientation)
all hold `p`, and returns 0 otherwise; hence every longer run is reported too, and a report
always comes with five cells that lie on the board.  Two instances: five stones running
down-left from (4,0) to (0,4) are reported, four stones ending at the right edge are not. -/
theorem check_win_spec (b : Board) (p : Int) :
    (check_win b p = 1 ↔
      ∃ x y dx dy : Int, (dx, dy) ∈ unit_steps ∧ Line5 b p x y dx dy) ∧
    (check_win b p ≠ 1 → check_win b p = 0) ∧
    (∀ (n x y dx dy : Int), 5 ≤ n → (dx, dy) ∈ unit_steps →
      (∀ k : Int, 0 ≤ k → k < n →
        (0 ≤ x + k * dx ∧ x + k * dx < 15 ∧ 0 ≤ y + k * dy ∧ y + k * dy < 15) ∧
        b (y + k * dy) (x + k * dx) = p) →
      check_win b p = 1) ∧
    check_win (place_all init_board 1 [(4, 0), (3, 1), (2, 2), (1, 3), (0, 4)]) 1 = 1 ∧
    check_win (place_all init_board 1 [(11, 0), (12, 0), (13, 0), (14, 0)]) 1 = 0 := by
  refine ⟨⟨?_, ?_⟩, ?_, ?_, by decide, by decide⟩
  · intro h
    obtain ⟨x, y, dx, dy, hd, hl⟩ := line5_of_check_win h
    refine ⟨x, y, dx, dy, ?_, hl⟩
    rcases hd with hd | hd | hd | hd <;> rw [hd] <;> decide
  · rintro ⟨x, y, dx, dy, hd, hl⟩
    exact check_win_of_line5 hd hl
  · intro h
    rcases check_win_zero_or_one b p with h0 | h1
    · exact h0
    · exact absurd h1 h
  · intro n x y dx dy hn hd hrun
    exact check_win_of_line5 hd (fun k hk0 hk5 => hrun k hk0 (by omega))

theorem in_range_iff (x y : Int) : in_range x y = true ↔ 0 ≤ x ∧ x < 15 ∧ 0 ≤ y ∧ y < 15 := by
  simp [in_range, BOARD_SIZE]

theorem count_dir_loop_add (b : Board) (dx dy p : Int) :
    ∀ (fuel k : Nat) (nx ny cnt : Int) (m : Nat), k ≤ fuel →
      in_range (nx + k * dx) (ny + k * dy) = false →
      count_dir_loop b dx dy p (fuel + m) nx ny cnt = count_dir_loop b dx dy p fuel nx ny cnt := by
  intro fuel
  induction fuel with
  | zero =>
    intro k nx ny cnt m hk hout
    have hk0 : k = 0 := by omega
    subst hk0
    simp only [Nat.cast_zero, zero_mul, add_zero] at hout
    cases m with
    | zero => rfl
    | succ m =>
      simp only [Nat.zero_add]
      simp [count_dir_loop, hout]
  | succ fuel ih =>
    intro k nx ny cnt m hk hout
    have e : fuel + 1 + m = (fuel + m) + 1 := by omega
    rw [e]
    simp only [count_dir_loop]
    by_cases hc : (in_range nx ny && decide (get_stone b nx ny = p)) = true
    · rw [if_pos hc, if_pos hc]
      cases k with
      | zero =>
        simp only [Nat.cast_zero, zero_mul, add_zero] at hout
        simp [hout] at hc
      | succ k =>
        apply ih k (nx + dx) (ny + dy) (cnt + 1) m (by omega)
        have e1 : nx + dx + (k : Int) * dx = nx + ((k + 1 : Nat) : Int) * dx := by push_cast; ring
        have e2 : ny + dy + (k : Int) * dy = ny + ((k + 1 : Nat) : Int) * dy := by push_cast; ring
        rw [e1, e2]; exact hout
    · rw [if_neg hc, if_neg hc]

/-- The loop of `count_dir` ends by its own test within 15 iterations: more fuel does not
change the result, whenever the direction is not `(0, 0)`. -/
theorem count_dir_loop_fuel (b : Board) (dx dy p nx ny cnt : Int) (m : Nat)
    (hd : dx ≠ 0 ∨ dy ≠ 0) :
    count_dir_loop b dx dy p (15 + m) nx ny cnt = count_dir_loop b dx dy p 15 nx ny cnt := by
  by_cases hin : in_range nx ny = true
  · apply count_dir_loop_add b dx dy p 15 15 nx ny cnt m (le_refl _)
    rw [in_range_iff] at hin
    rw [Bool.eq_false_iff]
    intro h
    rw [in_range_iff] at h
    push_cast at h
    omega
  · apply count_dir_loop_add b dx dy p 15 0 nx ny cnt m (by omega)
    simpa using hin

/-- The last subtraction of `evaluate_cell` is exact when the score and the two squares are
small. -/
theorem to_int_tail (score p1 p2 : Int) (hs : -1000 ≤ score ∧ score ≤ 2000000)
    (h1 : 0 ≤ p1 ∧ p1 ≤ 196) (h2 : 0 ≤ p2 ∧ p2 ≤ 196) :
    to_int (score - to_int (to_int p1 + to_int p2)) = score - (p1 + p2) := by
  rw [to_int_of_range p1 (by omega), to_int_of_range p2 (by omega),
    to_int_of_range (p1 + p2) (by omega), to_int_of_range _ (by omega)]

/-- The score of an empty cell of the board, term by term, when each of `hx`, `hy` is
negative or at most 14. -/
theorem evaluate_cell_eq (b : Board) (x y hx hy : Int)
    (hr : 0 ≤ x ∧ x < 15 ∧ 0 ≤ y ∧ y < 15) (he : b y x = 0) (hhx : hx < 15) (hhy : hy < 15) :
    evaluate_cell b x y hx hy =
      (if longest_line_if b x y 2 ≥ 5 then 1000000 else 0)
      + (if longest_line_if b x y 1 ≥ 5 then 900000 else 0)
      + (if longest_line_if b x y 2 = 4 then 50000
         else if longest_line_if b x y 2 = 3 then 10000 else 0)
      + (if longest_line_if b x y 1 = 4 then 40000
         else if longest_line_if b x y 1 = 3 then 8000 else 0)
      - ((x - 7) ^ 2 + (y - 7) ^ 2)
      - (if hx ≥ 0 ∧ hy ≥ 0 then (x - hx) ^ 2 + (y - hy) ^ 2 else 0) := by
  have hin : in_range x y = true := (in_range_iff x y).2 hr
  have hg : get_stone b x y = 0 := by
    unfold get_stone BOARD_SIZE
    rw [if_neg (by omega)]
    exact he
  have hc : ((15 : Int) - 1) / 2 = 7 := by norm_num
  have d1 : 0 ≤ (x - 7) * (x - 7) ∧ (x - 7) * (x - 7) ≤ 49 := by
    constructor <;> nlinarith
  have d2 : 0 ≤ (y - 7) * (y - 7) ∧ (y - 7) * (y - 7) ≤ 49 := by
    constructor <;> nlinarith
  unfold evaluate_cell is_five_if
  generalize longest_line_if b x y 2 = l2
  generalize longest_line_if b x y 1 = l1
  rw [hin, hg]
  simp only [BOARD_SIZE, hc, Bool.not_true, ne_eq, not_true_eq_false,
    decide_False, Bool.or_self, Bool.false_eq_true, if_false, decide_eq_true_eq]
  have h2 : (l2 ≥ 5 ∧ l2 ≠ 4 ∧ l2 ≠ 3) ∨ (¬ l2 ≥ 5 ∧ l2 = 4 ∧ l2 ≠ 3) ∨
      (¬ l2 ≥ 5 ∧ l2 ≠ 4 ∧ l2 = 3) ∨ (¬ l2 ≥ 5 ∧ l2 ≠ 4 ∧ l2 ≠ 3) := by omega
  have h1 : (l1 ≥ 5 ∧ l1 ≠ 4 ∧ l1 ≠ 3) ∨ (¬ l1 ≥ 5 ∧ l1 = 4 ∧ l1 ≠ 3) ∨
      (¬ l1 ≥ 5 ∧ l1 ≠ 4 ∧ l1 = 3) ∨ (¬ l1 ≥ 5 ∧ l1 ≠ 4 ∧ l1 ≠ 3) := by omega
  by_cases hh : hx ≥ 0 ∧ hy ≥ 0
  · have p1 : 0 ≤ (x - hx) * (x - hx) ∧ (x - hx) * (x - hx) ≤ 196 := by
      constructor <;> nlinarith
    have p2 : 0 ≤ (y - hy) * (y - hy) ∧ (y - hy) * (y - hy) ≤ 196 := by
      constructor <;> nlinarith
    rw [if_pos hh, if_pos hh, to_int_tail _ _ _ (by split_ifs <;> omega) p1 p2]
    rcases h2 with ⟨h2, h2', h2''⟩ | ⟨h2, h2', h2''⟩ | ⟨h2, h2', h2''⟩ | ⟨h2, h2', h2''⟩ <;>
    rcases h1 with ⟨h1, h1', h1''⟩ | ⟨h1, h1', h1''⟩ | ⟨h1, h1', h1''⟩ | ⟨h1, h1', h1''⟩ <;>
    simp [h1, h1', h1'', h2, h2', h2''] <;>
    ring
  · rcases h2 with ⟨h2, h2', h2''⟩ | ⟨h2, h2', h2''⟩ | ⟨h2, h2', h2''⟩ | ⟨h2, h2', h2''⟩ <;>
    rcases h1 with ⟨h1, h1', h1''⟩ | ⟨h1, h1', h1''⟩ | ⟨h1, h1', h1''⟩ | ⟨h1, h1', h1''⟩ <;>
    simp [hh, h1, h1', h1'', h2, h2', h2''] <;>
    ring

/-- C10 does not hold for every `(hx, hy)`: at the empty cell `(0, 0)` of the empty board
with `hx = hy = 100000` the formula of the claim has the value -20,000,000,098, which no
`int` holds, while the squares of `evaluate_cell` leave the range of `int` and the function
returns 1,474,836,382. -/
theorem evaluate_cell_formula_counterexample :
    evaluate_cell init_board 0 0 100000 100000 = 1474836382 ∧
    (if longest_line_if init_board 0 0 2 ≥ 5 then (1000000 : Int) else 0)
      + (if longest_line_if init_board 0 0 1 ≥ 5 then 900000 else 0)
      + (if longest_line_if init_board 0 0 2 = 4 then 50000
         else if longest_line_if init_board 0 0 2 = 3 then 10000 else 0)
      + (if longest_line_if init_board 0 0 1 = 4 then 40000
         else if longest_line_if init_board 0 0 1 = 3 then 8000 else 0)
      - (((0 : Int) - 7) ^ 2 + ((0 : Int) - 7) ^ 2)
      - (if (100000 : Int) ≥ 0 ∧ (100000 : Int) ≥ 0
         then ((0 : Int) - 100000) ^ 2 + ((0 : Int) - 100000) ^ 2 else 0) = -20000000098 ∧
    evaluate_cell init_board 0 0 100000 100000 ≠ -20000000098 := by
  decide

/-- C10, amended: for `hx`, `hy` each negative or in 0..14 (the coordinates of an accepted
move, the only values the server passes), on an empty cell of the board
`evaluate_cell(x, y, hx, hy)` is the sum of the win bonus 1,000,000 (AI line of 5 or more),
the block bonus 900,000 (human line of 5 or more), the AI pattern bonus (50,000 for a line
of 4, 10,000 for 3), the human pattern bonus (40,000 for 4, 8,000 for 3), minus the squared
distance to the centre (7, 7), minus the squared distance to `(hx, hy)` when both of these
are non-negative. -/
theorem evaluate_cell_formula (b : Board) (x y hx hy : Int)
    (hr : 0 ≤ x ∧ x < 15 ∧ 0 ≤ y ∧ y < 15) (he : b y x = 0)
    (hhx : hx < 0 ∨ (0 ≤ hx ∧ hx ≤ 14)) (hhy : hy < 0 ∨ (0 ≤ hy ∧ hy ≤ 14)) :
    evaluate_cell b x y hx hy =
      (if longest_line_if b x y 2 ≥ 5 then 1000000 else 0)
      + (if longest_line_if b x y 1 ≥ 5 then 900000 else 0)
      + (if longest_line_if b x y 2 = 4 then 50000
         else if longest_line_if b x y 2 = 3 then 10000 else 0)
      + (if longest_line_if b x y 1 = 4 then 40000
         else if longest_line_if b x y 1 = 3 then 8000 else 0)
      - ((x - 7) ^ 2 + (y - 7) ^ 2)
      - (if hx ≥ 0 ∧ hy ≥ 0 then (x - hx) ^ 2 + (y - hy) ^ 2 else 0) :=
  evaluate_cell_eq b x y hx hy hr he (by omega) (by omega)

/-- Three stones of player 2 at (3,0), (4,0), (5,0). -/
theorem evaluate_cell_formula_witness :
    evaluate_cell (place_all init_board 2 [(3, 0), (4, 0), (5, 0)]) 6 0 5 1 = 49948 :=
  (evaluate_cell_formula (place_all init_board 2 [(3, 0), (4, 0), (5, 0)]) 6 0 5 1
    (by decide) (by decide) (by decide) (by decide)).trans (by decide)

/-! ### The session engine: dispatch -/

theorem handle_line_join {s : Session} {i : Fin 2} {data : List Char}
    (h : parse_command (c_str (cut_newline data)) = CMD_JOIN) :
    handle_line s i data = handle_join s i := by
  simp [handle_line, h]

theorem handle_line_mode {s : Session} {i : Fin 2} {data : List Char}
    (h : parse_command (c_str (cut_newline data)) = CMD_MODE) :
    handle_line s i data = handle_mode s i (c_str (cut_newline data)) := by
  simp [handle_line, h, CMD_MODE, CMD_JOIN]

theorem handle_line_move {s : Session} {i : Fin 2} {data : List Char}
    (h : parse_command (c_str (cut_newline data)) = CMD_MOVE) :
    handle_line s i data = handle_move s i (c_str ((cut_newline data).drop 5)) := by
  simp [handle_line, h, CMD_MODE, CMD_JOIN, CMD_MOVE]

theorem handle_line_restart {s : Session} {i : Fin 2} {data : List Char}
    (h : parse_command (c_str (cut_newline data)) = CMD_RESTART) :
    handle_line s i data = handle_restart s i := by
  simp [handle_line, h, CMD_MODE, CMD_JOIN, CMD_MOVE, CMD_RESTART]

theorem handle_line_exit {s : Session} {i : Fin 2} {data : List Char}
    (h : parse_command (c_str (cut_newline data)) = CMD_EXIT) :
    handle_line s i data = handle_exit s i := by
  simp [handle_line, h, CMD_MODE, CMD_JOIN, CMD_MOVE, CMD_RESTART, CMD_EXIT]

theorem handle_line_none {s : Session} {i : Fin 2} {data : List Char}
    (h : parse_command (c_str (cut_newline data)) = CMD_NONE) :
    handle_line s i data = (s, []) := by
  simp [handle_line, h, CMD_MODE, CMD_JOIN, CMD_MOVE, CMD_RESTART, CMD_EXIT, CMD_NONE]

theorem parse_command_cases (msg : List Char) :
    parse_command msg = CMD_JOIN ∨ parse_command msg = CMD_MODE ∨ parse_command msg = CMD_MOVE ∨
    parse_command msg = CMD_RESTART ∨ parse_command msg = CMD_EXIT ∨
    parse_command msg = CMD_NONE := by
  unfold parse_command
  split_ifs <;> simp

/-! ### Occupied cells are kept -/

theorem place_stone_keeps (b : Board) (x y p xx yy : Int) (h : b yy xx ≠ 0) :
    (place_stone b x y p).2 yy xx = b yy xx := by
  unfold place_stone
  split_ifs with h1 h2
  · rfl
  · rfl
  · have h3 : b y x = 0 := not_not.1 h2
    have : ¬ (yy = y ∧ xx = x) := by
      rintro ⟨rfl, rfl⟩; exact h h3
    simp [set_cell, this]

theorem place_stone_fst (b : Board) (x y p : Int) :
    (place_stone b x y p).1 = 0 ∨ (place_stone b x y p).1 = 1 := by
  unfold place_stone
  split_ifs <;> simp

theorem fallback_inner (b : Board) (yy : Int) (l : List Int) :
    ∀ acc : Option (Int × Int × Board),
      (∀ r, acc = some r → (place_stone b r.1 r.2.1 2).1 ≠ 0 ∧ r.2.2 = (place_stone b r.1 r.2.1 2).2) →
      ∀ r, l.foldl (fun acc xx =>
          match acc with
          | some r => some r
          | none =>
            if (place_stone b xx yy 2).1 ≠ 0 then some (xx, yy, (place_stone b xx yy 2).2)
            else none) acc = some r →
        (place_stone b r.1 r.2.1 2).1 ≠ 0 ∧ r.2.2 = (place_stone b r.1 r.2.1 2).2 := by
  induction l with
  | nil => intro acc h r hr; exact h r hr
  | cons xx l ih =>
    intro acc h r hr
    rw [List.foldl_cons] at hr
    refine ih _ ?_ r hr
    intro r' hr'
    cases acc with
    | some a =>
      simp only at hr'
      exact h r' hr'
    | none =>
      simp only at hr'
      split_ifs at hr' with hp
      · cases hr'
        exact ⟨hp, rfl⟩

theorem fallback_outer (b : Board) (l : List Int) :
    ∀ acc : Option (Int × Int × Board),
      (∀ r, acc = some r → (place_stone b r.1 r.2.1 2).1 ≠ 0 ∧ r.2.2 = (place_stone b r.1 r.2.1 2).2) →
      ∀ r, l.foldl (fun acc yy =>
          indices.foldl (fun acc xx =>
            match acc with
            | some r => some r
            | none =>
              if (place_stone b xx yy 2).1 ≠ 0 then some (xx, yy, (place_stone b xx yy 2).2)
              else none) acc) acc = some r →
        (place_stone b r.1 r.2.1 2).1 ≠ 0 ∧ r.2.2 = (place_stone b r.1 r.2.1 2).2 := by
  induction l with
  | nil => intro acc h r hr; exact h r hr
  | cons yy l ih =>
    intro acc h r hr
    rw [List.foldl_cons] at hr
    exact ih _ (fallback_inner b yy indices acc h) r hr

/-- What the fallback scan returns is a successful `place_stone` of player 2. -/
theorem fallback_scan_some {b : Board} {ax ay : Int} {b2 : Board}
    (h : fallback_scan b = some (ax, ay, b2)) :
    (place_stone b ax ay 2).1 ≠ 0 ∧ b2 = (place_stone b ax ay 2).2 :=
  fallback_outer b indices none (fun r hr => by cases hr) (ax, ay, b2) h

theorem ai_announce_board (s : Session) (b : Board) (p ax ay : Int) :
    (ai_announce s b p ax ay).1.board = b := by
  unfold ai_announce
  split_ifs <;> rfl

/-- After the PVAI branch the board is the one it was entered with, or that board with one
more successful `place_stone` of player 2. -/
theorem ai_reply_board (s : Session) (b : Board) (p x y : Int) :
    (ai_reply s b p x y).1.board = b ∨
    ∃ ax ay : Int, (ai_reply s b p x y).1.board = (place_stone b ax ay 2).2 := by
  simp only [ai_reply]
  split_ifs with h
  · cases hf : fallback_scan b with
    | none => exact Or.inl rfl
    | some r =>
      obtain ⟨ax, ay, b2⟩ := r
      refine Or.inr ⟨ax, ay, ?_⟩
      simp only [ai_announce_board]
      exact (fallback_scan_some hf).2
  · exact Or.inr ⟨_, _, ai_announce_board _ _ _ _ _⟩

theorem ai_reply_keeps (s : Session) (b : Board) (p x y xx yy : Int) (h : b yy xx ≠ 0) :
    (ai_reply s b p x y).1.board yy xx = b yy xx := by
  rcases ai_reply_board s b p x y with e | ⟨ax, ay, e⟩
  · rw [e]
  · rw [e]; exact place_stone_keeps b ax ay 2 xx yy h

/-! ### The `CMD_MOVE` branch, case by case -/

theorem handle_move_game_over {s : Session} (i : Fin 2) (payload : List Char)
    (h : s.game_over ≠ 0) :
    handle_move s i payload = (s, [{ slot := i, text := "ERR GAME_OVER\n", len := 14 }]) := by
  simp only [handle_move]
  rw [if_pos h]

theorem handle_move_not_turn {s : Session} (i : Fin 2) (payload : List Char)
    (h0 : s.game_over = 0) (h1 : (i.val : Int) + 1 ≠ s.current_turn) :
    handle_move s i payload = (s, [{ slot := i, text := "ERR NOT_YOUR_TURN\n", len := 19 }]) := by
  simp only [handle_move]
  rw [if_neg (not_not.2 h0), if_pos h1]

theorem handle_move_bad_format {s : Session} (i : Fin 2) (payload : List Char)
    (h0 : s.game_over = 0) (h1 : (i.val : Int) + 1 = s.current_turn)
    (h2 : sscanf_d_d payload = none) :
    handle_move s i payload = (s, [{ slot := i, text := "ERR BAD_FORMAT\n", len := 16 }]) := by
  simp only [handle_move]
  rw [if_neg (not_not.2 h0), if_neg (not_not.2 h1), h2]

theorem handle_move_invalid {s : Session} (i : Fin 2) (payload : List Char) (x y : Int)
    (h0 : s.game_over = 0) (h1 : (i.val : Int) + 1 = s.current_turn)
    (h2 : sscanf_d_d payload = some (x, y))
    (h3 : (place_stone s.board x y ((i.val : Int) + 1)).1 = 0) :
    handle_move s i payload = (s, [{ slot := i, text := "ERR INVALID_MOVE\n", len := 18 }]) := by
  simp only [handle_move]
  rw [if_neg (not_not.2 h0), if_neg (not_not.2 h1), h2]
  simp only
  rw [if_pos h3]

theorem handle_move_win {s : Session} (i : Fin 2) (payload : List Char) (x y : Int)
    (h0 : s.game_over = 0) (h1 : (i.val : Int) + 1 = s.current_turn)
    (h2 : sscanf_d_d payload = some (x, y))
    (h3 : (place_stone s.board x y ((i.val : Int) + 1)).1 ≠ 0)
    (h4 : check_win (place_stone s.board x y ((i.val : Int) + 1)).2 ((i.val : Int) + 1) ≠ 0) :
    handle_move s i payload =
      ({ s with board := (place_stone s.board x y ((i.val : Int) + 1)).2, game_over := 1 },
        broadcast s.client_fd (move_msg ((i.val : Int) + 1) x y) ++
        broadcast s.client_fd (win_msg ((i.val : Int) + 1)) ++
        broadcast s.client_fd "GAME_OVER\n") := by
  simp only [handle_move]
  rw [if_neg (not_not.2 h0), if_neg (not_not.2 h1), h2]
  simp only
  rw [if_neg h3, if_pos h4]

theorem handle_move_pvp {s : Session} (i : Fin 2) (payload : List Char) (x y : Int)
    (h0 : s.game_over = 0) (h1 : (i.val : Int) + 1 = s.current_turn)
    (h2 : sscanf_d_d payload = some (x, y))
    (h3 : (place_stone s.board x y ((i.val : Int) + 1)).1 ≠ 0)
    (h4 : ¬ check_win (place_stone s.board x y ((i.val : Int) + 1)).2 ((i.val : Int) + 1) ≠ 0)
    (h5 : s.game_mode ≠ MODE_PVAI) :
    handle_move s i payload =
      ({ s with board := (place_stone s.board x y ((i.val : Int) + 1)).2,
                current_turn := if s.current_turn = 1 then 2 else 1 },
        broadcast s.client_fd (move_msg ((i.val : Int) + 1) x y) ++
        broadcast s.client_fd (turn_msg (if s.current_turn = 1 then 2 else 1))) := by
  simp only [handle_move]
  rw [if_neg (not_not.2 h0), if_neg (not_not.2 h1), h2]
  simp only
  rw [if_neg h3, if_neg h4, if_neg h5]
  split_ifs <;> rfl

theorem handle_move_pvai {s : Session} (i : Fin 2) (payload : List Char) (x y : Int)
    (h0 : s.game_over = 0) (h1 : (i.val : Int) + 1 = s.current_turn)
    (h2 : sscanf_d_d payload = some (x, y))
    (h3 : (place_stone s.board x y ((i.val : Int) + 1)).1 ≠ 0)
    (h4 : ¬ check_win (place_stone s.board x y ((i.val : Int) + 1)).2 ((i.val : Int) + 1) ≠ 0)
    (h5 : s.game_mode = MODE_PVAI) :
    handle_move s i payload =
      ((ai_reply s (place_stone s.board x y ((i.val : Int) + 1)).2 ((i.val : Int) + 1) x y).1,
        broadcast s.client_fd (move_msg ((i.val : Int) + 1) x y) ++
        (ai_reply s (place_stone s.board x y ((i.val : Int) + 1)).2 ((i.val : Int) + 1) x y).2) := by
  have h6 : s.game_mode ≠ MODE_PVP := by rw [h5]; decide
  simp only [handle_move]
  rw [if_neg (not_not.2 h0), if_neg (not_not.2 h1), h2]
  simp only
  rw [if_neg h3, if_neg h4, if_neg h6, if_pos h5]

/-- The `CMD_MOVE` branch either answers with one error line and leaves the session as it
was, or places the sender's stone and then at most one stone of player 2. -/
theorem handle_move_cases (s : Session) (i : Fin 2) (payload : List Char) :
    (∃ t n, handle_move s i payload = (s, [{ slot := i, text := t, len := n }]) ∧
      t ∈ ["ERR GAME_OVER\n", "ERR NOT_YOUR_TURN\n", "ERR BAD_FORMAT\n", "ERR INVALID_MOVE\n"]) ∨
    (∃ x y : Int, s.game_over = 0 ∧ (i.val : Int) + 1 = s.current_turn ∧
      sscanf_d_d payload = some (x, y) ∧
      (place_stone s.board x y ((i.val : Int) + 1)).1 ≠ 0 ∧
      ((check_win (place_stone s.board x y ((i.val : Int) + 1)).2 ((i.val : Int) + 1) ≠ 0 ∧
        handle_move s i payload =
          ({ s with board := (place_stone s.board x y ((i.val : Int) + 1)).2, game_over := 1 },
            broadcast s.client_fd (move_msg ((i.val : Int) + 1) x y) ++
            broadcast s.client_fd (win_msg ((i.val : Int) + 1)) ++
            broadcast s.client_fd "GAME_OVER\n")) ∨
       (¬ check_win (place_stone s.board x y ((i.val : Int) + 1)).2 ((i.val : Int) + 1) ≠ 0 ∧
        s.game_mode ≠ MODE_PVAI ∧
        handle_move s i payload =
          ({ s with board := (place_stone s.board x y ((i.val : Int) + 1)).2,
                    current_turn := if s.current_turn = 1 then 2 else 1 },
            broadcast s.client_fd (move_msg ((i.val : Int) + 1) x y) ++
            broadcast s.client_fd (turn_msg (if s.current_turn = 1 then 2 else 1)))) ∨
       (¬ check_win (place_stone s.board x y ((i.val : Int) + 1)).2 ((i.val : Int) + 1) ≠ 0 ∧
        s.game_mode = MODE_PVAI ∧
        handle_move s i payload =
          ((ai_reply s (place_stone s.board x y ((i.val : Int) + 1)).2
              ((i.val : Int) + 1) x y).1,
            broadcast s.client_fd (move_msg ((i.val : Int) + 1) x y) ++
            (ai_reply s (place_stone s.board x y ((i.val : Int) + 1)).2
              ((i.val : Int) + 1) x y).2)))) := by
  by_cases h0 : s.game_over = 0
  swap
  · exact Or.inl ⟨_, _, handle_move_game_over i payload h0, by simp⟩
  by_cases h1 : (i.val : Int) + 1 = s.current_turn
  swap
  · exact Or.inl ⟨_, _, handle_move_not_turn i payload h0 h1, by simp⟩
  cases h2 : sscanf_d_d payload with
  | none => exact Or.inl ⟨_, _, handle_move_bad_format i payload h0 h1 h2, by simp⟩
  | some xy =>
    obtain ⟨x, y⟩ := xy
    by_cases h3 : (place_stone s.board x y ((i.val : Int) + 1)).1 = 0
    · exact Or.inl ⟨_, _, handle_move_invalid i payload x y h0 h1 h2 h3, by simp⟩
    refine Or.inr ⟨x, y, h0, h1, rfl, h3, ?_⟩
    by_cases h4 : check_win (place_stone s.board x y ((i.val : Int) + 1)).2 ((i.val : Int) + 1) ≠ 0
    · exact Or.inl ⟨h4, handle_move_win i payload x y h0 h1 h2 h3 h4⟩
    by_cases h5 : s.game_mode = MODE_PVAI
    · exact Or.inr (Or.inr ⟨h4, h5, handle_move_pvai i payload x y h0 h1 h2 h3 h4 h5⟩)
    · exact Or.inr (Or.inl ⟨h4, h5, handle_move_pvp i payload x y h0 h1 h2 h3 h4 h5⟩)

theorem handle_move_keeps (s : Session) (i : Fin 2) (payload : List Char) (xx yy : Int)
    (h : s.board yy xx ≠ 0) : (handle_move s i payload).1.board yy xx = s.board yy xx := by
  have hp : ∀ x y p : Int, (place_stone s.board x y p).2 yy xx = s.board yy xx :=
    fun x y p => place_stone_keeps _ _ _ _ _ _ h
  rcases handle_move_cases s i payload with ⟨t, n, e, _⟩ | ⟨x, y, _, _, _, _, hc⟩
  · exact congrArg (fun r : Session × List Write => r.1.board yy xx) e
  · rcases hc with ⟨_, e⟩ | ⟨_, _, e⟩ | ⟨_, _, e⟩
    · exact (congrArg (fun r : Session × List Write => r.1.board yy xx) e).trans (hp _ _ _)
    · exact (congrArg (fun r : Session × List Write => r.1.board yy xx) e).trans (hp _ _ _)
    · rw [e]
      simp only []
      rw [ai_reply_keeps s (place_stone s.board x y (↑↑i + 1)).2 (↑↑i + 1) x y xx yy
        (by rw [hp]; exact h)]
      exact hp _ _ _

/-- When the `CMD_MOVE` branch returns the session unchanged with a single write, one of the
four error conditions held. -/
theorem handle_move_game_over_or (s : Session) (i : Fin 2) (payload : List Char)
    {t : String} {n : Nat}
    (e : handle_move s i payload = (s, [{ slot := i, text := t, len := n }])) :
    s.game_over ≠ 0 ∨ (i.val : Int) + 1 ≠ s.current_turn ∨ sscanf_d_d payload = none ∨
    ∃ x y : Int, sscanf_d_d payload = some (x, y) ∧
      (place_stone s.board x y ((i.val : Int) + 1)).1 = 0 := by
  by_cases h0 : s.game_over = 0
  swap
  · exact Or.inl h0
  by_cases h1 : (i.val : Int) + 1 = s.current_turn
  swap
  · exact Or.inr (Or.inl h1)
  cases h2 : sscanf_d_d payload with
  | none => exact Or.inr (Or.inr (Or.inl rfl))
  | some xy =>
    obtain ⟨x, y⟩ := xy
    by_cases h3 : (place_stone s.board x y ((i.val : Int) + 1)).1 = 0
    · exact Or.inr (Or.inr (Or.inr ⟨x, y, rfl, h3⟩))
    exfalso
    have hp1 : (place_stone s.board x y ((i.val : Int) + 1)).1 = 1 := by
      rcases place_stone_fst s.board x y ((i.val : Int) + 1) with h | h
      · exact absurd h h3
      · exact h
    have hcell : (place_stone s.board x y ((i.val : Int) + 1)).2 y x = (i.val : Int) + 1 :=
      ((place_stone_char s.board x y ((i.val : Int) + 1)).2.1 hp1).1
    have hempty : s.board y x = 0 := ((place_stone_char s.board x y _).1.1 hp1).2.2.2.2
    have hpos : (i.val : Int) + 1 ≠ 0 := by omega
    have hb : (handle_move s i payload).1.board y x = s.board y x := by rw [e]
    have hb2 : (handle_move s i payload).1.board y x = (i.val : Int) + 1 := by
      by_cases h4 : check_win (place_stone s.board x y ((i.val : Int) + 1)).2
          ((i.val : Int) + 1) ≠ 0
      · rw [handle_move_win i _ x y h0 h1 h2 h3 h4]; exact hcell
      · by_cases h5 : s.game_mode = MODE_PVAI
        · rw [handle_move_pvai i _ x y h0 h1 h2 h3 h4 h5]
          simp only []
          rw [ai_reply_keeps s (place_stone s.board x y (↑↑i + 1)).2 (↑↑i + 1) x y x y
            (by rw [hcell]; exact hpos)]
          exact hcell
        · rw [handle_move_pvp i _ x y h0 h1 h2 h3 h4 h5]; exact hcell
    rw [hb, hempty] at hb2
    exact hpos hb2.symm

theorem handle_join_board (s : Session) (i : Fin 2) : (handle_join s i).1.board = s.board := by
  unfold handle_join
  split_ifs <;> rfl

/-- One step that is not a reset step keeps every occupied cell. -/
theorem handle_line_keeps (s : Session) (i : Fin 2) (data : List Char)
    (hnr : ¬ is_reset s data) (xx yy : Int) (h : s.board yy xx ≠ 0) :
    (handle_line s i data).1.board yy xx = s.board yy xx := by
  unfold is_reset at hnr
  rcases parse_command_cases (c_str (cut_newline data)) with hc | hc | hc | hc | hc | hc
  · rw [handle_line_join hc, handle_join_board]
  · rw [handle_line_mode hc]
    unfold handle_mode
    cases hm : sscanf_MODE_d (c_str (cut_newline data)) with
    | none => rfl
    | some m =>
      by_cases h1 : m = 1
      · exact absurd (Or.inr (Or.inr ⟨hc, by rw [hm, h1]⟩)) hnr
      · by_cases h2 : m = 2
        · simp only [if_neg h1, if_pos h2]
        · simp only [if_neg h1, if_neg h2]
  · rw [handle_line_move hc]
    exact handle_move_keeps s i _ xx yy h
  · rw [handle_line_restart hc]
    unfold handle_restart
    split_ifs with h1
    · rfl
    · exact absurd (Or.inr (Or.inl ⟨hc, h1⟩)) hnr
  · exact absurd (Or.inl hc) hnr
  · rw [handle_line_none hc]

/-- C3: along every run of the engine in which no step is a full-board reset (`MODE 1`,
an accepted `RESTART`, `EXIT`), a cell that is occupied keeps its value: no step, the AI
reply and the fallback scan included, overwrites or clears an occupied cell.  A `MODE` line
is a reset when the number `sscanf` stores in `mode_num` is 1, whatever its spelling. -/
theorem occupied_cells_kept (s : Session) (evs : List (Fin 2 × List Char))
    (hnr : no_reset s evs) (x y : Int) (hocc : s.board y x ≠ 0) :
    (run s evs).board y x = s.board y x := by
  induction evs generalizing s with
  | nil => rfl
  | cons e es ih =>
    obtain ⟨h1, h2⟩ := hnr
    have hk := handle_line_keeps s e.1 e.2 h1 x y hocc
    show (run (handle_line s e.1 e.2).1 es).board y x = s.board y x
    rw [ih _ h2 (by rw [hk]; exact hocc), hk]

/-- A run of four lines that keeps the stone at (7, 7), among them a `MOVE` whose numbers
are stored as 7 and 7; and a `MODE` line whose number is stored as 1, which is a reset and
empties the board. -/
theorem occupied_cells_kept_witness :
    (run (example_session MODE_PVP (place_all init_board 1 [(7, 7)]) 2 0)
      [(1, "MOVE 7 7\n".toList), (1, "MOVE 8 7\n".toList),
       (0, "MOVE 4294967303 4294967303\n".toList), (0, "JOIN again\n".toList),
       (0, "MODE 4294967299\n".toList)]).board 7 7 = 1 ∧
    is_reset (example_session MODE_PVP (place_all init_board 1 [(7, 7)]) 2 0)
      "MODE 4294967297\n".toList ∧
    (handle_line (example_session MODE_PVP (place_all init_board 1 [(7, 7)]) 2 0) 0
      "MODE 4294967297\n".toList).1.board 7 7 = 0 :=
  ⟨occupied_cells_kept (example_session MODE_PVP (place_all init_board 1 [(7, 7)]) 2 0)
    [(1, "MOVE 7 7\n".toList), (1, "MOVE 8 7\n".toList),
     (0, "MOVE 4294967303 4294967303\n".toList), (0, "JOIN again\n".toList),
     (0, "MODE 4294967299\n".toList)]
    ⟨by decide, by decide, by decide, by decide, by decide, trivial⟩ 7 7 (by decide),
   by decide, by decide⟩

/-! ### The order of the checks on a `MOVE` -/

/-- C4: a line classified as `MOVE` from slot `i` (player `i + 1`) is checked in this
order: game over gives `ERR GAME_OVER`; else a sender who is not `current_turn` gets
`ERR NOT_YOUR_TURN`; else a payload that does not scan as two integers gives
`ERR BAD_FORMAT`; else a failing `place_stone` gives `ERR INVALID_MOVE`; each of these is one
write to the sender and leaves the session, the board included, as it was.  Only when none
holds is the stone placed: the cell then holds the sender's id, no occupied cell changed,
and the writes start with the broadcast of `MOVE <player> <x> <y>`.  Here `x` and `y` are
the values `sscanf` stores in the `int` variables of the program. -/
theorem move_checks_in_order (s : Session) (i : Fin 2) (data : List Char)
    (hcmd : parse_command (c_str (cut_newline data)) = CMD_MOVE) :
    (s.game_over ≠ 0 →
      handle_line s i data = (s, [{ slot := i, text := "ERR GAME_OVER\n", len := 14 }])) ∧
    (s.game_over = 0 → (i.val : Int) + 1 ≠ s.current_turn →
      handle_line s i data = (s, [{ slot := i, text := "ERR NOT_YOUR_TURN\n", len := 19 }])) ∧
    (s.game_over = 0 → (i.val : Int) + 1 = s.current_turn →
      sscanf_d_d (c_str ((cut_newline data).drop 5)) = none →
      handle_line s i data = (s, [{ slot := i, text := "ERR BAD_FORMAT\n", len := 16 }])) ∧
    (∀ x y : Int, s.game_over = 0 → (i.val : Int) + 1 = s.current_turn →
      sscanf_d_d (c_str ((cut_newline data).drop 5)) = some (x, y) →
      (place_stone s.board x y ((i.val : Int) + 1)).1 = 0 →
      handle_line s i data = (s, [{ slot := i, text := "ERR INVALID_MOVE\n", len := 18 }])) ∧
    (∀ x y : Int, s.game_over = 0 → (i.val : Int) + 1 = s.current_turn →
      sscanf_d_d (c_str ((cut_newline data).drop 5)) = some (x, y) →
      (place_stone s.board x y ((i.val : Int) + 1)).1 ≠ 0 →
      (handle_line s i data).1.board y x = (i.val : Int) + 1 ∧
      (∀ xx yy : Int, s.board yy xx ≠ 0 → (handle_line s i data).1.board yy xx = s.board yy xx) ∧
      ∃ rest : List Write,
        (handle_line s i data).2 =
          broadcast s.client_fd (move_msg ((i.val : Int) + 1) x y) ++ rest) := by
  rw [handle_line_move hcmd]
  refine ⟨handle_move_game_over i _, handle_move_not_turn i _, handle_move_bad_format i _,
    fun x y h0 h1 h2 h3 => handle_move_invalid i _ x y h0 h1 h2 h3, ?_⟩
  intro x y h0 h1 h2 h3
  have hp1 : (place_stone s.board x y ((i.val : Int) + 1)).1 = 1 := by
    rcases place_stone_fst s.board x y ((i.val : Int) + 1) with h | h
    · exact absurd h h3
    · exact h
  have hcell : (place_stone s.board x y ((i.val : Int) + 1)).2 y x = (i.val : Int) + 1 :=
    ((place_stone_char s.board x y ((i.val : Int) + 1)).2.1 hp1).1
  have hpos : (i.val : Int) + 1 ≠ 0 := by omega
  refine ⟨?_, fun xx yy h => handle_move_keeps s i _ xx yy h, ?_⟩
  · rcases handle_move_cases s i (c_str ((cut_newline data).drop 5)) with
      ⟨t, n, e, _⟩ | ⟨x', y', _, _, h2', _, hc⟩
    · exfalso
      rcases handle_move_game_over_or s i _ e with h | h | h | h
      · exact h h0
      · exact h h1
      · rw [h2] at h; cases h
      · obtain ⟨x', y', hs, hp⟩ := h
        rw [h2] at hs
        cases hs
        exact h3 hp
    · rw [h2] at h2'
      cases h2'
      rcases hc with ⟨_, e⟩ | ⟨_, _, e⟩ | ⟨_, _, e⟩
      · rw [e]; exact hcell
      · rw [e]; exact hcell
      · rw [e]
        simp only []
        rw [ai_reply_keeps s (place_stone s.board x y (↑↑i + 1)).2 (↑↑i + 1) x y x y
          (by rw [hcell]; exact hpos)]
        exact hcell
  · by_cases h4 : check_win (place_stone s.board x y ((i.val : Int) + 1)).2 ((i.val : Int) + 1) ≠ 0
    · rw [handle_move_win i _ x y h0 h1 h2 h3 h4]
      exact ⟨_, List.append_assoc _ _ _⟩
    · by_cases h5 : s.game_mode = MODE_PVAI
      · rw [handle_move_pvai i _ x y h0 h1 h2 h3 h4 h5]
        exact ⟨_, rfl⟩
      · rw [handle_move_pvp i _ x y h0 h1 h2 h3 h4 h5]
        exact ⟨_, rfl⟩

/-- A move out of turn; a move whose numbers are stored as 15 and 0, which is off the board;
and a move whose numbers are stored as 7 and 7, which is accepted. -/
theorem move_checks_in_order_witness :
    handle_line (example_session MODE_PVP init_board 1 0) 1 "MOVE 7 7\n".toList =
      (example_session MODE_PVP init_board 1 0,
        [{ slot := 1, text := "ERR NOT_YOUR_TURN\n", len := 19 }]) ∧
    handle_line (example_session MODE_PVP init_board 1 0) 0 "MOVE 4294967311 0\n".toList =
      (example_session MODE_PVP init_board 1 0,
        [{ slot := 0, text := "ERR INVALID_MOVE\n", len := 18 }]) ∧
    (handle_line (example_session MODE_PVP init_board 1 0) 0
      "MOVE 4294967303 4294967303\n".toList).1.board 7 7 = 1 ∧
    (handle_line (example_session MODE_PVP init_board 1 0) 0
      "MOVE 4294967303 4294967303\n".toList).2 =
      [{ slot := 0, text := "MOVE 1 7 7\n", len := 11 },
       { slot := 1, text := "MOVE 1 7 7\n", len := 11 },
       { slot := 0, text := "TURN 2\n", len := 7 }, { slot := 1, text := "TURN 2\n", len := 7 }] :=
  ⟨(move_checks_in_order (example_session MODE_PVP init_board 1 0) 1 "MOVE 7 7\n".toList
      (by decide)).2.1 (by decide) (by decide),
   (move_checks_in_order (example_session MODE_PVP init_board 1 0) 0
      "MOVE 4294967311 0\n".toList (by decide)).2.2.2.1 15 0 (by decide) (by decide)
      (by decide) (by decide),
   ((move_checks_in_order (example_session MODE_PVP init_board 1 0) 0
      "MOVE 4294967303 4294967303\n".toList (by decide)).2.2.2.2 7 7 (by decide) (by decide)
      (by decide) (by decide)).1,
   by decide⟩

/-! ### Error replies -/

theorem mem_broadcast {fds : Fin 2 → Int} {msg : String} {w : Write}
    (h : w ∈ broadcast fds msg) : w.text = msg := by
  unfold broadcast at h
  rw [List.mem_append] at h
  rcases h with h | h
  · split_ifs at h
    · rw [List.mem_singleton] at h; rw [h]
    · cases h
  · split_ifs at h
    · rw [List.mem_singleton] at h; rw [h]
    · cases h

theorem notErr_broadcast {fds : Fin 2 → Int} {msg : String} (hm : NotErr msg) :
    ∀ w ∈ broadcast fds msg, NotErr w.text := by
  intro w hw
  rw [mem_broadcast hw]
  exact hm

theorem notErr_move_msg (p x y : Int) : NotErr (move_msg p x y) := by
  have h : (move_msg p x y).toList.take 4 = ['M', 'O', 'V', 'E'] := by
    simp [move_msg, String.toList, String.data_append]
  unfold NotErr
  rw [h]
  decide

theorem notErr_win_msg (p : Int) : NotErr (win_msg p) := by
  have h : (win_msg p).toList.take 4 = ['W', 'I', 'N', ' '] := by
    simp [win_msg, String.toList, String.data_append]
  unfold NotErr
  rw [h]
  decide

theorem notErr_turn_msg (p : Int) : NotErr (turn_msg p) := by
  have h : (turn_msg p).toList.take 4 = ['T', 'U', 'R', 'N'] := by
    simp [turn_msg, String.toList, String.data_append]
  unfold NotErr
  rw [h]
  decide

theorem notErr_append {l1 l2 : List Write} (h1 : ∀ w ∈ l1, NotErr w.text)
    (h2 : ∀ w ∈ l2, NotErr w.text) : ∀ w ∈ l1 ++ l2, NotErr w.text := by
  intro w hw
  rcases List.mem_append.1 hw with h | h
  · exact h1 w h
  · exact h2 w h

theorem notErr_ai_announce (s : Session) (b : Board) (p ax ay : Int) :
    ∀ w ∈ (ai_announce s b p ax ay).2, NotErr w.text := by
  simp only [ai_announce]
  split_ifs
  · exact notErr_append (notErr_append (notErr_broadcast (notErr_move_msg _ _ _))
      (notErr_broadcast (notErr_win_msg _))) (notErr_broadcast (by decide))
  · exact notErr_append (notErr_broadcast (notErr_move_msg _ _ _))
      (notErr_broadcast (notErr_turn_msg _))

theorem notErr_ai_reply (s : Session) (b : Board) (p x y : Int) :
    ∀ w ∈ (ai_reply s b p x y).2, NotErr w.text := by
  simp only [ai_reply]
  split_ifs
  · cases fallback_scan b with
    | none => exact notErr_broadcast (by decide)
    | some r => exact notErr_ai_announce _ _ _ _ _
  · exact notErr_ai_announce _ _ _ _ _

theorem notErr_single (i : Fin 2) (t : String) (n : Nat) (h : NotErr t) :
    ∀ w ∈ [({ slot := i, text := t, len := n } : Write)], NotErr w.text := by
  intro w hw
  rw [List.mem_singleton] at hw
  rw [hw]; exact h

theorem notErr_nil : ∀ w ∈ ([] : List Write), NotErr w.text := by
  intro w hw; cases hw

/-- Every step of the engine either answers with exactly one of the seven error lines, sent
to the sender, and leaves the session as it was, or writes no text that begins with `ERR `. -/
theorem handle_line_frame (s : Session) (i : Fin 2) (data : List Char) :
    (∃ t n, handle_line s i data = (s, [{ slot := i, text := t, len := n }]) ∧ t ∈ err_lines) ∨
    (∀ w ∈ (handle_line s i data).2, NotErr w.text) := by
  rcases parse_command_cases (c_str (cut_newline data)) with hc | hc | hc | hc | hc | hc
  · right
    rw [handle_line_join hc]
    simp only [handle_join, send_mode_select_message]
    split_ifs
    · exact notErr_append (notErr_single _ _ _ (by decide)) (notErr_single _ _ _ (by decide))
    · exact notErr_append (notErr_single _ _ _ (by decide))
        (notErr_append (notErr_broadcast (by decide)) (notErr_broadcast (by decide)))
    · exact notErr_append (notErr_single _ _ _ (by decide)) notErr_nil
  · rw [handle_line_mode hc]
    unfold handle_mode
    cases sscanf_MODE_d (c_str (cut_newline data)) with
    | none => exact Or.inl ⟨_, _, rfl, by decide⟩
    | some m =>
      by_cases h1 : m = 1
      · right
        simp only [if_pos h1]
        exact notErr_append (notErr_broadcast (by decide)) (notErr_broadcast (by decide))
      · by_cases h2 : m = 2
        · right
          simp only [if_neg h1, if_pos h2]
          refine notErr_append (notErr_single _ _ _ (by decide)) ?_
          split_ifs
          · exact notErr_append (notErr_broadcast (by decide)) (notErr_broadcast (by decide))
          · exact notErr_nil
        · left
          simp only [if_neg h1, if_neg h2]
          exact ⟨_, _, rfl, by decide⟩
  · rw [handle_line_move hc]
    rcases handle_move_cases s i (c_str ((cut_newline data).drop 5)) with
      ⟨t, n, e, ht⟩ | ⟨x, y, _, _, _, _, hcase⟩
    · left
      refine ⟨t, n, e, ?_⟩
      simp only [List.mem_cons, List.mem_singleton, List.not_mem_nil, or_false] at ht
      rcases ht with rfl | rfl | rfl | rfl <;> decide
    · right
      rcases hcase with ⟨_, e⟩ | ⟨_, _, e⟩ | ⟨_, _, e⟩
      · rw [e]
        exact notErr_append (notErr_append (notErr_broadcast (notErr_move_msg _ _ _))
          (notErr_broadcast (notErr_win_msg _))) (notErr_broadcast (by decide))
      · rw [e]
        exact notErr_append (notErr_broadcast (notErr_move_msg _ _ _))
          (notErr_broadcast (notErr_turn_msg _))
      · rw [e]
        exact notErr_append (notErr_broadcast (notErr_move_msg _ _ _))
          (notErr_ai_reply _ _ _ _ _)
  · rw [handle_line_restart hc]
    unfold handle_restart
    split_ifs
    · exact Or.inl ⟨_, _, rfl, by decide⟩
    · right
      exact notErr_append (notErr_broadcast (by decide)) (notErr_broadcast (by decide))
  · right
    rw [handle_line_exit hc]
    simp only [handle_exit]
    split_ifs
    · exact notErr_single _ _ _ (by decide)
    · exact notErr_nil
    · exact notErr_single _ _ _ (by decide)
    · exact notErr_nil
  · right
    rw [handle_line_none hc]
    exact notErr_nil

/-- C5: whenever a step answers with an `ERR` line, that write is the only one of the
step, it goes to the slot that sent the command, its text is one of the seven error lines,
and the whole session (board, mode, turn, game-over flag, joined flags, descriptors) is the
same after the step as before. -/
theorem err_reply_frame (s : Session) (i : Fin 2) (data : List Char) (w : Write)
    (hw : w ∈ (handle_line s i data).2) (herr : w.text.toList.take 4 = ['E', 'R', 'R', ' ']) :
    (handle_line s i data).2 = [w] ∧ w.slot = i ∧ w.text ∈ err_lines ∧
    (handle_line s i data).1 = s := by
  rcases handle_line_frame s i data with ⟨t, n, e, ht⟩ | h
  · rw [e] at hw ⊢
    rw [List.mem_singleton] at hw
    subst hw
    exact ⟨rfl, rfl, ht, rfl⟩
  · exact absurd herr (h w hw)

theorem err_reply_frame_witness :
    (handle_line (example_session MODE_PVP init_board 1 0) 0 "MODE 3\n".toList).2 =
      [{ slot := 0, text := "ERR MODE_MUST_BE_1_OR_2\n", len := 24 }] ∧
    (handle_line (example_session MODE_PVP init_board 1 0) 0 "MODE 3\n".toList).1 =
      example_session MODE_PVP init_board 1 0 :=
  have h := err_reply_frame (example_session MODE_PVP init_board 1 0) 0 "MODE 3\n".toList
    { slot := 0, text := "ERR MODE_MUST_BE_1_OR_2\n", len := 24 } (by decide) (by decide)
  ⟨h.1, h.2.2.2⟩

/-! ### Winning moves and the turn -/

/-- C6: in every mode, an accepted `MOVE x y` of player `p` after which `check_win(p)`
holds makes exactly the broadcasts `MOVE p x y`, `WIN Pp`, `GAME_OVER`, in this order; it
sets `game_over`, leaves `current_turn` and the mode as they were, and the board is the
old one with the single new stone at `(x, y)`: no AI stone is placed. -/
theorem winning_move (s : Session) (i : Fin 2) (data : List Char) (x y : Int)
    (hcmd : parse_command (c_str (cut_newline data)) = CMD_MOVE)
    (h0 : s.game_over = 0) (h1 : (i.val : Int) + 1 = s.current_turn)
    (h2 : sscanf_d_d (c_str ((cut_newline data).drop 5)) = some (x, y))
    (h3 : (place_stone s.board x y ((i.val : Int) + 1)).1 ≠ 0)
    (h4 : check_win (place_stone s.board x y ((i.val : Int) + 1)).2 ((i.val : Int) + 1) ≠ 0) :
    (handle_line s i data).2 =
      broadcast s.client_fd (move_msg ((i.val : Int) + 1) x y) ++
      broadcast s.client_fd (win_msg ((i.val : Int) + 1)) ++
      broadcast s.client_fd "GAME_OVER\n" ∧
    (handle_line s i data).1.game_over = 1 ∧
    (handle_line s i data).1.current_turn = s.current_turn ∧
    (handle_line s i data).1.game_mode = s.game_mode ∧
    (handle_line s i data).1.board y x = (i.val : Int) + 1 ∧
    (∀ xx yy : Int, (xx, yy) ≠ (x, y) → (handle_line s i data).1.board yy xx = s.board yy xx) := by
  have hp1 : (place_stone s.board x y ((i.val : Int) + 1)).1 = 1 := by
    rcases place_stone_fst s.board x y ((i.val : Int) + 1) with h | h
    · exact absurd h h3
    · exact h
  have hc := (place_stone_char s.board x y ((i.val : Int) + 1)).2.1 hp1
  rw [handle_line_move hcmd, handle_move_win i _ x y h0 h1 h2 h3 h4]
  exact ⟨rfl, rfl, rfl, rfl, hc.1, hc.2⟩

/-- Scenario 1: player 1 has stones at (7,7), (7,8), (7,9), (7,10) and plays (7,11). -/
theorem winning_move_witness :
    check_win (place_all init_board 1 [(7, 7), (7, 8), (7, 9), (7, 10)]) 1 = 0 ∧
    check_win (place_all init_board 1 [(7, 7), (7, 8), (7, 9), (7, 10), (7, 11)]) 1 = 1 ∧
    (handle_line (example_session MODE_PVAI
        (place_all init_board 1 [(7, 7), (7, 8), (7, 9), (7, 10)]) 1 0) 0
        "MOVE 7 11\n".toList).2 =
      [{ slot := 0, text := "MOVE 1 7 11\n", len := 12 },
       { slot := 1, text := "MOVE 1 7 11\n", len := 12 },
       { slot := 0, text := "WIN P1\n", len := 7 },
       { slot := 1, text := "WIN P1\n", len := 7 },
       { slot := 0, text := "GAME_OVER\n", len := 10 },
       { slot := 1, text := "GAME_OVER\n", len := 10 }] ∧
    (handle_line (example_session MODE_PVAI
        (place_all init_board 1 [(7, 7), (7, 8), (7, 9), (7, 10)]) 1 0) 0
        "MOVE 7 11\n".toList).1.game_over = 1 :=
  have h := winning_move (example_session MODE_PVAI
      (place_all init_board 1 [(7, 7), (7, 8), (7, 9), (7, 10)]) 1 0) 0
      "MOVE 7 11\n".toList 7 11 (by decide) (by decide) (by decide) (by decide) (by decide)
      (by decide)
  ⟨by decide, by decide, h.1.trans (by decide), h.2.1⟩

/-- C7, as stated, fails: in PVP mode player 2 holds (0,0), (1,0), (2,0), (3,0) and it is
their turn; their `MOVE 4 0` is accepted (the stone is placed and `MOVE 2 4 0` is broadcast)
but `current_turn` stays 2, not 3 - 2, and no `TURN` line is written. -/
theorem pvp_turn_counterexample :
    (example_session MODE_PVP (place_all init_board 2 [(0, 0), (1, 0), (2, 0), (3, 0)]) 2 0
      ).game_mode = MODE_PVP ∧
    (example_session MODE_PVP (place_all init_board 2 [(0, 0), (1, 0), (2, 0), (3, 0)]) 2 0
      ).board 0 4 = 0 ∧
    (handle_line (example_session MODE_PVP
        (place_all init_board 2 [(0, 0), (1, 0), (2, 0), (3, 0)]) 2 0) 1
        "MOVE 4 0\n".toList).1.board 0 4 = 2 ∧
    (handle_line (example_session MODE_PVP
        (place_all init_board 2 [(0, 0), (1, 0), (2, 0), (3, 0)]) 2 0) 1
        "MOVE 4 0\n".toList).1.current_turn ≠ 3 - 2 ∧
    (handle_line (example_session MODE_PVP
        (place_all init_board 2 [(0, 0), (1, 0), (2, 0), (3, 0)]) 2 0) 1
        "MOVE 4 0\n".toList).2 =
      [{ slot := 0, text := "MOVE 2 4 0\n", len := 11 },
       { slot := 1, text := "MOVE 2 4 0\n", len := 11 },
       { slot := 0, text := "WIN P2\n", len := 7 },
       { slot := 1, text := "WIN P2\n", len := 7 },
       { slot := 0, text := "GAME_OVER\n", len := 10 },
       { slot := 1, text := "GAME_OVER\n", len := 10 }] := by
  decide

/-- C7, amended: in PVP mode an accepted `MOVE` of player `p` that does not complete a
five leaves `current_turn` equal to `3 - p` and its writes are the broadcast of the `MOVE`
line followed by the broadcast of `TURN` with that new value; and after any accepted `MOVE`,
winning or not, a `MOVE` sent next by the same player is refused (`ERR NOT_YOUR_TURN`, or
`ERR GAME_OVER` after a win) and changes nothing. -/
theorem pvp_turn_alternates (s : Session) (i : Fin 2) (data : List Char) (x y : Int)
    (hcmd : parse_command (c_str (cut_newline data)) = CMD_MOVE)
    (hmode : s.game_mode = MODE_PVP)
    (h0 : s.game_over = 0) (h1 : (i.val : Int) + 1 = s.current_turn)
    (h2 : sscanf_d_d (c_str ((cut_newline data).drop 5)) = some (x, y))
    (h3 : (place_stone s.board x y ((i.val : Int) + 1)).1 ≠ 0) :
    (check_win (place_stone s.board x y ((i.val : Int) + 1)).2 ((i.val : Int) + 1) = 0 →
      (handle_line s i data).1.current_turn = 3 - ((i.val : Int) + 1) ∧
      (handle_line s i data).1.game_over = 0 ∧
      (handle_line s i data).1.board = (place_stone s.board x y ((i.val : Int) + 1)).2 ∧
      (handle_line s i data).2 =
        broadcast s.client_fd (move_msg ((i.val : Int) + 1) x y) ++
        broadcast s.client_fd (turn_msg (3 - ((i.val : Int) + 1)))) ∧
    (∀ data2 : List Char, parse_command (c_str (cut_newline data2)) = CMD_MOVE →
      handle_line (handle_line s i data).1 i data2 =
        ((handle_line s i data).1, [{ slot := i, text := "ERR NOT_YOUR_TURN\n", len := 19 }]) ∨
      handle_line (handle_line s i data).1 i data2 =
        ((handle_line s i data).1, [{ slot := i, text := "ERR GAME_OVER\n", len := 14 }])) := by
  have hi : (i.val : Int) = 0 ∨ (i.val : Int) = 1 := by
    have := i.isLt
    omega
  have hflip : (if s.current_turn = 1 then (2 : Int) else 1) = 3 - ((i.val : Int) + 1) := by
    rw [← h1]
    rcases hi with h | h <;> rw [h] <;> simp
  have hne : s.game_mode ≠ MODE_PVAI := by rw [hmode]; decide
  rw [handle_line_move hcmd]
  by_cases h4 : check_win (place_stone s.board x y ((i.val : Int) + 1)).2 ((i.val : Int) + 1) ≠ 0
  · rw [handle_move_win i _ x y h0 h1 h2 h3 h4]
    refine ⟨fun h => absurd h h4, ?_⟩
    intro data2 hcmd2
    right
    rw [handle_line_move hcmd2]
    exact handle_move_game_over i _ (by simp)
  · rw [handle_move_pvp i _ x y h0 h1 h2 h3 h4 hne, hflip]
    refine ⟨fun _ => ⟨rfl, h0, rfl, rfl⟩, ?_⟩
    intro data2 hcmd2
    left
    rw [handle_line_move hcmd2]
    refine handle_move_not_turn i _ h0 ?_
    show (i.val : Int) + 1 ≠ 3 - ((i.val : Int) + 1)
    omega

theorem pvp_turn_alternates_witness :
    (handle_line (example_session MODE_PVP init_board 1 0) 0 "MOVE 7 7\n".toList).1.current_turn
      = 2 ∧
    (handle_line (example_session MODE_PVP init_board 1 0) 0 "MOVE 7 7\n".toList).2 =
      [{ slot := 0, text := "MOVE 1 7 7\n", len := 11 },
       { slot := 1, text := "MOVE 1 7 7\n", len := 11 },
       { slot := 0, text := "TURN 2\n", len := 7 },
       { slot := 1, text := "TURN 2\n", len := 7 }] :=
  have h := (pvp_turn_alternates (example_session MODE_PVP init_board 1 0) 0
      "MOVE 7 7\n".toList 7 7 (by decide) (by decide) (by decide) (by decide) (by decide)
      (by decide)).1 (by decide)
  ⟨h.1, h.2.2.2.trans (by decide)⟩

/-! ### The scan of `choose_ai_move` -/

theorem get_stone_in_board (b : Board) (x y : Int) (hr : 0 ≤ x ∧ x < 15 ∧ 0 ≤ y ∧ y < 15) :
    get_stone b x y = b y x := by
  unfold get_stone BOARD_SIZE
  rw [if_neg (by omega)]

/-- The score of an empty cell of the board is at least -490 when each of `hx`, `hy` is
negative or at most 14. -/
theorem evaluate_cell_lower (b : Board) (x y hx hy : Int)
    (hr : 0 ≤ x ∧ x < 15 ∧ 0 ≤ y ∧ y < 15) (he : b y x = 0) (hhx : hx < 15) (hhy : hy < 15) :
    -490 ≤ evaluate_cell b x y hx hy := by
  rw [evaluate_cell_eq b x y hx hy hr he hhx hhy]
  have b1 : (0 : Int) ≤ (if longest_line_if b x y 2 ≥ 5 then 1000000 else 0) := by
    split_ifs <;> norm_num
  have b2 : (0 : Int) ≤ (if longest_line_if b x y 1 ≥ 5 then 900000 else 0) := by
    split_ifs <;> norm_num
  have b3 : (0 : Int) ≤ (if longest_line_if b x y 2 = 4 then 50000
      else if longest_line_if b x y 2 = 3 then 10000 else 0) := by
    split_ifs <;> norm_num
  have b4 : (0 : Int) ≤ (if longest_line_if b x y 1 = 4 then 40000
      else if longest_line_if b x y 1 = 3 then 8000 else 0) := by
    split_ifs <;> norm_num
  have d1 : (x - 7) ^ 2 ≤ 49 := by nlinarith
  have d2 : (y - 7) ^ 2 ≤ 49 := by nlinarith
  have d3 : (if hx ≥ 0 ∧ hy ≥ 0 then (x - hx) ^ 2 + (y - hy) ^ 2 else 0) ≤ 392 := by
    split_ifs with h
    · have e1 : (x - hx) ^ 2 ≤ 196 := by nlinarith
      have e2 : (y - hy) ^ 2 ≤ 196 := by nlinarith
      omega
    · norm_num
  omega

theorem scanInv_congr {b : Board} {hx hy : Int} {P Q : Int → Int → Prop} {st : Best}
    (hPQ : ∀ x y, P x y ↔ Q x y) (h : ScanInv b hx hy P st) : ScanInv b hx hy Q st := by
  rcases h with ⟨h1, h2⟩ | ⟨h1, h2, h3, h4⟩
  · exact Or.inl ⟨h1, fun x y hq => h2 x y ((hPQ x y).2 hq)⟩
  · exact Or.inr ⟨(hPQ _ _).1 h1, h2, h3, fun x y hq => h4 x y ((hPQ x y).2 hq)⟩

/-- One iteration of the inner loop keeps the invariant. -/
theorem scan_step (b : Board) (hx hy : Int) (P : Int → Int → Prop) (st : Best) (x y : Int)
    (hr : 0 ≤ x ∧ x < 15 ∧ 0 ≤ y ∧ y < 15)
    (hlow : b y x = 0 → -1000000000 < evaluate_cell b x y hx hy)
    (hbef : ∀ x2 y2, P x2 y2 → scan_before x2 y2 x y)
    (hinv : ScanInv b hx hy P st) :
    ScanInv b hx hy (fun x2 y2 => P x2 y2 ∨ (x2 = x ∧ y2 = y)) (choose_step b hx hy y st x) := by
  unfold choose_step
  rw [get_stone_in_board b x y hr]
  by_cases hocc : b y x ≠ 0
  · rw [if_pos hocc]
    rcases hinv with ⟨h1, h2⟩ | ⟨h1, h2, h3, h4⟩
    · refine Or.inl ⟨h1, ?_⟩
      rintro x2 y2 (hp | ⟨rfl, rfl⟩)
      · exact h2 x2 y2 hp
      · exact hocc
    · refine Or.inr ⟨Or.inl h1, h2, h3, ?_⟩
      rintro x2 y2 (hp | ⟨rfl, rfl⟩) he
      · exact h4 x2 y2 hp he
      · exact absurd he hocc
  · rw [if_neg hocc]
    have hemp : b y x = 0 := not_not.1 hocc
    have hl := hlow hemp
    simp only
    by_cases hgt : evaluate_cell b x y hx hy > st.bestScore
    · rw [if_pos hgt]
      refine Or.inr ⟨Or.inr ⟨rfl, rfl⟩, hemp, rfl, ?_⟩
      rintro x2 y2 (hp | ⟨rfl, rfl⟩) he
      · rcases hinv with ⟨_, h2⟩ | ⟨_, _, _, h4⟩
        · exact absurd he (h2 x2 y2 hp)
        · have := (h4 x2 y2 hp he).1
          exact ⟨by show _ ≤ evaluate_cell b x y hx hy; omega,
            fun _ => by show _ < evaluate_cell b x y hx hy; omega⟩
      · refine ⟨le_refl _, ?_⟩
        intro hb
        unfold scan_before at hb
        simp only at hb
        omega
    · rw [if_neg hgt]
      rcases hinv with ⟨h1, _⟩ | ⟨h1, h2, h3, h4⟩
      · exfalso
        rw [h1] at hgt
        simp only at hgt
        omega
      · refine Or.inr ⟨Or.inl h1, h2, h3, ?_⟩
        rintro x2 y2 (hp | ⟨rfl, rfl⟩) he
        · exact h4 x2 y2 hp he
        · refine ⟨by omega, ?_⟩
          intro hb
          have := hbef _ _ h1
          unfold scan_before at hb this
          omega

/-- The inner loop over the first `n` columns of row `y`. -/
theorem scan_row_prefix (b : Board) (hx hy : Int)
    (hlow : ∀ x y : Int, (0 ≤ x ∧ x < 15 ∧ 0 ≤ y ∧ y < 15) → b y x = 0 →
      -1000000000 < evaluate_cell b x y hx hy)
    (y : Int) (hy0 : 0 ≤ y) (hy1 : y < 15) (st0 : Best)
    (h0 : ScanInv b hx hy (fun x2 y2 => (0 ≤ x2 ∧ x2 < 15 ∧ 0 ≤ y2 ∧ y2 < 15) ∧ y2 < y) st0) :
    ∀ n : Nat, n ≤ 15 →
      ScanInv b hx hy
        (fun x2 y2 => (0 ≤ x2 ∧ x2 < 15 ∧ 0 ≤ y2 ∧ y2 < 15) ∧ (y2 < y ∨ (y2 = y ∧ x2 < n)))
        (((List.range n).map Int.ofNat).foldl (choose_step b hx hy y) st0) := by
  intro n
  induction n with
  | zero =>
    intro _
    refine scanInv_congr ?_ h0
    intro x2 y2
    simp only [Nat.cast_zero]
    constructor
    · rintro ⟨hr, hlt⟩; exact ⟨hr, Or.inl hlt⟩
    · rintro ⟨hr, hlt | ⟨_, hneg⟩⟩
      · exact ⟨hr, hlt⟩
      · omega
  | succ n ih =>
    intro hn
    rw [List.range_succ, List.map_append, List.foldl_append]
    simp only [List.map_cons, List.map_nil, List.foldl_cons, List.foldl_nil]
    have hstep := scan_step b hx hy _ _ (Int.ofNat n) y
      ⟨Int.ofNat_nonneg n, by show (n : Int) < 15; omega, hy0, hy1⟩
      (hlow _ _ ⟨Int.ofNat_nonneg n, by show (n : Int) < 15; omega, hy0, hy1⟩)
      (by
        rintro x2 y2 ⟨_, hlt | ⟨he, hlt⟩⟩
        · exact Or.inl hlt
        · exact Or.inr ⟨he, hlt⟩)
      (ih (by omega))
    refine scanInv_congr ?_ hstep
    intro x2 y2
    simp only [Int.ofNat_eq_coe, Nat.cast_add, Nat.cast_one]
    constructor
    · rintro (⟨hr, hlt | ⟨he, hlt⟩⟩ | ⟨rfl, rfl⟩)
      · exact ⟨hr, Or.inl hlt⟩
      · exact ⟨hr, Or.inr ⟨he, by omega⟩⟩
      · exact ⟨⟨by omega, by omega, hy0, hy1⟩, Or.inr ⟨rfl, by omega⟩⟩
    · rintro ⟨hr, hlt | ⟨he, hlt⟩⟩
      · exact Or.inl ⟨hr, Or.inl hlt⟩
      · by_cases hx2 : x2 = n
        · exact Or.inr ⟨hx2, he⟩
        · exact Or.inl ⟨hr, Or.inr ⟨he, by omega⟩⟩

/-- The outer loop over the first `m` rows. -/
theorem scan_rows_prefix (b : Board) (hx hy : Int)
    (hlow : ∀ x y : Int, (0 ≤ x ∧ x < 15 ∧ 0 ≤ y ∧ y < 15) → b y x = 0 →
      -1000000000 < evaluate_cell b x y hx hy) :
    ∀ m : Nat, m ≤ 15 →
      ScanInv b hx hy (fun x2 y2 => (0 ≤ x2 ∧ x2 < 15 ∧ 0 ≤ y2 ∧ y2 < 15) ∧ y2 < m)
        (((List.range m).map Int.ofNat).foldl (choose_row b hx hy)
          { bestScore := -1000000000, bestX := 0, bestY := 0 }) := by
  intro m
  induction m with
  | zero =>
    intro _
    refine Or.inl ⟨rfl, ?_⟩
    rintro x y ⟨hr, hlt⟩
    simp only [Nat.cast_zero] at hlt
    omega
  | succ m ih =>
    intro hm
    rw [List.range_succ, List.map_append, List.foldl_append]
    simp only [List.map_cons, List.map_nil, List.foldl_cons, List.foldl_nil]
    have hrow := scan_row_prefix b hx hy hlow (Int.ofNat m) (Int.ofNat_nonneg m)
      (by show (m : Int) < 15; omega) _ (ih (by omega)) 15 (le_refl _)
    refine scanInv_congr ?_ hrow
    intro x2 y2
    simp only [Int.ofNat_eq_coe, Nat.cast_add, Nat.cast_one, Nat.cast_ofNat]
    constructor
    · rintro ⟨hr, hlt | ⟨he, _⟩⟩
      · exact ⟨hr, by omega⟩
      · exact ⟨hr, by omega⟩
    · rintro ⟨hr, hlt⟩
      refine ⟨hr, ?_⟩
      by_cases hy2 : y2 = m
      · exact Or.inr ⟨hy2, hr.2.1⟩
      · exact Or.inl (by omega)

/-- The state of `choose_ai_move` after the whole scan satisfies the invariant for the set
of all cells of the board. -/
theorem choose_scan_inv (b : Board) (hx hy : Int) (hhx : hx < 15) (hhy : hy < 15) :
    ScanInv b hx hy (fun x2 y2 => 0 ≤ x2 ∧ x2 < 15 ∧ 0 ≤ y2 ∧ y2 < 15) (choose_scan b hx hy) := by
  have hlow : ∀ x y : Int, (0 ≤ x ∧ x < 15 ∧ 0 ≤ y ∧ y < 15) → b y x = 0 →
      -1000000000 < evaluate_cell b x y hx hy := by
    intro x y hr he
    have := evaluate_cell_lower b x y hx hy hr he hhx hhy
    omega
  have h := scan_rows_prefix b hx hy hlow 15 (le_refl _)
  refine scanInv_congr ?_ h
  intro x2 y2
  simp only [Nat.cast_ofNat]
  constructor
  · rintro ⟨hr, _⟩; exact hr
  · intro hr; exact ⟨hr, hr.2.2.2⟩

/-- With an empty cell on the board, `choose_ai_move` returns the first cell of maximal
score among the empty cells, in scan order. -/
theorem choose_ai_move_char (b : Board) (hx hy : Int) (hhx : hx < 15) (hhy : hy < 15)
    (hempty : ∃ x y : Int, (0 ≤ x ∧ x < 15 ∧ 0 ≤ y ∧ y < 15) ∧ b y x = 0) :
    (0 ≤ (choose_ai_move b hx hy).1 ∧ (choose_ai_move b hx hy).1 < 15 ∧
      0 ≤ (choose_ai_move b hx hy).2 ∧ (choose_ai_move b hx hy).2 < 15) ∧
    b (choose_ai_move b hx hy).2 (choose_ai_move b hx hy).1 = 0 ∧
    ∀ x y : Int, (0 ≤ x ∧ x < 15 ∧ 0 ≤ y ∧ y < 15) → b y x = 0 →
      evaluate_cell b x y hx hy ≤
        evaluate_cell b (choose_ai_move b hx hy).1 (choose_ai_move b hx hy).2 hx hy ∧
      (scan_before x y (choose_ai_move b hx hy).1 (choose_ai_move b hx hy).2 →
        evaluate_cell b x y hx hy <
          evaluate_cell b (choose_ai_move b hx hy).1 (choose_ai_move b hx hy).2 hx hy) := by
  rcases choose_scan_inv b hx hy hhx hhy with ⟨_, h2⟩ | ⟨h1, h2, h3, h4⟩
  · obtain ⟨x, y, hr, he⟩ := hempty
    exact absurd he (h2 x y hr)
  · refine ⟨h1, h2, ?_⟩
    intro x y hr he
    have := h4 x y hr he
    unfold choose_ai_move
    simp only
    rw [← h3]
    exact this

/-- C9: on a board with an empty cell, and with each of `hx`, `hy` negative or in 0..14,
`choose_ai_move(hx, hy)` returns an empty cell of the board whose `evaluate_cell` score is
at least the score of every empty cell and strictly greater than the score of every empty
cell scanned before it (rows `y` ascending, then `x` ascending): the first maximiser. -/
theorem choose_ai_move_first_max (b : Board) (hx hy : Int)
    (hhx : hx < 0 ∨ (0 ≤ hx ∧ hx ≤ 14)) (hhy : hy < 0 ∨ (0 ≤ hy ∧ hy ≤ 14))
    (hempty : ∃ x y : Int, (0 ≤ x ∧ x < 15 ∧ 0 ≤ y ∧ y < 15) ∧ b y x = 0) :
    (0 ≤ (choose_ai_move b hx hy).1 ∧ (choose_ai_move b hx hy).1 < 15 ∧
      0 ≤ (choose_ai_move b hx hy).2 ∧ (choose_ai_move b hx hy).2 < 15) ∧
    b (choose_ai_move b hx hy).2 (choose_ai_move b hx hy).1 = 0 ∧
    ∀ x y : Int, (0 ≤ x ∧ x < 15 ∧ 0 ≤ y ∧ y < 15) → b y x = 0 →
      evaluate_cell b x y hx hy ≤
        evaluate_cell b (choose_ai_move b hx hy).1 (choose_ai_move b hx hy).2 hx hy ∧
      ((y < (choose_ai_move b hx hy).2 ∨
          (y = (choose_ai_move b hx hy).2 ∧ x < (choose_ai_move b hx hy).1)) →
        evaluate_cell b x y hx hy <
          evaluate_cell b (choose_ai_move b hx hy).1 (choose_ai_move b hx hy).2 hx hy) :=
  choose_ai_move_char b hx hy (by omega) (by omega) hempty

/-- The scan of `choose_ai_move`, row by row. -/
theorem choose_scan_rows (b : Board) (hx hy : Int) :
    choose_scan b hx hy =
      choose_row b hx hy (choose_row b hx hy (choose_row b hx hy (choose_row b hx hy
      (choose_row b hx hy (choose_row b hx hy (choose_row b hx hy (choose_row b hx hy
      (choose_row b hx hy (choose_row b hx hy (choose_row b hx hy (choose_row b hx hy
      (choose_row b hx hy (choose_row b hx hy (choose_row b hx hy
        { bestScore := -1000000000, bestX := 0, bestY := 0 } 0) 1) 2) 3) 4) 5) 6) 7) 8) 9) 10)
        11) 12) 13) 14 := rfl

set_option maxRecDepth 4000 in
/-- With a single stone of player 1 at the centre and that stone as the last human move,
the scan ends on the cell (7, 6) with score -2. -/
theorem choose_after_centre :
    choose_ai_move (place_stone init_board 7 7 1).2 7 7 = (7, 6) := by
  have r0 : choose_row (place_stone init_board 7 7 1).2 7 7
      { bestScore := -1000000000, bestX := 0, bestY := 0 } 0 = ⟨-98, 7, 0⟩ := by decide
  have r1 : choose_row (place_stone init_board 7 7 1).2 7 7 ⟨-98, 7, 0⟩ 1 = ⟨-72, 7, 1⟩ := by
    decide
  have r2 : choose_row (place_stone init_board 7 7 1).2 7 7 ⟨-72, 7, 1⟩ 2 = ⟨-50, 7, 2⟩ := by
    decide
  have r3 : choose_row (place_stone init_board 7 7 1).2 7 7 ⟨-50, 7, 2⟩ 3 = ⟨-32, 7, 3⟩ := by
    decide
  have r4 : choose_row (place_stone init_board 7 7 1).2 7 7 ⟨-32, 7, 3⟩ 4 = ⟨-18, 7, 4⟩ := by
    decide
  have r5 : choose_row (place_stone init_board 7 7 1).2 7 7 ⟨-18, 7, 4⟩ 5 = ⟨-8, 7, 5⟩ := by
    decide
  have r6 : choose_row (place_stone init_board 7 7 1).2 7 7 ⟨-8, 7, 5⟩ 6 = ⟨-2, 7, 6⟩ := by
    decide
  have r7 : choose_row (place_stone init_board 7 7 1).2 7 7 ⟨-2, 7, 6⟩ 7 = ⟨-2, 7, 6⟩ := by
    decide
  have r8 : choose_row (place_stone init_board 7 7 1).2 7 7 ⟨-2, 7, 6⟩ 8 = ⟨-2, 7, 6⟩ := by
    decide
  have r9 : choose_row (place_stone init_board 7 7 1).2 7 7 ⟨-2, 7, 6⟩ 9 = ⟨-2, 7, 6⟩ := by
    decide
  have r10 : choose_row (place_stone init_board 7 7 1).2 7 7 ⟨-2, 7, 6⟩ 10 = ⟨-2, 7, 6⟩ := by
    decide
  have r11 : choose_row (place_stone init_board 7 7 1).2 7 7 ⟨-2, 7, 6⟩ 11 = ⟨-2, 7, 6⟩ := by
    decide
  have r12 : choose_row (place_stone init_board 7 7 1).2 7 7 ⟨-2, 7, 6⟩ 12 = ⟨-2, 7, 6⟩ := by
    decide
  have r13 : choose_row (place_stone init_board 7 7 1).2 7 7 ⟨-2, 7, 6⟩ 13 = ⟨-2, 7, 6⟩ := by
    decide
  have r14 : choose_row (place_stone init_board 7 7 1).2 7 7 ⟨-2, 7, 6⟩ 14 = ⟨-2, 7, 6⟩ := by
    decide
  unfold choose_ai_move
  rw [choose_scan_rows, r0, r1, r2, r3, r4, r5, r6, r7, r8, r9, r10, r11, r12, r13, r14]

theorem choose_ai_move_first_max_witness :
    choose_ai_move (place_stone init_board 7 7 1).2 7 7 = (7, 6) ∧
    (place_stone init_board 7 7 1).2 6 7 = 0 ∧
    evaluate_cell (place_stone init_board 7 7 1).2 6 7 7 7 ≤
      evaluate_cell (place_stone init_board 7 7 1).2 7 6 7 7 ∧
    evaluate_cell (place_stone init_board 7 7 1).2 6 6 7 7 <
      evaluate_cell (place_stone init_board 7 7 1).2 7 6 7 7 := by
  have h := choose_ai_move_first_max (place_stone init_board 7 7 1).2 7 7 (by decide)
    (by decide) ⟨0, 0, by decide, by decide⟩
  rw [choose_after_centre] at h
  exact ⟨choose_after_centre, h.2.1, (h.2.2 6 7 (by decide) (by decide)).1,
    (h.2.2 6 6 (by decide) (by decide)).2 (by decide)⟩

/-! ### The PVAI branch -/

theorem ai_reply_normal (s : Session) (b : Board) (p x y : Int)
    (hr : 0 ≤ (choose_ai_move b x y).1 ∧ (choose_ai_move b x y).1 < 15 ∧
      0 ≤ (choose_ai_move b x y).2 ∧ (choose_ai_move b x y).2 < 15)
    (he : b (choose_ai_move b x y).2 (choose_ai_move b x y).1 = 0) :
    ai_reply s b p x y =
      ai_announce s (place_stone b (choose_ai_move b x y).1 (choose_ai_move b x y).2 2).2 p
        (choose_ai_move b x y).1 (choose_ai_move b x y).2 := by
  have h1 : in_range (choose_ai_move b x y).1 (choose_ai_move b x y).2 = true :=
    (in_range_iff _ _).2 hr
  have h2 : get_stone b (choose_ai_move b x y).1 (choose_ai_move b x y).2 = 0 := by
    rw [get_stone_in_board b _ _ hr]; exact he
  simp only [ai_reply]
  rw [if_neg]
  rw [h1, h2]
  simp

/-- C8: in PVAI mode, after an accepted `MOVE x y` that does not win and leaves an empty
cell, the cell `(ax, ay)` returned by `choose_ai_move(x, y)` on the board holding the human
stone is an empty cell of the board; the new board is that board with this one cell set to
2 and every other cell as it was (the fallback scan is not entered); `MOVE 2 ax ay` is
broadcast right after the human `MOVE`; if the AI stone does not win, `TURN <human>` is
broadcast last, `current_turn` is the human id and the game goes on; if it wins, `WIN P2`
and `GAME_OVER` follow and the game is over. -/
theorem pvai_reply (s : Session) (i : Fin 2) (data : List Char) (x y : Int)
    (hcmd : parse_command (c_str (cut_newline data)) = CMD_MOVE)
    (hmode : s.game_mode = MODE_PVAI)
    (h0 : s.game_over = 0) (h1 : (i.val : Int) + 1 = s.current_turn)
    (h2 : sscanf_d_d (c_str ((cut_newline data).drop 5)) = some (x, y))
    (h3 : (place_stone s.board x y ((i.val : Int) + 1)).1 ≠ 0)
    (h4 : check_win (after_human s i x y) ((i.val : Int) + 1) = 0)
    (hempty : ∃ ex ey : Int, (0 ≤ ex ∧ ex < 15 ∧ 0 ≤ ey ∧ ey < 15) ∧
      after_human s i x y ey ex = 0) :
    ∃ ax ay : Int, choose_ai_move (after_human s i x y) x y = (ax, ay) ∧
      (0 ≤ ax ∧ ax < 15 ∧ 0 ≤ ay ∧ ay < 15) ∧
      after_human s i x y ay ax = 0 ∧
      (handle_line s i data).1.board = (place_stone (after_human s i x y) ax ay 2).2 ∧
      (handle_line s i data).1.board ay ax = 2 ∧
      (∀ xx yy : Int, (xx, yy) ≠ (ax, ay) →
        (handle_line s i data).1.board yy xx = after_human s i x y yy xx) ∧
      (check_win (handle_line s i data).1.board 2 = 0 →
        (handle_line s i data).2 =
          broadcast s.client_fd (move_msg ((i.val : Int) + 1) x y) ++
          (broadcast s.client_fd (move_msg 2 ax ay) ++
           broadcast s.client_fd (turn_msg ((i.val : Int) + 1))) ∧
        (handle_line s i data).1.current_turn = (i.val : Int) + 1 ∧
        (handle_line s i data).1.game_over = 0) ∧
      (check_win (handle_line s i data).1.board 2 ≠ 0 →
        (handle_line s i data).2 =
          broadcast s.client_fd (move_msg ((i.val : Int) + 1) x y) ++
          (broadcast s.client_fd (move_msg 2 ax ay) ++ broadcast s.client_fd (win_msg 2) ++
           broadcast s.client_fd "GAME_OVER\n") ∧
        (handle_line s i data).1.game_over = 1) := by
  have hp1 : (place_stone s.board x y ((i.val : Int) + 1)).1 = 1 := by
    rcases place_stone_fst s.board x y ((i.val : Int) + 1) with h | h
    · exact absurd h h3
    · exact h
  have hxy := ((place_stone_char s.board x y ((i.val : Int) + 1)).1.1 hp1)
  have hch := choose_ai_move_char (after_human s i x y) x y (by omega) (by omega) hempty
  obtain ⟨hr, he, _⟩ := hch
  have hpa := place_stone_char (after_human s i x y)
    (choose_ai_move (after_human s i x y) x y).1 (choose_ai_move (after_human s i x y) x y).2 2
  have hpa1 := hpa.1.2 ⟨hr.1, hr.2.1, hr.2.2.1, hr.2.2.2, he⟩
  have hcells := hpa.2.1 hpa1
  have h4' : ¬ check_win (place_stone s.board x y ((i.val : Int) + 1)).2
      ((i.val : Int) + 1) ≠ 0 := not_not.2 h4
  have hres := handle_move_pvai i (c_str ((cut_newline data).drop 5)) x y h0 h1 h2 h3 h4' hmode
  have hnorm := ai_reply_normal s (after_human s i x y) ((i.val : Int) + 1) x y hr he
  unfold after_human at hnorm
  rw [hnorm] at hres
  rw [handle_line_move hcmd, hres]
  refine ⟨_, _, rfl, hr, he, ?_⟩
  simp only [ai_announce_board]
  refine ⟨rfl, hcells.1, hcells.2, ?_, ?_⟩
  · intro hw
    simp only [ai_announce]
    rw [if_neg (not_not.2 hw)]
    exact ⟨rfl, rfl, h0⟩
  · intro hw
    simp only [ai_announce]
    rw [if_pos hw]
    exact ⟨rfl, rfl⟩

theorem pvai_reply_witness :
    (handle_line (example_session MODE_PVAI init_board 1 0) 0 "MOVE 7 7\n".toList).2 =
      [{ slot := 0, text := "MOVE 1 7 7\n", len := 11 },
       { slot := 1, text := "MOVE 1 7 7\n", len := 11 },
       { slot := 0, text := "MOVE 2 7 6\n", len := 11 },
       { slot := 1, text := "MOVE 2 7 6\n", len := 11 },
       { slot := 0, text := "TURN 1\n", len := 7 },
       { slot := 1, text := "TURN 1\n", len := 7 }] ∧
    (handle_line (example_session MODE_PVAI init_board 1 0) 0 "MOVE 7 7\n".toList).1.board 6 7
      = 2 ∧
    (handle_line (example_session MODE_PVAI init_board 1 0) 0 "MOVE 7 7\n".toList
      ).1.current_turn = 1 := by
  obtain ⟨ax, ay, hc, _, _, hbd, hb, _, hgo, _⟩ :=
    pvai_reply (example_session MODE_PVAI init_board 1 0) 0 "MOVE 7 7\n".toList 7 7
      (by decide) (by decide) (by decide) (by decide) (by decide) (by decide) (by decide)
      ⟨0, 0, by decide, by decide⟩
  have hc' : choose_ai_move (place_stone init_board 7 7 1).2 7 7 = (ax, ay) := hc
  rw [choose_after_centre] at hc'
  obtain ⟨rfl, rfl⟩ := Prod.mk.inj hc'
  have hw : check_win (handle_line (example_session MODE_PVAI init_board 1 0) 0
      "MOVE 7 7\n".toList).1.board 2 = 0 := by
    rw [hbd]
    decide
  exact ⟨(hgo hw).1.trans (by decide), hb, (hgo hw).2.1⟩

/-! ### Bounds on the score -/

/-- The score of an empty cell of the board is at most 1,900,000 when each of `hx`, `hy`
is negative or at most 14. -/
theorem evaluate_cell_upper (b : Board) (x y hx hy : Int)
    (hr : 0 ≤ x ∧ x < 15 ∧ 0 ≤ y ∧ y < 15) (he : b y x = 0) (hhx : hx < 15) (hhy : hy < 15) :
    evaluate_cell b x y hx hy ≤ 1900000 := by
  rw [evaluate_cell_eq b x y hx hy hr he hhx hhy]
  generalize longest_line_if b x y 2 = l2
  generalize longest_line_if b x y 1 = l1
  have b2 : (if l2 ≥ 5 then (1000000 : Int) else 0) +
      (if l2 = 4 then 50000 else if l2 = 3 then 10000 else 0) ≤ 1000000 := by
    split_ifs <;> omega
  have b1 : (if l1 ≥ 5 then (900000 : Int) else 0) +
      (if l1 = 4 then 40000 else if l1 = 3 then 8000 else 0) ≤ 900000 := by
    split_ifs <;> omega
  have d1 : 0 ≤ (x - 7) ^ 2 + (y - 7) ^ 2 := by positivity
  have d3 : 0 ≤ (if hx ≥ 0 ∧ hy ≥ 0 then (x - hx) ^ 2 + (y - hy) ^ 2 else 0) := by
    split_ifs
    · positivity
    · exact le_refl _
  omega

theorem evaluate_cell_sentinel (b : Board) (x y hx hy : Int)
    (h : ¬ (0 ≤ x ∧ x < 15 ∧ 0 ≤ y ∧ y < 15) ∨ b y x ≠ 0) :
    evaluate_cell b x y hx hy = -1000000000 := by
  unfold evaluate_cell
  rw [if_pos]
  by_cases hr : 0 ≤ x ∧ x < 15 ∧ 0 ≤ y ∧ y < 15
  · have hb : b y x ≠ 0 := by
      rcases h with h | h
      · exact absurd hr h
      · exact h
    rw [get_stone_in_board b x y hr]
    simp [hb]
  · have : in_range x y = false := by
      rw [Bool.eq_false_iff]
      intro h2
      exact hr ((in_range_iff x y).1 h2)
    simp [this]

/-- C11: for `hx`, `hy` each negative or in 0..14, `evaluate_cell(x, y, hx, hy)` is
-1,000,000,000 exactly when `(x, y)` is off the board or occupied; on every empty cell of
the board the score lies between -490 and 1,900,000, so it fits a signed 32-bit integer and
is greater than the sentinel; and `choose_ai_move` returns an empty cell of the board
whenever one exists. -/
theorem evaluate_cell_range (b : Board) (x y hx hy : Int)
    (hhx : hx < 0 ∨ (0 ≤ hx ∧ hx ≤ 14)) (hhy : hy < 0 ∨ (0 ≤ hy ∧ hy ≤ 14)) :
    (evaluate_cell b x y hx hy = -1000000000 ↔
      (¬ (0 ≤ x ∧ x < 15 ∧ 0 ≤ y ∧ y < 15) ∨ ((0 ≤ x ∧ x < 15 ∧ 0 ≤ y ∧ y < 15) ∧ b y x ≠ 0))) ∧
    ((0 ≤ x ∧ x < 15 ∧ 0 ≤ y ∧ y < 15) → b y x = 0 →
      -490 ≤ evaluate_cell b x y hx hy ∧ evaluate_cell b x y hx hy ≤ 1900000 ∧
      -2 ^ 31 ≤ evaluate_cell b x y hx hy ∧ evaluate_cell b x y hx hy < 2 ^ 31 ∧
      -1000000000 < evaluate_cell b x y hx hy) ∧
    ((∃ ex ey : Int, (0 ≤ ex ∧ ex < 15 ∧ 0 ≤ ey ∧ ey < 15) ∧ b ey ex = 0) →
      (0 ≤ (choose_ai_move b hx hy).1 ∧ (choose_ai_move b hx hy).1 < 15 ∧
        0 ≤ (choose_ai_move b hx hy).2 ∧ (choose_ai_move b hx hy).2 < 15) ∧
      b (choose_ai_move b hx hy).2 (choose_ai_move b hx hy).1 = 0) := by
  have hb : (0 ≤ x ∧ x < 15 ∧ 0 ≤ y ∧ y < 15) → b y x = 0 →
      -490 ≤ evaluate_cell b x y hx hy ∧ evaluate_cell b x y hx hy ≤ 1900000 :=
    fun hr he => ⟨evaluate_cell_lower b x y hx hy hr he (by omega) (by omega),
      evaluate_cell_upper b x y hx hy hr he (by omega) (by omega)⟩
  refine ⟨⟨?_, ?_⟩, ?_, ?_⟩
  · intro h
    by_cases hr : 0 ≤ x ∧ x < 15 ∧ 0 ≤ y ∧ y < 15
    · by_cases he : b y x = 0
      · have := (hb hr he).1
        omega
      · exact Or.inr ⟨hr, he⟩
    · exact Or.inl hr
  · intro h
    apply evaluate_cell_sentinel
    rcases h with h | h
    · exact Or.inl h
    · exact Or.inr h.2
  · intro hr he
    have := hb hr he
    refine ⟨this.1, this.2, ?_, ?_, ?_⟩ <;> norm_num <;> omega
  · intro hempty
    have h := choose_ai_move_char b hx hy (by omega) (by omega) hempty
    exact ⟨h.1, h.2.1⟩

theorem evaluate_cell_range_witness :
    evaluate_cell (place_all init_board 1 [(7, 7)]) 7 7 0 14 = -1000000000 ∧
    evaluate_cell (place_all init_board 1 [(7, 7)]) 15 0 0 14 = -1000000000 ∧
    -490 ≤ evaluate_cell (place_all init_board 1 [(7, 7)]) 14 0 0 14 ∧
    evaluate_cell (place_all init_board 1 [(7, 7)]) 14 0 0 14 ≤ 1900000 :=
  have h := evaluate_cell_range (place_all init_board 1 [(7, 7)])
  ⟨(h 7 7 0 14 (by decide) (by decide)).1.2 (by decide),
   (h 15 0 0 14 (by decide) (by decide)).1.2 (by decide),
   ((h 14 0 0 14 (by decide) (by decide)).2.1 (by decide) (by decide)).1,
   ((h 14 0 0 14 (by decide) (by decide)).2.1 (by decide) (by decide)).2.1⟩

/-- C13: for `hx`, `hy` each negative or in 0..14, an empty cell `(x1, y1)` where the AI
(player 2) would have a line of exactly 4 scores at least 49,510, an empty cell `(x2, y2)`
where both players would have lines shorter than 3 scores at most 0, so the first scores
strictly more wherever the second lies, and `choose_ai_move` does not return the second. -/
theorem four_beats_plain (b : Board) (hx hy x1 y1 x2 y2 : Int)
    (hhx : hx < 0 ∨ (0 ≤ hx ∧ hx ≤ 14)) (hhy : hy < 0 ∨ (0 ≤ hy ∧ hy ≤ 14))
    (hr1 : 0 ≤ x1 ∧ x1 < 15 ∧ 0 ≤ y1 ∧ y1 < 15) (he1 : b y1 x1 = 0)
    (hr2 : 0 ≤ x2 ∧ x2 < 15 ∧ 0 ≤ y2 ∧ y2 < 15) (he2 : b y2 x2 = 0)
    (h4 : longest_line_if b x1 y1 2 = 4)
    (hno2 : longest_line_if b x2 y2 2 < 3) (hno1 : longest_line_if b x2 y2 1 < 3) :
    evaluate_cell b x2 y2 hx hy < evaluate_cell b x1 y1 hx hy ∧
    evaluate_cell b x2 y2 hx hy ≤ 0 ∧ 49510 ≤ evaluate_cell b x1 y1 hx hy ∧
    choose_ai_move b hx hy ≠ (x2, y2) := by
  have hx15 : hx < 15 := by omega
  have hy15 : hy < 15 := by omega
  have hlo : 49510 ≤ evaluate_cell b x1 y1 hx hy := by
    rw [evaluate_cell_eq b x1 y1 hx hy hr1 he1 hx15 hy15, h4]
    have b2 : (0 : Int) ≤ (if longest_line_if b x1 y1 1 ≥ 5 then 900000 else 0) := by
      split_ifs <;> norm_num
    have b4 : (0 : Int) ≤ (if longest_line_if b x1 y1 1 = 4 then 40000
        else if longest_line_if b x1 y1 1 = 3 then 8000 else 0) := by
      split_ifs <;> norm_num
    have d1 : (x1 - 7) ^ 2 ≤ 49 := by nlinarith
    have d2 : (y1 - 7) ^ 2 ≤ 49 := by nlinarith
    have d3 : (if hx ≥ 0 ∧ hy ≥ 0 then (x1 - hx) ^ 2 + (y1 - hy) ^ 2 else 0) ≤ 392 := by
      split_ifs with h
      · have e1 : (x1 - hx) ^ 2 ≤ 196 := by nlinarith
        have e2 : (y1 - hy) ^ 2 ≤ 196 := by nlinarith
        omega
      · norm_num
    norm_num
    omega
  have hhi : evaluate_cell b x2 y2 hx hy ≤ 0 := by
    rw [evaluate_cell_eq b x2 y2 hx hy hr2 he2 hx15 hy15]
    have c1 : ¬ longest_line_if b x2 y2 2 ≥ 5 := by omega
    have c2 : ¬ longest_line_if b x2 y2 1 ≥ 5 := by omega
    have c3 : ¬ longest_line_if b x2 y2 2 = 4 := by omega
    have c4 : ¬ longest_line_if b x2 y2 2 = 3 := by omega
    have c5 : ¬ longest_line_if b x2 y2 1 = 4 := by omega
    have c6 : ¬ longest_line_if b x2 y2 1 = 3 := by omega
    rw [if_neg c1, if_neg c2, if_neg c3, if_neg c4, if_neg c5, if_neg c6]
    have d1 : 0 ≤ (x2 - 7) ^ 2 + (y2 - 7) ^ 2 := by positivity
    have d3 : 0 ≤ (if hx ≥ 0 ∧ hy ≥ 0 then (x2 - hx) ^ 2 + (y2 - hy) ^ 2 else 0) := by
      split_ifs
      · positivity
      · exact le_refl _
    omega
  refine ⟨by omega, hhi, hlo, ?_⟩
  intro hch
  have h := (choose_ai_move_char b hx hy (by omega) (by omega) ⟨x1, y1, hr1, he1⟩).2.2
    x1 y1 hr1 he1
  rw [hch] at h
  have := h.1
  simp only at this
  omega

/-- Three AI stones at (3,0), (4,0), (5,0): the cell (6,0) against the centre (7,7). -/
theorem four_beats_plain_witness :
    evaluate_cell (place_all init_board 2 [(3, 0), (4, 0), (5, 0)]) 6 0 (-1) (-1) = 49950 ∧
    evaluate_cell (place_all init_board 2 [(3, 0), (4, 0), (5, 0)]) 7 7 (-1) (-1) = 0 ∧
    evaluate_cell (place_all init_board 2 [(3, 0), (4, 0), (5, 0)]) 7 7 (-1) (-1) <
      evaluate_cell (place_all init_board 2 [(3, 0), (4, 0), (5, 0)]) 6 0 (-1) (-1) :=
  ⟨by decide, by decide,
    (four_beats_plain (place_all init_board 2 [(3, 0), (4, 0), (5, 0)]) (-1) (-1) 6 0 7 7
      (by decide) (by decide) (by decide) (by decide) (by decide) (by decide) (by decide)
      (by decide) (by decide)).1⟩

/-! ### `parse_command` -/

theorem strncmp_eq_iff (msg : List Char) (lit : String) (n : Nat) (hn : lit.toList.length = n) :
    strncmp_eq msg lit n = true ↔ begins_with msg lit := by
  unfold strncmp_eq begins_with
  rw [beq_iff_eq]
  have hl : lit.toList.take n = lit.toList := by
    rw [← hn]; exact List.take_length _
  rw [hl]
  constructor
  · intro h
    refine ⟨msg.drop n, ?_⟩
    rw [← h]
    exact (List.take_append_drop n msg).symm
  · rintro ⟨rest, rfl⟩
    rw [← hn]
    exact List.take_left _ _

theorem strncmp_first4 (msg : List Char) (lit : String) (n : Nat)
    (h : strncmp_eq msg lit n = true) (hn : 4 ≤ n) :
    msg.take 4 = lit.toList.take 4 := by
  unfold strncmp_eq at h
  rw [beq_iff_eq] at h
  have := congrArg (List.take 4) h
  rw [List.take_take, List.take_take] at this
  simpa [Nat.min_eq_left hn] using this

/-- A line cannot match two literals whose first four characters differ. -/
theorem strncmp_excl (msg : List Char) (l1 l2 : String) (n1 n2 : Nat) (h1 : 4 ≤ n1)
    (h2 : 4 ≤ n2) (hne : l1.toList.take 4 ≠ l2.toList.take 4) :
    ¬ (strncmp_eq msg l1 n1 = true ∧ strncmp_eq msg l2 n2 = true) := by
  rintro ⟨a, b⟩
  have e1 := strncmp_first4 msg l1 n1 a h1
  have e2 := strncmp_first4 msg l2 n2 b h2
  exact hne (e1.symm.trans e2)

/-- C14: `parse_command` returns `CMD_JOIN`, `CMD_MOVE`, `CMD_EXIT`, `CMD_MODE`,
`CMD_RESTART` exactly when the line begins with the characters `JOIN`, `MOVE`, `EXIT`,
`MODE`, `RESTART` respectively, whatever follows, and `CMD_NONE` exactly when it begins
with none of them; the six codes are distinct, so the outcomes exclude each other; the
match is case sensitive and anchored at the first character. -/
theorem parse_command_spec (msg : List Char) :
    (parse_command msg = CMD_JOIN ↔ begins_with msg "JOIN") ∧
    (parse_command msg = CMD_MOVE ↔ begins_with msg "MOVE") ∧
    (parse_command msg = CMD_EXIT ↔ begins_with msg "EXIT") ∧
    (parse_command msg = CMD_MODE ↔ begins_with msg "MODE") ∧
    (parse_command msg = CMD_RESTART ↔ begins_with msg "RESTART") ∧
    (parse_command msg = CMD_NONE ↔
      ¬ begins_with msg "JOIN" ∧ ¬ begins_with msg "MOVE" ∧ ¬ begins_with msg "EXIT" ∧
      ¬ begins_with msg "MODE" ∧ ¬ begins_with msg "RESTART") ∧
    [CMD_NONE, CMD_JOIN, CMD_MOVE, CMD_EXIT, CMD_RESTART, CMD_MODE].Nodup ∧
    parse_command "MOVE".toList = CMD_MOVE ∧
    parse_command "MOVExyz 1 2".toList = CMD_MOVE ∧
    parse_command "move 1 2".toList = CMD_NONE ∧
    parse_command " JOIN a".toList = CMD_NONE ∧
    parse_command "RESTAR".toList = CMD_NONE := by
  rw [← strncmp_eq_iff msg "JOIN" 4 rfl, ← strncmp_eq_iff msg "MOVE" 4 rfl,
    ← strncmp_eq_iff msg "EXIT" 4 rfl, ← strncmp_eq_iff msg "MODE" 4 rfl,
    ← strncmp_eq_iff msg "RESTART" 7 rfl]
  have x1 := strncmp_excl msg "JOIN" "MOVE" 4 4 (le_refl _) (le_refl _) (by decide)
  have x2 := strncmp_excl msg "JOIN" "EXIT" 4 4 (le_refl _) (le_refl _) (by decide)
  have x3 := strncmp_excl msg "JOIN" "MODE" 4 4 (le_refl _) (le_refl _) (by decide)
  have x4 := strncmp_excl msg "JOIN" "RESTART" 4 7 (le_refl _) (by decide) (by decide)
  have x5 := strncmp_excl msg "MOVE" "EXIT" 4 4 (le_refl _) (le_refl _) (by decide)
  have x6 := strncmp_excl msg "MOVE" "MODE" 4 4 (le_refl _) (le_refl _) (by decide)
  have x7 := strncmp_excl msg "MOVE" "RESTART" 4 7 (le_refl _) (by decide) (by decide)
  have x8 := strncmp_excl msg "EXIT" "MODE" 4 4 (le_refl _) (le_refl _) (by decide)
  have x9 := strncmp_excl msg "EXIT" "RESTART" 4 7 (le_refl _) (by decide) (by decide)
  have x10 := strncmp_excl msg "MODE" "RESTART" 4 7 (le_refl _) (by decide) (by decide)
  unfold parse_command
  refine ⟨?_, ?_, ?_, ?_, ?_, ?_, by decide, by decide, by decide, by decide, by decide,
    by decide⟩ <;>
  · split_ifs <;>
    simp_all [CMD_NONE, CMD_JOIN, CMD_MOVE, CMD_EXIT, CMD_RESTART, CMD_MODE]

/-! ### Unknown lines, `RESTART` and `MODE` errors -/

/-- C15: a line that `parse_command` classifies as `CMD_NONE` produces no write at all and
leaves the whole session (board, mode, turn, game-over flag, joined flags, descriptors) as
it was. -/
theorem unknown_line_ignored (s : Session) (i : Fin 2) (data : List Char)
    (hcmd : parse_command (c_str (cut_newline data)) = CMD_NONE) :
    handle_line s i data = (s, []) ∧
    ∀ n : Int, 0 < n → on_read s i n data = (s, []) := by
  refine ⟨handle_line_none hcmd, ?_⟩
  intro n hn
  unfold on_read
  split_ifs
  · rfl
  · omega
  · exact handle_line_none hcmd

theorem unknown_line_ignored_witness :
    handle_line (example_session MODE_PVP init_board 1 0) 1 "move 7 7\n".toList =
      (example_session MODE_PVP init_board 1 0, []) :=
  (unknown_line_ignored (example_session MODE_PVP init_board 1 0) 1 "move 7 7\n".toList
    (by decide)).1

theorem handle_restart_over {s : Session} (i : Fin 2) (h : s.game_over ≠ 0) :
    handle_restart s i =
      ({ s with board := init_board, current_turn := 1, game_over := 0 },
        broadcast s.client_fd "RESET\n" ++ broadcast s.client_fd "TURN 1\n") := by
  unfold handle_restart
  rw [if_neg h]

theorem handle_restart_early {s : Session} (i : Fin 2) (h : s.game_over = 0) :
    handle_restart s i = (s, [{ slot := i, text := "ERR NOT_GAME_OVER\n", len := 18 }]) := by
  unfold handle_restart
  rw [if_pos h]

/-- C16: `RESTART` while `game_over` is set empties every cell of the board, sets
`current_turn` to 1, clears `game_over`, keeps the mode, the joined flags and the
descriptors, and its writes are the broadcast of `RESET` followed by the broadcast of
`TURN 1`; while `game_over` is not set it only writes `ERR NOT_GAME_OVER` to the sender and
changes nothing. -/
theorem restart_spec (s : Session) (i : Fin 2) (data : List Char)
    (hcmd : parse_command (c_str (cut_newline data)) = CMD_RESTART) :
    (s.game_over ≠ 0 →
      (∀ x y : Int, (handle_line s i data).1.board y x = 0) ∧
      (handle_line s i data).1.current_turn = 1 ∧
      (handle_line s i data).1.game_over = 0 ∧
      (handle_line s i data).1.game_mode = s.game_mode ∧
      (handle_line s i data).1.joined = s.joined ∧
      (handle_line s i data).1.client_fd = s.client_fd ∧
      (handle_line s i data).2 =
        broadcast s.client_fd "RESET\n" ++ broadcast s.client_fd "TURN 1\n") ∧
    (s.game_over = 0 →
      handle_line s i data = (s, [{ slot := i, text := "ERR NOT_GAME_OVER\n", len := 18 }])) := by
  rw [handle_line_restart hcmd]
  constructor
  · intro h
    rw [handle_restart_over i h]
    exact ⟨fun _ _ => rfl, rfl, rfl, rfl, rfl, rfl, rfl⟩
  · intro h
    exact handle_restart_early i h

theorem restart_spec_witness :
    (handle_line (example_session MODE_PVAI (place_all init_board 1 [(7, 7)]) 2 1) 1
      "RESTART\n".toList).2 =
      [{ slot := 0, text := "RESET\n", len := 6 }, { slot := 1, text := "RESET\n", len := 6 },
       { slot := 0, text := "TURN 1\n", len := 7 }, { slot := 1, text := "TURN 1\n", len := 7 }] ∧
    (handle_line (example_session MODE_PVAI (place_all init_board 1 [(7, 7)]) 2 1) 1
      "RESTART\n".toList).1.board 7 7 = 0 ∧
    (handle_line (example_session MODE_PVAI (place_all init_board 1 [(7, 7)]) 2 1) 1
      "RESTART\n".toList).1.current_turn = 1 :=
  have h := (restart_spec (example_session MODE_PVAI (place_all init_board 1 [(7, 7)]) 2 1) 1
    "RESTART\n".toList (by decide)).1 (by decide)
  ⟨h.2.2.2.2.2.2.trans (by decide), h.1 7 7, h.2.1⟩

/-- C17: after game over, a second `RESTART` (from either slot) right after a first one
is answered with `ERR NOT_GAME_OVER` and changes nothing: the session after the two
commands is the session after the first, with an empty board, `current_turn = 1` and
`game_over = 0`. -/
theorem restart_twice (s : Session) (i j : Fin 2) (data1 data2 : List Char)
    (h1 : parse_command (c_str (cut_newline data1)) = CMD_RESTART)
    (h2 : parse_command (c_str (cut_newline data2)) = CMD_RESTART)
    (hover : s.game_over ≠ 0) :
    handle_line (handle_line s i data1).1 j data2 =
      ((handle_line s i data1).1, [{ slot := j, text := "ERR NOT_GAME_OVER\n", len := 18 }]) ∧
    run s [(i, data1), (j, data2)] = run s [(i, data1)] ∧
    (∀ x y : Int, (run s [(i, data1), (j, data2)]).board y x = 0) ∧
    (run s [(i, data1), (j, data2)]).current_turn = 1 ∧
    (run s [(i, data1), (j, data2)]).game_over = 0 := by
  have e1 : handle_line s i data1 =
      ({ s with board := init_board, current_turn := 1, game_over := 0 },
        broadcast s.client_fd "RESET\n" ++ broadcast s.client_fd "TURN 1\n") := by
    rw [handle_line_restart h1, handle_restart_over i hover]
  have e2 : handle_line (handle_line s i data1).1 j data2 =
      ((handle_line s i data1).1, [{ slot := j, text := "ERR NOT_GAME_OVER\n", len := 18 }]) := by
    rw [handle_line_restart h2]
    apply handle_restart_early
    rw [e1]
  have e3 : run s [(i, data1), (j, data2)] = (handle_line s i data1).1 := by
    show (handle_line (handle_line s i data1).1 j data2).1 = _
    rw [e2]
  refine ⟨e2, ?_, ?_, ?_, ?_⟩
  · rw [e3]; rfl
  · intro x y; rw [e3, e1]; rfl
  · rw [e3, e1]
  · rw [e3, e1]

theorem restart_twice_witness :
    handle_line (handle_line (example_session MODE_PVP (place_all init_board 1 [(7, 7)]) 1 1) 0
        "RESTART\n".toList).1 1 "RESTART\n".toList =
      ((handle_line (example_session MODE_PVP (place_all init_board 1 [(7, 7)]) 1 1) 0
        "RESTART\n".toList).1, [{ slot := 1, text := "ERR NOT_GAME_OVER\n", len := 18 }]) :=
  (restart_twice (example_session MODE_PVP (place_all init_board 1 [(7, 7)]) 1 1) 0 1
    "RESTART\n".toList "RESTART\n".toList (by decide) (by decide) (by decide)).1

/-- C20: for a line classified as `MODE`, a number other than 1 and 2 after the verb gives
the single write `ERR MODE_MUST_BE_1_OR_2` to the sender, and no number after the verb gives
the single write `ERR INVALID_MODE` to the sender; in both cases the session, with its mode,
board, turn and game-over flag, is unchanged.  The number is the value `sscanf` stores in
the `int` `mode_num`. -/
theorem mode_errors (s : Session) (i : Fin 2) (data : List Char)
    (hcmd : parse_command (c_str (cut_newline data)) = CMD_MODE) :
    (∀ n : Int, sscanf_MODE_d (c_str (cut_newline data)) = some n → n ≠ 1 → n ≠ 2 →
      handle_line s i data =
        (s, [{ slot := i, text := "ERR MODE_MUST_BE_1_OR_2\n", len := 24 }])) ∧
    (sscanf_MODE_d (c_str (cut_newline data)) = none →
      handle_line s i data = (s, [{ slot := i, text := "ERR INVALID_MODE\n", len := 18 }])) := by
  rw [handle_line_mode hcmd]
  unfold handle_mode
  constructor
  · intro n hn h1 h2
    rw [hn]
    simp only [if_neg h1, if_neg h2]
  · intro hn
    rw [hn]

theorem mode_errors_witness :
    handle_line (example_session MODE_NONE init_board 1 0) 0 "MODE 3\n".toList =
      (example_session MODE_NONE init_board 1 0,
        [{ slot := 0, text := "ERR MODE_MUST_BE_1_OR_2\n", len := 24 }]) ∧
    handle_line (example_session MODE_NONE init_board 1 0) 0 "MODE 0\n".toList =
      (example_session MODE_NONE init_board 1 0,
        [{ slot := 0, text := "ERR MODE_MUST_BE_1_OR_2\n", len := 24 }]) ∧
    handle_line (example_session MODE_NONE init_board 1 0) 0 "MODE -1\n".toList =
      (example_session MODE_NONE init_board 1 0,
        [{ slot := 0, text := "ERR MODE_MUST_BE_1_OR_2\n", len := 24 }]) ∧
    handle_line (example_session MODE_NONE init_board 1 0) 0 "MODE x\n".toList =
      (example_session MODE_NONE init_board 1 0,
        [{ slot := 0, text := "ERR INVALID_MODE\n", len := 18 }]) ∧
    handle_line (example_session MODE_NONE init_board 1 0) 0 "MODE 4294967299\n".toList =
      (example_session MODE_NONE init_board 1 0,
        [{ slot := 0, text := "ERR MODE_MUST_BE_1_OR_2\n", len := 24 }]) ∧
    (handle_line (example_session MODE_NONE init_board 1 0) 0
      "MODE 4294967297\n".toList).1.game_mode = MODE_PVAI :=
  ⟨(mode_errors (example_session MODE_NONE init_board 1 0) 0 "MODE 3\n".toList (by decide)).1 3
      (by decide) (by decide) (by decide),
   (mode_errors (example_session MODE_NONE init_board 1 0) 0 "MODE 0\n".toList (by decide)).1 0
      (by decide) (by decide) (by decide),
   (mode_errors (example_session MODE_NONE init_board 1 0) 0 "MODE -1\n".toList (by decide)).1
      (-1) (by decide) (by decide) (by decide),
   (mode_errors (example_session MODE_NONE init_board 1 0) 0 "MODE x\n".toList (by decide)).2
      (by decide),
   (mode_errors (example_session MODE_NONE init_board 1 0) 0 "MODE 4294967299\n".toList
      (by decide)).1 3 (by decide) (by decide) (by decide),
   by decide⟩

/-! ### `EXIT` and read failure -/

/-- C18, as stated, fails: in PVP mode, after `EXIT` from slot 1 the mode is still PVP,
not NONE. -/
theorem exit_mode_counterexample :
    (example_session MODE_PVP (place_all init_board 1 [(7, 7)]) 2 0).game_mode = MODE_PVP ∧
    parse_command (c_str (cut_newline "EXIT\n".toList)) = CMD_EXIT ∧
    (handle_line (example_session MODE_PVP (place_all init_board 1 [(7, 7)]) 2 0) 1
      "EXIT\n".toList).1.game_mode = MODE_PVP ∧
    (handle_line (example_session MODE_PVP (place_all init_board 1 [(7, 7)]) 2 0) 1
      "EXIT\n".toList).1.game_mode ≠ MODE_NONE := by
  decide

/-- C18, amended: on `EXIT` from slot `i` the other slot, if occupied, is sent
`OPPONENT_EXIT` and nothing else is written; slot `i` becomes free with its joined flag
cleared, the other slot keeps its descriptor and flag; every cell of the board is empty,
`current_turn = 1` and `game_over = 0` afterwards; the mode is left as it was. -/
theorem exit_spec (s : Session) (i : Fin 2) (data : List Char)
    (hcmd : parse_command (c_str (cut_newline data)) = CMD_EXIT) :
    (s.client_fd (1 - i) ≠ -1 →
      (handle_line s i data).2 = [{ slot := 1 - i, text := "OPPONENT_EXIT\n", len := 14 }]) ∧
    (s.client_fd (1 - i) = -1 → (handle_line s i data).2 = []) ∧
    (handle_line s i data).1.client_fd i = -1 ∧
    (handle_line s i data).1.joined i = 0 ∧
    (handle_line s i data).1.client_fd (1 - i) = s.client_fd (1 - i) ∧
    (handle_line s i data).1.joined (1 - i) = s.joined (1 - i) ∧
    (handle_line s i data).1.player_count = s.player_count - 1 ∧
    (∀ x y : Int, (handle_line s i data).1.board y x = 0) ∧
    (handle_line s i data).1.current_turn = 1 ∧
    (handle_line s i data).1.game_over = 0 ∧
    (handle_line s i data).1.game_mode = s.game_mode := by
  rw [handle_line_exit hcmd]
  have hother : (if i = 0 then (1 : Fin 2) else 0) = 1 - i := by
    revert i; decide
  have hne : (1 : Fin 2) - i ≠ i := by
    revert i; decide
  have hout : (handle_exit s i).2 =
      if s.client_fd (1 - i) ≠ -1 then
        [{ slot := 1 - i, text := "OPPONENT_EXIT\n", len := 14 }]
      else [] := by
    unfold handle_exit
    simp only [hother]
  refine ⟨fun h => by rw [hout, if_pos h], fun h => by rw [hout, if_neg (not_not.2 h)],
    Function.update_same _ _ _, Function.update_same _ _ _,
    Function.update_noteq hne _ _, Function.update_noteq hne _ _, rfl,
    fun _ _ => rfl, rfl, rfl, rfl⟩

theorem exit_spec_witness :
    (handle_line (example_session MODE_PVP (place_all init_board 1 [(7, 7)]) 2 1) 0
      "EXIT\n".toList).2 = [{ slot := 1, text := "OPPONENT_EXIT\n", len := 14 }] ∧
    (handle_line (example_session MODE_PVP (place_all init_board 1 [(7, 7)]) 2 1) 0
      "EXIT\n".toList).1.board 7 7 = 0 ∧
    (handle_line (example_session MODE_PVP (place_all init_board 1 [(7, 7)]) 2 1) 0
      "EXIT\n".toList).1.game_mode = MODE_PVP :=
  have h := exit_spec (example_session MODE_PVP (place_all init_board 1 [(7, 7)]) 2 1) 0
    "EXIT\n".toList (by decide)
  ⟨h.1 (by decide), h.2.2.2.2.2.2.2.1 7 7, h.2.2.2.2.2.2.2.2.2.2⟩

/-- C19, as stated, fails: with both players connected in PVP mode and a stone on the
board, a read failure on slot 0 writes nothing and leaves the board, the turn and the mode
as they were, while `EXIT` from slot 0 writes `OPPONENT_EXIT` to slot 1, empties the board
and sets the turn to 1. -/
theorem disconnect_counterexample :
    (on_read (example_session MODE_PVP (place_all init_board 1 [(7, 7)]) 2 0) 0 0 []).2 = [] ∧
    (handle_line (example_session MODE_PVP (place_all init_board 1 [(7, 7)]) 2 0) 0
      "EXIT\n".toList).2 = [{ slot := 1, text := "OPPONENT_EXIT\n", len := 14 }] ∧
    (on_read (example_session MODE_PVP (place_all init_board 1 [(7, 7)]) 2 0) 0 0 []
      ).1.board 7 7 = 1 ∧
    (handle_line (example_session MODE_PVP (place_all init_board 1 [(7, 7)]) 2 0) 0
      "EXIT\n".toList).1.board 7 7 = 0 ∧
    (on_read (example_session MODE_PVP (place_all init_board 1 [(7, 7)]) 2 0) 0 0 []
      ).1.current_turn = 2 ∧
    (handle_line (example_session MODE_PVP (place_all init_board 1 [(7, 7)]) 2 0) 0
      "EXIT\n".toList).1.current_turn = 1 ∧
    (on_read (example_session MODE_PVP (place_all init_board 1 [(7, 7)]) 2 0) 0 0 []
      ).1.game_mode ≠ MODE_NONE := by
  decide

/-- C19, amended: a read failure (`n <= 0`) on the connected slot `i` frees the slot,
clears its joined flag and decrements the player count exactly as `EXIT` from slot `i`
does, and like `EXIT` it leaves the mode as it was. -/
theorem disconnect_spec (s : Session) (i : Fin 2) (n : Int) (data dataExit : List Char)
    (hconn : s.client_fd i ≠ -1) (hn : n ≤ 0)
    (hcmd : parse_command (c_str (cut_newline dataExit)) = CMD_EXIT) :
    (on_read s i n data).1.client_fd = (handle_line s i dataExit).1.client_fd ∧
    (on_read s i n data).1.joined = (handle_line s i dataExit).1.joined ∧
    (on_read s i n data).1.player_count = (handle_line s i dataExit).1.player_count ∧
    (on_read s i n data).1.game_mode = (handle_line s i dataExit).1.game_mode ∧
    (on_read s i n data).1.client_fd i = -1 ∧
    (on_read s i n data).1.joined i = 0 ∧
    (on_read s i n data).1.game_mode = s.game_mode := by
  rw [handle_line_exit hcmd]
  unfold on_read
  rw [if_neg hconn, if_pos hn]
  exact ⟨rfl, rfl, rfl, rfl, Function.update_same _ _ _, Function.update_same _ _ _, rfl⟩

theorem disconnect_spec_witness :
    (on_read (example_session MODE_PVP init_board 1 0) 1 0 []).1.client_fd 1 = -1 ∧
    (on_read (example_session MODE_PVP init_board 1 0) 1 0 []).1.joined 1 = 0 ∧
    (on_read (example_session MODE_PVP init_board 1 0) 1 0 []).1.game_mode = MODE_PVP :=
  have h := disconnect_spec (example_session MODE_PVP init_board 1 0) 1 0 [] "EXIT\n".toList
    (by decide) (by decide) (by decide)
  ⟨h.2.2.2.2.1, h.2.2.2.2.2.1, h.2.2.2.2.2.2⟩

/-! ### `count_dir` and `longest_line_if` -/

/-- The test of the `while` loop of `count_dir`, as a proposition. -/
theorem count_dir_cond (b : Board) (p nx ny : Int) :
    (in_range nx ny && decide (get_stone b nx ny = p)) = true ↔
      ((0 ≤ nx ∧ nx < 15 ∧ 0 ≤ ny ∧ ny < 15) ∧ b ny nx = p) := by
  rw [Bool.and_eq_true, in_range_iff, decide_eq_true_eq]
  constructor
  · rintro ⟨hr, hg⟩
    rw [get_stone_in_board b nx ny hr] at hg
    exact ⟨hr, hg⟩
  · rintro ⟨hr, hg⟩
    rw [get_stone_in_board b nx ny hr]
    exact ⟨hr, hg⟩

/-- What the loop of `count_dir` computes: it adds to `cnt` the number `n` of cells, from
`(nx, ny)` on, that pass the test, and it stops at the first cell that fails it unless the
fuel ran out. -/
theorem count_dir_loop_spec (b : Board) (dx dy p : Int) :
    ∀ (fuel : Nat) (nx ny cnt : Int), ∃ n : Nat,
      count_dir_loop b dx dy p fuel nx ny cnt = cnt + n ∧ n ≤ fuel ∧
      (∀ j : Nat, j < n →
        (0 ≤ nx + j * dx ∧ nx + j * dx < 15 ∧ 0 ≤ ny + j * dy ∧ ny + j * dy < 15) ∧
        b (ny + j * dy) (nx + j * dx) = p) ∧
      (n < fuel →
        ¬ ((0 ≤ nx + n * dx ∧ nx + n * dx < 15 ∧ 0 ≤ ny + n * dy ∧ ny + n * dy < 15) ∧
          b (ny + n * dy) (nx + n * dx) = p)) := by
  intro fuel
  induction fuel with
  | zero =>
    intro nx ny cnt
    exact ⟨0, by simp [count_dir_loop], le_refl _, fun j hj => absurd hj (Nat.not_lt_zero j),
      fun h => absurd h (Nat.lt_irrefl 0)⟩
  | succ fuel ih =>
    intro nx ny cnt
    by_cases hc : (in_range nx ny && decide (get_stone b nx ny = p)) = true
    · obtain ⟨n, h1, h2, h3, h4⟩ := ih (nx + dx) (ny + dy) (cnt + 1)
      refine ⟨n + 1, ?_, by omega, ?_, ?_⟩
      · simp only [count_dir_loop]
        rw [if_pos hc, h1]
        push_cast
        ring
      · intro j hj
        cases j with
        | zero =>
          simp only [Nat.cast_zero, zero_mul, add_zero]
          exact (count_dir_cond b p nx ny).1 hc
        | succ j =>
          have := h3 j (by omega)
          have e1 : nx + ((j + 1 : Nat) : Int) * dx = nx + dx + (j : Int) * dx := by
            push_cast; ring
          have e2 : ny + ((j + 1 : Nat) : Int) * dy = ny + dy + (j : Int) * dy := by
            push_cast; ring
          rw [e1, e2]
          exact this
      · intro hlt
        have := h4 (by omega)
        have e1 : nx + ((n + 1 : Nat) : Int) * dx = nx + dx + (n : Int) * dx := by
          push_cast; ring
        have e2 : ny + ((n + 1 : Nat) : Int) * dy = ny + dy + (n : Int) * dy := by
          push_cast; ring
        rw [e1, e2]
        exact this
    · refine ⟨0, ?_, Nat.zero_le _, fun j hj => absurd hj (Nat.not_lt_zero j), ?_⟩
      · simp only [count_dir_loop]
        rw [if_neg hc]
        simp
      · intro _
        simp only [Nat.cast_zero, zero_mul, add_zero]
        exact fun h => hc ((count_dir_cond b p nx ny).2 h)

/-- `count_dir` from a cell of the board, in a direction other than `(0, 0)`: the result `n`
is the number of consecutive cells after `(x, y)` that are on the board and hold `p`. -/
theorem count_dir_spec (b : Board) (x y dx dy p : Int)
    (hr : 0 ≤ x ∧ x < 15 ∧ 0 ≤ y ∧ y < 15) (hd : dx ≠ 0 ∨ dy ≠ 0) :
    ∃ n : Nat, count_dir b x y dx dy p = n ∧
      (∀ k : Int, 1 ≤ k → k ≤ n → owned_at b p x y dx dy k) ∧
      ¬ owned_at b p x y dx dy ((n : Int) + 1) := by
  obtain ⟨n, h1, h2, h3, h4⟩ := count_dir_loop_spec b dx dy p 15 (x + dx) (y + dy) 0
  have hn : n < 15 := by
    by_contra hge
    have h15 : n = 15 := by omega
    have := (h3 14 (by omega)).1
    push_cast at this
    rcases hd with hd | hd <;> omega
  refine ⟨n, by rw [count_dir, h1]; simp, ?_, ?_⟩
  · intro k hk1 hkn
    have hj := h3 (k - 1).toNat (by omega)
    have ek : (((k - 1).toNat : Nat) : Int) = k - 1 := by omega
    rw [ek] at hj
    have e1 : x + dx + (k - 1) * dx = x + k * dx := by ring
    have e2 : y + dy + (k - 1) * dy = y + k * dy := by ring
    rw [e1, e2] at hj
    exact hj
  · have hj := h4 hn
    have e1 : x + dx + (n : Int) * dx = x + ((n : Int) + 1) * dx := by ring
    have e2 : y + dy + (n : Int) * dy = y + ((n : Int) + 1) * dy := by ring
    rw [e1, e2] at hj
    exact hj

theorem count_dir_nonneg (b : Board) (x y dx dy p : Int) : 0 ≤ count_dir b x y dx dy p := by
  obtain ⟨n, h1, _⟩ := count_dir_loop_spec b dx dy p 15 (x + dx) (y + dy) 0
  rw [count_dir, h1]
  omega

theorem owned_at_neg (b : Board) (p x y dx dy k : Int) :
    owned_at b p x y (-dx) (-dy) k ↔ owned_at b p x y dx dy (-k) := by
  unfold owned_at
  have e1 : x + k * -dx = x + -k * dx := by ring
  have e2 : y + k * -dy = y + -k * dy := by ring
  rw [e1, e2]

theorem owned_at_set_cell (b : Board) (p x y dx dy k : Int) (hd : dx ≠ 0 ∨ dy ≠ 0)
    (hk : k ≠ 0) :
    owned_at (set_cell b x y p) p x y dx dy k ↔ owned_at b p x y dx dy k := by
  unfold owned_at set_cell
  have hne : ¬ (y + k * dy = y ∧ x + k * dx = x) := by
    rintro ⟨h1, h2⟩
    have h1' : k * dy = 0 := by omega
    have h2' : k * dx = 0 := by omega
    rcases hd with hd | hd
    · rcases mul_eq_zero.1 h2' with h | h
      · exact hk h
      · exact hd h
    · rcases mul_eq_zero.1 h1' with h | h
      · exact hk h
      · exact hd h
  simp only [hne, if_false]

theorem place_stone_empty (b : Board) (x y p : Int) (hr : 0 ≤ x ∧ x < 15 ∧ 0 ≤ y ∧ y < 15)
    (he : b y x = 0) : (place_stone b x y p).2 = set_cell b x y p := by
  unfold place_stone BOARD_SIZE
  rw [if_neg (by omega), if_neg (not_not.2 he)]

/-- The length computed for one direction is the length of the maximal run through `(x, y)`
on the board that holds the new stone. -/
theorem line_len_maxrun (b : Board) (x y p dx dy : Int)
    (hr : 0 ≤ x ∧ x < 15 ∧ 0 ≤ y ∧ y < 15) (he : b y x = 0) (hd : dx ≠ 0 ∨ dy ≠ 0) :
    ∃ n m : Nat, MaxRun (place_stone b x y p).2 p x y dx dy n m ∧
      line_len b x y p (dx, dy) = (n : Int) + m + 1 := by
  obtain ⟨n, hn1, hn2, hn3⟩ := count_dir_spec b x y dx dy p hr hd
  obtain ⟨m, hm1, hm2, hm3⟩ := count_dir_spec b x y (-dx) (-dy) p hr (by omega)
  refine ⟨n, m, ⟨?_, ?_, ?_⟩, ?_⟩
  · intro k hk1 hk2
    rw [place_stone_empty b x y p hr he]
    by_cases hk0 : k = 0
    · subst hk0
      unfold owned_at set_cell
      simp only [zero_mul, add_zero, and_self, if_true, and_true]
      exact hr
    · rw [owned_at_set_cell b p x y dx dy k hd hk0]
      by_cases hpos : 0 < k
      · exact hn2 k (by omega) hk2
      · have := hm2 (-k) (by omega) (by omega)
        rw [owned_at_neg] at this
        simpa using this
  · rw [place_stone_empty b x y p hr he, owned_at_set_cell b p x y dx dy _ hd (by omega)]
    exact hn3
  · rw [place_stone_empty b x y p hr he, owned_at_set_cell b p x y dx dy _ hd (by omega)]
    rw [owned_at_neg] at hm3
    exact hm3
  · unfold line_len
    simp only
    rw [hn1, hm1]
    ring

/-- A line has one maximal run through a cell: two descriptions of it agree. -/
theorem maxRun_unique {b : Board} {p x y dx dy : Int} {n m n2 m2 : Nat}
    (h : MaxRun b p x y dx dy n m) (h2 : MaxRun b p x y dx dy n2 m2) : n = n2 ∧ m = m2 := by
  obtain ⟨a1, a2, a3⟩ := h
  obtain ⟨c1, c2, c3⟩ := h2
  constructor
  · by_contra hne
    rcases Nat.lt_or_gt_of_ne hne with hlt | hgt
    · exact a2 (c1 _ (by omega) (by omega))
    · exact c2 (a1 _ (by omega) (by omega))
  · by_contra hne
    rcases Nat.lt_or_gt_of_ne hne with hlt | hgt
    · exact a3 (c1 _ (by omega) (by omega))
    · exact c3 (a1 _ (by omega) (by omega))

/-- A maximal run along a table direction has at most 15 cells. -/
theorem maxRun_le {b : Board} {p x y : Int} {d : Int × Int} {n m : Nat} (hd : d ∈ dirs)
    (h : MaxRun b p x y d.1 d.2 n m) : n + m + 1 ≤ 15 := by
  have hn := (h.1 n (by omega) (le_refl _)).1
  have hm := (h.1 (-(m : Int)) (le_refl _) (by omega)).1
  simp only [dirs, List.mem_cons, List.mem_singleton, List.not_mem_nil, or_false] at hd
  rcases hd with rfl | rfl | rfl | rfl <;> simp only at hn hm <;> omega

/-- The fold of `longest_line_if` returns the largest of the four lengths. -/
theorem fold_dirs_max (f : Int × Int → Int) (hf : ∀ d, 1 ≤ f d) :
    (∀ d ∈ dirs, f d ≤ dirs.foldl (fun best d => if f d > best then f d else best) 0) ∧
    (∃ d ∈ dirs, dirs.foldl (fun best d => if f d > best then f d else best) 0 = f d) := by
  have h0 := hf (1, 0)
  have h1 := hf (0, 1)
  have h2 := hf (1, 1)
  have h3 := hf (1, -1)
  simp only [dirs, List.foldl_cons, List.foldl_nil, List.mem_cons, List.mem_singleton,
    List.not_mem_nil, or_false, forall_eq_or_imp, forall_eq, exists_eq_or_imp, exists_eq_left]
  generalize f (1, 0) = a0 at *
  generalize f (0, 1) = a1 at *
  generalize f (1, 1) = a2 at *
  generalize f (1, -1) = a3 at *
  split_ifs <;> omega

theorem dirs_nonzero {d : Int × Int} (hd : d ∈ dirs) : d.1 ≠ 0 ∨ d.2 ≠ 0 := by
  simp only [dirs, List.mem_cons, List.mem_singleton, List.not_mem_nil, or_false] at hd
  rcases hd with rfl | rfl | rfl | rfl <;> decide

theorem line_len_pos (b : Board) (x y p : Int) (d : Int × Int) : 1 ≤ line_len b x y p d := by
  unfold line_len
  have h1 := count_dir_nonneg b x y d.1 d.2 p
  have h2 := count_dir_nonneg b x y (-d.1) (-d.2) p
  omega

/-- C12: on an empty cell `(x, y)` of the board, for each of the four directions the value
`1 + count_dir forward + count_dir backward` is the length of the maximal contiguous run of
`p` cells through `(x, y)` on the board obtained by placing `p` there; `longest_line_if` is
the largest of these four lengths; and it lies between 1 and 15. -/
theorem longest_line_if_spec (b : Board) (x y p : Int)
    (hr : 0 ≤ x ∧ x < 15 ∧ 0 ≤ y ∧ y < 15) (he : b y x = 0) :
    (∀ d ∈ dirs, ∃ n m : Nat,
      MaxRun (place_stone b x y p).2 p x y d.1 d.2 n m ∧
      line_len b x y p d = (n : Int) + m + 1) ∧
    (∀ d ∈ dirs, ∀ n m : Nat, MaxRun (place_stone b x y p).2 p x y d.1 d.2 n m →
      line_len b x y p d = (n : Int) + m + 1) ∧
    (∀ d ∈ dirs, line_len b x y p d =
      1 + count_dir b x y d.1 d.2 p + count_dir b x y (-d.1) (-d.2) p) ∧
    (∀ d ∈ dirs, line_len b x y p d ≤ longest_line_if b x y p) ∧
    (∃ d ∈ dirs, longest_line_if b x y p = line_len b x y p d) ∧
    1 ≤ longest_line_if b x y p ∧ longest_line_if b x y p ≤ 15 := by
  have hex : ∀ d ∈ dirs, ∃ n m : Nat,
      MaxRun (place_stone b x y p).2 p x y d.1 d.2 n m ∧
      line_len b x y p d = (n : Int) + m + 1 :=
    fun d hd => line_len_maxrun b x y p d.1 d.2 hr he (dirs_nonzero hd)
  have hmax := fold_dirs_max (line_len b x y p) (line_len_pos b x y p)
  refine ⟨hex, ?_, fun _ _ => rfl, hmax.1, hmax.2, ?_, ?_⟩
  · intro d hd n m hrun
    obtain ⟨n2, m2, hrun2, hlen⟩ := hex d hd
    obtain ⟨e1, e2⟩ := maxRun_unique hrun hrun2
    rw [hlen, e1, e2]
  · obtain ⟨d, _, hd⟩ := hmax.2
    show 1 ≤ longest_line_if b x y p
    unfold longest_line_if
    rw [hd]
    exact line_len_pos b x y p d
  · obtain ⟨d, hmem, hd⟩ := hmax.2
    obtain ⟨n, m, hrun, hlen⟩ := hex d hmem
    have := maxRun_le hmem hrun
    show longest_line_if b x y p ≤ 15
    unfold longest_line_if
    rw [hd, hlen]
    omega

theorem longest_line_if_spec_witness :
    longest_line_if (place_all init_board 2 [(3, 0), (4, 0), (5, 0)]) 6 0 2 = 4 ∧
    line_len (place_all init_board 2 [(3, 0), (4, 0), (5, 0)]) 6 0 2 (1, 0) = 4 ∧
    1 ≤ longest_line_if (place_all init_board 2 [(3, 0), (4, 0), (5, 0)]) 6 0 2 ∧
    longest_line_if (place_all init_board 2 [(3, 0), (4, 0), (5, 0)]) 6 0 2 ≤ 15 :=
  have h := longest_line_if_spec (place_all init_board 2 [(3, 0), (4, 0), (5, 0)]) 6 0 2
    (by decide) (by decide)
  ⟨by decide, by decide, h.2.2.2.2.2.1, h.2.2.2.2.2.2⟩

/-! ### `MODE 1`, `MODE 2` and the mode -/

theorem handle_mode_one {s : Session} (i : Fin 2) {line : List Char}
    (h : sscanf_MODE_d line = some 1) :
    handle_mode s i line =
      ({ s with game_mode := MODE_PVAI, board := init_board, current_turn := 1, game_over := 0 },
        broadcast s.client_fd "START\n" ++ broadcast s.client_fd "TURN 1\n") := by
  unfold handle_mode
  rw [h]
  simp only [if_true]

theorem handle_mode_two {s : Session} (i : Fin 2) {line : List Char}
    (h : sscanf_MODE_d line = some 2) :
    handle_mode s i line =
      ({ s with game_mode := MODE_PVP },
        [{ slot := i, text := "상대방을 기다리는 중입니다...\n",
           len := strlen "상대방을 기다리는 중입니다...\n" }] ++
        (if s.joined 0 ≠ 0 ∧ s.joined 1 ≠ 0 then
          broadcast s.client_fd "START\n" ++ broadcast s.client_fd "TURN 1\n"
         else [])) := by
  unfold handle_mode
  rw [h]
  simp only [show ¬ ((2 : Int) = 1) by decide, if_false, if_true]

theorem handle_mode_other {s : Session} (i : Fin 2) {line : List Char} {n : Int}
    (h : sscanf_MODE_d line = some n) (h1 : n ≠ 1) (h2 : n ≠ 2) :
    handle_mode s i line =
      (s, [{ slot := i, text := "ERR MODE_MUST_BE_1_OR_2\n", len := 24 }]) := by
  unfold handle_mode
  rw [h]
  simp only [if_neg h1, if_neg h2]

theorem handle_mode_none {s : Session} (i : Fin 2) {line : List Char}
    (h : sscanf_MODE_d line = none) :
    handle_mode s i line = (s, [{ slot := i, text := "ERR INVALID_MODE\n", len := 18 }]) := by
  unfold handle_mode
  rw [h]

/-- C21: from every session, a `MODE` line with the number 1 from either slot sets the mode
to PVAI, empties every cell of the board, sets `current_turn` to 1 (and clears `game_over`),
and its writes are the broadcast of `START` followed by the broadcast of `TURN 1`. -/
theorem mode_one_spec (s : Session) (i : Fin 2) (data : List Char)
    (hcmd : parse_command (c_str (cut_newline data)) = CMD_MODE)
    (h1 : sscanf_MODE_d (c_str (cut_newline data)) = some 1) :
    (handle_line s i data).1.game_mode = MODE_PVAI ∧
    (∀ x y : Int, (handle_line s i data).1.board y x = 0) ∧
    (handle_line s i data).1.current_turn = 1 ∧
    (handle_line s i data).1.game_over = 0 ∧
    (handle_line s i data).2 =
      broadcast s.client_fd "START\n" ++ broadcast s.client_fd "TURN 1\n" := by
  rw [handle_line_mode hcmd, handle_mode_one i h1]
  exact ⟨rfl, fun _ _ => rfl, rfl, rfl, rfl⟩

theorem mode_one_spec_witness :
    (handle_line (example_session MODE_PVP (place_all init_board 1 [(7, 7)]) 2 1) 1
      "MODE 1\n".toList).1.game_mode = MODE_PVAI ∧
    (handle_line (example_session MODE_PVP (place_all init_board 1 [(7, 7)]) 2 1) 1
      "MODE 1\n".toList).1.board 7 7 = 0 ∧
    (handle_line (example_session MODE_PVP (place_all init_board 1 [(7, 7)]) 2 1) 1
      "MODE 1\n".toList).2 =
      [{ slot := 0, text := "START\n", len := 6 }, { slot := 1, text := "START\n", len := 6 },
       { slot := 0, text := "TURN 1\n", len := 7 }, { slot := 1, text := "TURN 1\n", len := 7 }] :=
  have h := mode_one_spec (example_session MODE_PVP (place_all init_board 1 [(7, 7)]) 2 1) 1
    "MODE 1\n".toList (by decide) (by decide)
  ⟨h.1, h.2.1 7 7, h.2.2.2.2.trans (by decide)⟩

theorem ai_announce_fields (s : Session) (b : Board) (p ax ay : Int) :
    (ai_announce s b p ax ay).1.game_mode = s.game_mode ∧
    (ai_announce s b p ax ay).1.joined = s.joined ∧
    (ai_announce s b p ax ay).1.client_fd = s.client_fd ∧
    (ai_announce s b p ax ay).1.player_count = s.player_count := by
  simp only [ai_announce]
  split_ifs <;> exact ⟨rfl, rfl, rfl, rfl⟩

theorem ai_reply_fields (s : Session) (b : Board) (p x y : Int) :
    (ai_reply s b p x y).1.game_mode = s.game_mode ∧
    (ai_reply s b p x y).1.joined = s.joined ∧
    (ai_reply s b p x y).1.client_fd = s.client_fd ∧
    (ai_reply s b p x y).1.player_count = s.player_count := by
  simp only [ai_reply]
  split_ifs
  · cases fallback_scan b with
    | none => exact ⟨rfl, rfl, rfl, rfl⟩
    | some r => exact ai_announce_fields _ _ _ _ _
  · exact ai_announce_fields _ _ _ _ _

theorem handle_move_mode (s : Session) (i : Fin 2) (payload : List Char) :
    (handle_move s i payload).1.game_mode = s.game_mode := by
  rcases handle_move_cases s i payload with ⟨t, n, e, _⟩ | ⟨x, y, _, _, _, _, hc⟩
  · rw [e]
  · rcases hc with ⟨_, e⟩ | ⟨_, _, e⟩ | ⟨_, _, e⟩
    · rw [e]
    · rw [e]
    · rw [e]
      simp only []
      have h := ai_reply_fields s (place_stone s.board x y ((i.val : Int) + 1)).2
        ((i.val : Int) + 1) x y
      exact h.1

/-- The mode after a line other than `MODE 1` and `MODE 2` is the mode before. -/
theorem handle_line_mode_kept (s : Session) (i : Fin 2) (data : List Char)
    (h : ¬ (parse_command (c_str (cut_newline data)) = CMD_MODE ∧
      (sscanf_MODE_d (c_str (cut_newline data)) = some 1 ∨
       sscanf_MODE_d (c_str (cut_newline data)) = some 2))) :
    (handle_line s i data).1.game_mode = s.game_mode := by
  rcases parse_command_cases (c_str (cut_newline data)) with hc | hc | hc | hc | hc | hc
  · rw [handle_line_join hc]
    unfold handle_join
    split_ifs <;> rfl
  · rw [handle_line_mode hc]
    cases hm : sscanf_MODE_d (c_str (cut_newline data)) with
    | none => rw [handle_mode_none i hm]
    | some n =>
      have h1 : n ≠ 1 := fun e => h ⟨hc, Or.inl (by rw [hm, e])⟩
      have h2 : n ≠ 2 := fun e => h ⟨hc, Or.inr (by rw [hm, e])⟩
      rw [handle_mode_other i hm h1 h2]
  · rw [handle_line_move hc]
    exact handle_move_mode s i _
  · rw [handle_line_restart hc]
    unfold handle_restart
    split_ifs <;> rfl
  · rw [handle_line_exit hc]
    rfl
  · rw [handle_line_none hc]

/-- C22, as stated, fails: after `MODE 2` has chosen PVP, a later `MODE 1` switches the
mode to PVAI and a further `MODE 2` switches it back, with no reset in between. -/
theorem mode_switch_counterexample :
    (run_events initial
      [Event.accept 4, Event.read 0 7 "JOIN a\n".toList, Event.read 0 7 "MODE 2\n".toList]
      ).game_mode = MODE_PVP ∧
    (run_events initial
      [Event.accept 4, Event.read 0 7 "JOIN a\n".toList, Event.read 0 7 "MODE 2\n".toList,
       Event.read 0 7 "MODE 1\n".toList]).game_mode = MODE_PVAI ∧
    (run_events initial
      [Event.accept 4, Event.read 0 7 "JOIN a\n".toList, Event.read 0 7 "MODE 2\n".toList,
       Event.read 0 7 "MODE 1\n".toList, Event.read 0 7 "MODE 2\n".toList]).game_mode
      = MODE_PVP := by
  decide

/-- C22, amended (the number of a `MODE` line is the value `sscanf` stores in the `int`
`mode_num`): the mode changes only through a `MODE` line with the number 1 or 2:
every other event (any other line, a rejected `MODE` line, `EXIT`, a new connection, a read
failure) leaves it as it was; `MODE 1` always sets PVAI and `MODE 2` always sets PVP, also
when a mode had been chosen before. -/
theorem mode_set_by_mode_only (s : Session) (e : Event) :
    ((step s e).1.game_mode ≠ s.game_mode →
      ∃ i n data, e = Event.read i n data ∧
        parse_command (c_str (cut_newline data)) = CMD_MODE ∧
        (sscanf_MODE_d (c_str (cut_newline data)) = some 1 ∨
         sscanf_MODE_d (c_str (cut_newline data)) = some 2)) ∧
    (∀ (i : Fin 2) (data : List Char), parse_command (c_str (cut_newline data)) = CMD_MODE →
      sscanf_MODE_d (c_str (cut_newline data)) = some 1 →
      (handle_line s i data).1.game_mode = MODE_PVAI) ∧
    (∀ (i : Fin 2) (data : List Char), parse_command (c_str (cut_newline data)) = CMD_MODE →
      sscanf_MODE_d (c_str (cut_newline data)) = some 2 →
      (handle_line s i data).1.game_mode = MODE_PVP) := by
  refine ⟨?_, ?_, ?_⟩
  · intro hne
    cases e with
    | accept new_fd =>
      exfalso
      apply hne
      show (handle_accept s new_fd).game_mode = s.game_mode
      unfold handle_accept
      split_ifs <;> rfl
    | read i n data =>
      refine ⟨i, n, data, rfl, ?_⟩
      by_contra hcon
      apply hne
      show (on_read s i n data).1.game_mode = s.game_mode
      unfold on_read
      split_ifs
      · rfl
      · rfl
      · exact handle_line_mode_kept s i data hcon
  · intro i data hc h1
    rw [handle_line_mode hc, handle_mode_one i h1]
  · intro i data hc h2
    rw [handle_line_mode hc, handle_mode_two i h2]

theorem mode_set_by_mode_only_witness :
    (handle_line (example_session MODE_PVAI init_board 1 0) 1 "MODE 2\n".toList).1.game_mode
      = MODE_PVP ∧
    (handle_line (example_session MODE_PVP init_board 1 0) 1
      "MODE 4294967297\n".toList).1.game_mode = MODE_PVAI :=
  ⟨(mode_set_by_mode_only (example_session MODE_PVAI init_board 1 0) (Event.accept 9)).2.2 1
    "MODE 2\n".toList (by decide) (by decide),
   (mode_set_by_mode_only (example_session MODE_PVP init_board 1 0) (Event.accept 9)).2.1 1
    "MODE 4294967297\n".toList (by decide) (by decide)⟩

/-! ### The bytes of the fixed replies -/

/-- C24 does not hold for four of the fixed replies: the writes of `ERR NOT_YOUR_TURN`,
`ERR BAD_FORMAT`, `ERR INVALID_MOVE` and `ERR INVALID_MODE` pass a length one larger than the
length of the line (19, 16, 18 and 18 for lines of 18, 15, 17 and 17 characters), so the
bytes written are the line followed by the terminating NUL of the string literal. -/
theorem reply_length_mismatch :
    ((handle_line (example_session MODE_PVP init_board 1 0) 1 "MOVE 7 7\n".toList).2 =
        [{ slot := 1, text := "ERR NOT_YOUR_TURN\n", len := 19 }] ∧
      strlen "ERR NOT_YOUR_TURN\n" = 18 ∧
      bytes_written { slot := 1, text := "ERR NOT_YOUR_TURN\n", len := 19 } =
        "ERR NOT_YOUR_TURN\n".toList ++ ['\x00']) ∧
    ((handle_line (example_session MODE_PVP init_board 1 0) 0 "MOVE x y\n".toList).2 =
        [{ slot := 0, text := "ERR BAD_FORMAT\n", len := 16 }] ∧
      strlen "ERR BAD_FORMAT\n" = 15 ∧
      bytes_written { slot := 0, text := "ERR BAD_FORMAT\n", len := 16 } =
        "ERR BAD_FORMAT\n".toList ++ ['\x00']) ∧
    ((handle_line (example_session MODE_PVP init_board 1 0) 0 "MOVE 15 0\n".toList).2 =
        [{ slot := 0, text := "ERR INVALID_MOVE\n", len := 18 }] ∧
      strlen "ERR INVALID_MOVE\n" = 17 ∧
      bytes_written { slot := 0, text := "ERR INVALID_MOVE\n", len := 18 } =
        "ERR INVALID_MOVE\n".toList ++ ['\x00']) ∧
    ((handle_line (example_session MODE_PVP init_board 1 0) 0 "MODE x\n".toList).2 =
        [{ slot := 0, text := "ERR INVALID_MODE\n", len := 18 }] ∧
      strlen "ERR INVALID_MODE\n" = 17 ∧
      bytes_written { slot := 0, text := "ERR INVALID_MODE\n", len := 18 } =
        "ERR INVALID_MODE\n".toList ++ ['\x00']) := by
  decide

/-- The other fixed replies are written with the length of their text. -/
theorem reply_length_exact :
    (handle_line (example_session MODE_PVP init_board 1 0) 0 "JOIN a\n".toList).2 =
      [{ slot := 0, text := "OK PLAYER1\n", len := strlen "OK PLAYER1\n" },
       { slot := 0, text := "MODE_SELECT\n", len := strlen "MODE_SELECT\n" }] ∧
    (handle_line (example_session MODE_NONE init_board 1 0) 1 "JOIN b\n".toList).2 =
      [{ slot := 1, text := "OK PLAYER2\n", len := strlen "OK PLAYER2\n" }] ∧
    (handle_line (example_session MODE_PVP init_board 1 0) 0 "EXIT\n".toList).2 =
      [{ slot := 1, text := "OPPONENT_EXIT\n", len := strlen "OPPONENT_EXIT\n" }] ∧
    (handle_line (example_session MODE_PVP init_board 1 1) 0 "MOVE 7 7\n".toList).2 =
      [{ slot := 0, text := "ERR GAME_OVER\n", len := strlen "ERR GAME_OVER\n" }] ∧
    (handle_line (example_session MODE_PVP init_board 1 0) 0 "MODE 3\n".toList).2 =
      [{ slot := 0, text := "ERR MODE_MUST_BE_1_OR_2\n",
         len := strlen "ERR MODE_MUST_BE_1_OR_2\n" }] ∧
    (handle_line (example_session MODE_PVP init_board 1 0) 0 "RESTART\n".toList).2 =
      [{ slot := 0, text := "ERR NOT_GAME_OVER\n", len := strlen "ERR NOT_GAME_OVER\n" }] := by
  decide

/-! ### The texts written -/

theorem allowed_broadcast {fds : Fin 2 → Int} {msg : String} (hm : Allowed msg) :
    ∀ w ∈ broadcast fds msg, Allowed w.text := by
  intro w hw
  rw [mem_broadcast hw]
  exact hm

/-- Two lists of allowed writes, one after the other. -/
theorem allowed_append {l1 l2 : List Write} (h1 : ∀ w ∈ l1, Allowed w.text)
    (h2 : ∀ w ∈ l2, Allowed w.text) : ∀ w ∈ l1 ++ l2, Allowed w.text := by
  intro w hw
  rcases List.mem_append.1 hw with h | h
  · exact h1 w h
  · exact h2 w h

/-- A single write of an allowed text. -/
theorem allowed_single (i : Fin 2) (t : String) (n : Nat) (h : Allowed t) :
    ∀ w ∈ [({ slot := i, text := t, len := n } : Write)], Allowed w.text := by
  intro w hw
  rw [List.mem_singleton] at hw
  rw [hw]; exact h

theorem allowed_nil : ∀ w ∈ ([] : List Write), Allowed w.text := by
  intro w hw; cases hw

theorem allowed_fixed {t : String} (h : t ∈ fixed_lines) : Allowed t := Or.inl (Or.inl h)

theorem allowed_turn (n : Int) : Allowed (turn_msg n) := Or.inl (Or.inr (Or.inl ⟨n, rfl⟩))

theorem allowed_turn_one : Allowed "TURN 1\n" := Or.inl (Or.inr (Or.inl ⟨1, by decide⟩))

theorem allowed_move (p x y : Int) : Allowed (move_msg p x y) :=
  Or.inl (Or.inr (Or.inr (Or.inl ⟨p, x, y, rfl⟩)))

theorem allowed_win (p : Int) : Allowed (win_msg p) := Or.inl (Or.inr (Or.inr (Or.inr ⟨p, rfl⟩)))

/-- The texts written when the AI stone is announced. -/
theorem documented_ai_announce (s : Session) (b : Board) (p ax ay : Int) :
    ∀ w ∈ (ai_announce s b p ax ay).2, Allowed w.text := by
  simp only [ai_announce]
  split_ifs
  · exact allowed_append (allowed_append (allowed_broadcast (allowed_move _ _ _))
      (allowed_broadcast (allowed_win _))) (allowed_broadcast (allowed_fixed (by decide)))
  · exact allowed_append (allowed_broadcast (allowed_move _ _ _))
      (allowed_broadcast (allowed_turn _))

/-- The texts written by the AI reply. -/
theorem documented_ai_reply (s : Session) (b : Board) (p x y : Int) :
    ∀ w ∈ (ai_reply s b p x y).2, Allowed w.text := by
  simp only [ai_reply]
  split_ifs
  · cases fallback_scan b with
    | none => exact allowed_broadcast (allowed_fixed (by decide))
    | some r => exact documented_ai_announce _ _ _ _ _
  · exact documented_ai_announce _ _ _ _ _

/-- Every text a step writes is a documented line or the waiting notice. -/
theorem handle_line_texts (s : Session) (i : Fin 2) (data : List Char) :
    ∀ w ∈ (handle_line s i data).2, Allowed w.text := by
  rcases parse_command_cases (c_str (cut_newline data)) with hc | hc | hc | hc | hc | hc
  · rw [handle_line_join hc]
    simp only [handle_join, send_mode_select_message]
    split_ifs
    · exact allowed_append (allowed_single _ _ _ (allowed_fixed (by decide)))
        (allowed_single _ _ _ (allowed_fixed (by decide)))
    · exact allowed_append (allowed_single _ _ _ (allowed_fixed (by decide)))
        (allowed_append (allowed_broadcast (allowed_fixed (by decide)))
          (allowed_broadcast allowed_turn_one))
    · exact allowed_append (allowed_single _ _ _ (allowed_fixed (by decide))) allowed_nil
  · rw [handle_line_mode hc]
    cases hm : sscanf_MODE_d (c_str (cut_newline data)) with
    | none =>
      rw [handle_mode_none i hm]
      exact allowed_single _ _ _ (allowed_fixed (by decide))
    | some m =>
      by_cases h1 : m = 1
      · subst h1
        rw [handle_mode_one i hm]
        exact allowed_append (allowed_broadcast (allowed_fixed (by decide)))
          (allowed_broadcast allowed_turn_one)
      · by_cases h2 : m = 2
        · subst h2
          rw [handle_mode_two i hm]
          refine allowed_append (allowed_single _ _ _ (Or.inr rfl)) ?_
          split_ifs
          · exact allowed_append (allowed_broadcast (allowed_fixed (by decide)))
              (allowed_broadcast allowed_turn_one)
          · exact allowed_nil
        · rw [handle_mode_other i hm h1 h2]
          exact allowed_single _ _ _ (allowed_fixed (by decide))
  · rw [handle_line_move hc]
    rcases handle_move_cases s i (c_str ((cut_newline data).drop 5)) with
      ⟨t, n, e, ht⟩ | ⟨x, y, _, _, _, _, hcase⟩
    · rw [e]
      refine allowed_single _ _ _ (allowed_fixed ?_)
      simp only [List.mem_cons, List.mem_singleton, List.not_mem_nil, or_false] at ht
      rcases ht with rfl | rfl | rfl | rfl <;> decide
    · rcases hcase with ⟨_, e⟩ | ⟨_, _, e⟩ | ⟨_, _, e⟩
      · rw [e]
        exact allowed_append (allowed_append (allowed_broadcast (allowed_move _ _ _))
          (allowed_broadcast (allowed_win _))) (allowed_broadcast (allowed_fixed (by decide)))
      · rw [e]
        exact allowed_append (allowed_broadcast (allowed_move _ _ _))
          (allowed_broadcast (allowed_turn _))
      · rw [e]
        exact allowed_append (allowed_broadcast (allowed_move _ _ _))
          (documented_ai_reply _ _ _ _ _)
  · rw [handle_line_restart hc]
    unfold handle_restart
    split_ifs
    · exact allowed_single _ _ _ (allowed_fixed (by decide))
    · exact allowed_append (allowed_broadcast (allowed_fixed (by decide)))
        (allowed_broadcast allowed_turn_one)
  · rw [handle_line_exit hc]
    simp only [handle_exit]
    split_ifs
    · exact allowed_single _ _ _ (allowed_fixed (by decide))
    · exact allowed_nil
    · exact allowed_single _ _ _ (allowed_fixed (by decide))
    · exact allowed_nil
  · rw [handle_line_none hc]
    exact allowed_nil

/-- Every documented line begins with one of eight capital letters. -/
theorem documented_first_char {t : String} (h : Documented t) :
    t.toList.head? ∈ [some 'O', some 'M', some 'S', some 'G', some 'R', some 'E', some 'T',
      some 'W'] := by
  rcases h with h | ⟨n, rfl⟩ | ⟨p, x, y, rfl⟩ | ⟨p, rfl⟩
  · revert t
    decide
  · simp [turn_msg, String.toList, String.data_append]
  · simp [move_msg, String.toList, String.data_append]
  · simp [win_msg, String.toList, String.data_append]

/-- C25 does not hold as stated: `MODE 2` from the only joined player writes the waiting
notice to the sender, a text that is none of the documented forms, where the claim says
nothing is emitted; and with both players joined the same notice precedes the broadcast of
`START` and `TURN 1`. -/
theorem waiting_line_counterexample :
    (step (run_events initial [Event.accept 4, Event.read 0 7 "JOIN a\n".toList])
      (Event.read 0 7 "MODE 2\n".toList)).2 =
      [{ slot := 0, text := waiting_line, len := strlen waiting_line }] ∧
    ¬ Documented waiting_line ∧
    (step (example_session MODE_NONE init_board 1 0) (Event.read 0 7 "MODE 2\n".toList)).2 =
      [{ slot := 0, text := waiting_line, len := strlen waiting_line },
       { slot := 0, text := "START\n", len := 6 }, { slot := 1, text := "START\n", len := 6 },
       { slot := 0, text := "TURN 1\n", len := 7 }, { slot := 1, text := "TURN 1\n", len := 7 }] := by
  refine ⟨by decide, ?_, by decide⟩
  intro h
  have := documented_first_char h
  revert this
  decide

/-- C25, amended: every text written in response to a line is one of the documented forms
or the waiting notice of `MODE 2`; and `MODE 2` writes the waiting notice to the sender,
followed by the broadcast of `START` then `TURN 1` when both players have joined and by
nothing otherwise. -/
theorem emitted_texts (s : Session) (i : Fin 2) (data : List Char) :
    (∀ w ∈ (handle_line s i data).2, Allowed w.text) ∧
    (parse_command (c_str (cut_newline data)) = CMD_MODE →
      sscanf_MODE_d (c_str (cut_newline data)) = some 2 →
      (s.joined 0 ≠ 0 ∧ s.joined 1 ≠ 0 →
        (handle_line s i data).2 =
          [{ slot := i, text := waiting_line, len := strlen waiting_line }] ++
          (broadcast s.client_fd "START\n" ++ broadcast s.client_fd "TURN 1\n")) ∧
      (¬ (s.joined 0 ≠ 0 ∧ s.joined 1 ≠ 0) →
        (handle_line s i data).2 =
          [{ slot := i, text := waiting_line, len := strlen waiting_line }])) := by
  refine ⟨handle_line_texts s i data, ?_⟩
  intro hc h2
  rw [handle_line_mode hc, handle_mode_two i h2]
  constructor
  · intro hj
    simp only [if_pos hj]
    rfl
  · intro hj
    simp only [if_neg hj, List.append_nil]
    rfl

theorem emitted_texts_witness :
    (handle_line (example_session MODE_NONE init_board 1 0) 0 "MODE 2\n".toList).2 =
      [{ slot := 0, text := waiting_line, len := strlen waiting_line }] ++
      (broadcast (example_session MODE_NONE init_board 1 0).client_fd "START\n" ++
       broadcast (example_session MODE_NONE init_board 1 0).client_fd "TURN 1\n") :=
  ((emitted_texts (example_session MODE_NONE init_board 1 0) 0 "MODE 2\n".toList).2
    (by decide) (by decide)).1 (by decide)

/-! ### The draw of the PVAI branch -/

theorem place_stone_occupied (b : Board) (x y p : Int) (h : b y x ≠ 0) :
    (place_stone b x y p).1 = 0 := by
  unfold place_stone
  split_ifs <;> rfl

theorem fallback_inner_none (b : Board) (yy : Int) (hy : 0 ≤ yy ∧ yy < 15)
    (hfull : ∀ x y : Int, (0 ≤ x ∧ x < 15 ∧ 0 ≤ y ∧ y < 15) → b y x ≠ 0) (l : List Int) :
    (∀ xx ∈ l, 0 ≤ xx ∧ xx < 15) →
    l.foldl (fun acc xx =>
      match acc with
      | some r => some r
      | none =>
        if (place_stone b xx yy 2).1 ≠ 0 then some (xx, yy, (place_stone b xx yy 2).2)
        else none) (none : Option (Int × Int × Board)) = none := by
  induction l with
  | nil => intro _; rfl
  | cons xx l ih =>
    intro hl
    have hx := hl xx (List.mem_cons_self _ _)
    have hp : (place_stone b xx yy 2).1 = 0 :=
      place_stone_occupied b xx yy 2 (hfull xx yy ⟨hx.1, hx.2, hy.1, hy.2⟩)
    rw [List.foldl_cons]
    simp only [hp, ne_eq, not_true_eq_false, if_false]
    exact ih (fun a ha => hl a (List.mem_cons_of_mem _ ha))

theorem fallback_outer_none (b : Board)
    (hfull : ∀ x y : Int, (0 ≤ x ∧ x < 15 ∧ 0 ≤ y ∧ y < 15) → b y x ≠ 0) (l : List Int) :
    (∀ yy ∈ l, 0 ≤ yy ∧ yy < 15) →
    l.foldl (fun acc yy =>
      indices.foldl (fun acc xx =>
        match acc with
        | some r => some r
        | none =>
          if (place_stone b xx yy 2).1 ≠ 0 then some (xx, yy, (place_stone b xx yy 2).2)
          else none) acc) (none : Option (Int × Int × Board)) = none := by
  induction l with
  | nil => intro _; rfl
  | cons yy l ih =>
    intro hl
    rw [List.foldl_cons,
      fallback_inner_none b yy (hl yy (List.mem_cons_self _ _)) hfull indices
        (fun xx hxx => (mem_indices xx).1 hxx)]
    exact ih (fun a ha => hl a (List.mem_cons_of_mem _ ha))

/-- On a board without empty cell the fallback scan places nothing. -/
theorem fallback_scan_full (b : Board)
    (hfull : ∀ x y : Int, (0 ≤ x ∧ x < 15 ∧ 0 ≤ y ∧ y < 15) → b y x ≠ 0) :
    fallback_scan b = none :=
  fallback_outer_none b hfull indices (fun yy hyy => (mem_indices yy).1 hyy)

/-- On a board without empty cell `choose_ai_move` returns its initial `(0, 0)`. -/
theorem choose_ai_move_full (b : Board) (hx hy : Int) (hhx : hx < 15) (hhy : hy < 15)
    (hfull : ∀ x y : Int, (0 ≤ x ∧ x < 15 ∧ 0 ≤ y ∧ y < 15) → b y x ≠ 0) :
    choose_ai_move b hx hy = (0, 0) := by
  rcases choose_scan_inv b hx hy hhx hhy with ⟨h1, _⟩ | ⟨h1, h2, _⟩
  · unfold choose_ai_move
    rw [h1]
  · exact absurd h2 (hfull _ _ h1)

/-- The AI reply on a board without empty cell: the game ends with `GAME_OVER` alone. -/
theorem ai_reply_full (s : Session) (b : Board) (p x y : Int) (hhx : x < 15) (hhy : y < 15)
    (hfull : ∀ x y : Int, (0 ≤ x ∧ x < 15 ∧ 0 ≤ y ∧ y < 15) → b y x ≠ 0) :
    ai_reply s b p x y =
      ({ s with board := b, game_over := 1 }, broadcast s.client_fd "GAME_OVER\n") := by
  have hg : get_stone b 0 0 ≠ 0 := by
    rw [get_stone_in_board b 0 0 (by decide)]
    exact hfull 0 0 (by decide)
  simp only [ai_reply]
  rw [choose_ai_move_full b x y hhx hhy hfull, fallback_scan_full b hfull]
  simp [hg]

/-- C23: in PVAI mode, an accepted `MOVE x y` that does not win and after which no cell of
the board is empty broadcasts `MOVE <human> x y` followed by `GAME_OVER` and nothing else (no
`WIN` line, no `MOVE 2` line); the board is the board after the human stone, so no AI stone
is placed; `game_over` becomes 1, and the turn and the mode are unchanged. -/
theorem draw_on_full_board (s : Session) (i : Fin 2) (data : List Char) (x y : Int)
    (hcmd : parse_command (c_str (cut_newline data)) = CMD_MOVE)
    (hmode : s.game_mode = MODE_PVAI)
    (h0 : s.game_over = 0) (h1 : (i.val : Int) + 1 = s.current_turn)
    (h2 : sscanf_d_d (c_str ((cut_newline data).drop 5)) = some (x, y))
    (h3 : (place_stone s.board x y ((i.val : Int) + 1)).1 ≠ 0)
    (h4 : check_win (after_human s i x y) ((i.val : Int) + 1) = 0)
    (hfull : ∀ ex ey : Int, (0 ≤ ex ∧ ex < 15 ∧ 0 ≤ ey ∧ ey < 15) →
      after_human s i x y ey ex ≠ 0) :
    (handle_line s i data).2 =
      broadcast s.client_fd (move_msg ((i.val : Int) + 1) x y) ++
      broadcast s.client_fd "GAME_OVER\n" ∧
    (handle_line s i data).1.board = after_human s i x y ∧
    (handle_line s i data).1.game_over = 1 ∧
    (handle_line s i data).1.current_turn = s.current_turn ∧
    (handle_line s i data).1.game_mode = s.game_mode := by
  have hp1 : (place_stone s.board x y ((i.val : Int) + 1)).1 = 1 := by
    rcases place_stone_fst s.board x y ((i.val : Int) + 1) with h | h
    · exact absurd h h3
    · exact h
  have hxy := ((place_stone_char s.board x y ((i.val : Int) + 1)).1.1 hp1)
  have h4' : ¬ check_win (place_stone s.board x y ((i.val : Int) + 1)).2
      ((i.val : Int) + 1) ≠ 0 := not_not.2 h4
  have hres := handle_move_pvai i (c_str ((cut_newline data).drop 5)) x y h0 h1 h2 h3 h4' hmode
  have hfb := ai_reply_full s (after_human s i x y) ((i.val : Int) + 1) x y (by omega)
    (by omega) hfull
  unfold after_human at hfb
  rw [hfb] at hres
  rw [handle_line_move hcmd, hres]
  exact ⟨rfl, rfl, rfl, rfl, rfl⟩

/-- The board `striped` has no empty cell. -/
theorem striped_ne_zero (x y : Int) : striped y x ≠ 0 := by
  unfold striped
  split_ifs <;> decide

/-- Emptying the corner of `striped` and placing a stone of player 1 there gives `striped`. -/
theorem striped_restored :
    after_human (example_session MODE_PVAI (set_cell striped 0 0 0) 1 0) 0 0 0 = striped := by
  funext yy xx
  show (place_stone (set_cell striped 0 0 0) 0 0 ((0 : Int) + 1)).2 yy xx = striped yy xx
  unfold place_stone BOARD_SIZE set_cell
  by_cases h : yy = 0 ∧ xx = 0
  · obtain ⟨rfl, rfl⟩ := h
    decide
  · simp [h]

theorem draw_on_full_board_witness :
    (handle_line (example_session MODE_PVAI (set_cell striped 0 0 0) 1 0) 0
      "MOVE 0 0\n".toList).2 =
      [{ slot := 0, text := "MOVE 1 0 0\n", len := 11 },
       { slot := 1, text := "MOVE 1 0 0\n", len := 11 },
       { slot := 0, text := "GAME_OVER\n", len := 10 },
       { slot := 1, text := "GAME_OVER\n", len := 10 }] ∧
    (handle_line (example_session MODE_PVAI (set_cell striped 0 0 0) 1 0) 0
      "MOVE 0 0\n".toList).1.game_over = 1 := by
  have h := draw_on_full_board (example_session MODE_PVAI (set_cell striped 0 0 0) 1 0) 0
    "MOVE 0 0\n".toList 0 0 (by decide) (by decide) (by decide) (by decide) (by decide)
    (by decide) (by rw [striped_restored]; decide)
    (by rw [striped_restored]; exact fun ex ey _ => striped_ne_zero ex ey)
  exact ⟨h.1.trans (by decide), h.2.2.1⟩

/-! ### Winning and blocking cells -/

theorem dirs_scan {d : Int × Int} (hd : d ∈ dirs) :
    (d.1, d.2) = (1, 0) ∨ (d.1, d.2) = (0, 1) ∨ (d.1, d.2) = (1, 1) ∨ (d.1, d.2) = (1, -1) := by
  simp only [dirs, List.mem_cons, List.mem_singleton, List.not_mem_nil, or_false] at hd
  rcases hd with rfl | rfl | rfl | rfl <;> simp

theorem scan_dirs {dx dy : Int}
    (hd : (dx, dy) = (1, 0) ∨ (dx, dy) = (0, 1) ∨ (dx, dy) = (1, 1) ∨ (dx, dy) = (1, -1)) :
    (dx, dy) ∈ dirs := by
  rcases hd with h | h | h | h <;> rw [h] <;> decide

/-- A maximal run of at least five cells contains a line of five. -/
theorem line5_of_maxRun {b : Board} {p x y dx dy : Int} {n m : Nat}
    (h : MaxRun b p x y dx dy n m) (hlen : 5 ≤ (n : Int) + m + 1) :
    Line5 b p (x + -(m : Int) * dx) (y + -(m : Int) * dy) dx dy := by
  intro k hk0 hk5
  have ho := h.1 (k - m) (by omega) (by omega)
  unfold owned_at at ho
  have e1 : x + -(m : Int) * dx + k * dx = x + (k - m) * dx := by ring
  have e2 : y + -(m : Int) * dy + k * dy = y + (k - m) * dy := by ring
  rw [e1, e2]
  exact ho

/-- A cell where `longest_line_if` is 5 or more completes a five on the board. -/
theorem five_makes_win (b : Board) (x y p : Int)
    (hr : 0 ≤ x ∧ x < 15 ∧ 0 ≤ y ∧ y < 15) (he : b y x = 0)
    (h5 : longest_line_if b x y p ≥ 5) : check_win (place_stone b x y p).2 p = 1 := by
  obtain ⟨d, hd, hlong⟩ := (fold_dirs_max (line_len b x y p) (line_len_pos b x y p)).2
  obtain ⟨n, m, hrun, hlen⟩ := line_len_maxrun b x y p d.1 d.2 hr he (dirs_nonzero hd)
  have hl : longest_line_if b x y p = (n : Int) + m + 1 := by
    unfold longest_line_if
    rw [hlong]
    exact hlen
  exact check_win_of_line5_scan (dirs_scan hd) (line5_of_maxRun hrun (by omega))

/-- A five on the board after a stone is placed on a board without five goes through the
new stone, so `longest_line_if` is 5 or more there. -/
theorem win_needs_five (b : Board) (x y p : Int)
    (hr : 0 ≤ x ∧ x < 15 ∧ 0 ≤ y ∧ y < 15) (he : b y x = 0)
    (hno : check_win b p = 0) (hwin : check_win (place_stone b x y p).2 p = 1) :
    longest_line_if b x y p ≥ 5 := by
  obtain ⟨sx, sy, dx, dy, hd, hl⟩ := line5_of_check_win hwin
  have hmem := scan_dirs hd
  have hnz : dx ≠ 0 ∨ dy ≠ 0 := dirs_nonzero hmem
  by_cases hex : ∃ k : Int, 0 ≤ k ∧ k < 5 ∧ sx + k * dx = x ∧ sy + k * dy = y
  · obtain ⟨j, hj0, hj5, hjx, hjy⟩ := hex
    obtain ⟨n, m, hrun, hlen⟩ := line_len_maxrun b x y p dx dy hr he hnz
    have hown : ∀ k : Int, -j ≤ k → k ≤ 4 - j →
        owned_at (place_stone b x y p).2 p x y dx dy k := by
      intro k hk1 hk2
      have := hl (j + k) (by omega) (by omega)
      unfold owned_at
      have e1 : x + k * dx = sx + (j + k) * dx := by rw [← hjx]; ring
      have e2 : y + k * dy = sy + (j + k) * dy := by rw [← hjy]; ring
      rw [e1, e2]
      exact this
    have hn : 4 - j ≤ n := by
      by_contra hlt
      exact hrun.2.1 (hown _ (by omega) (by omega))
    have hm : j ≤ m := by
      by_contra hlt
      exact hrun.2.2 (hown _ (by omega) (by omega))
    have hle := (fold_dirs_max (line_len b x y p) (line_len_pos b x y p)).1 (dx, dy) hmem
    have hlen' : line_len b x y p (dx, dy) = (n : Int) + m + 1 := hlen
    show 5 ≤ longest_line_if b x y p
    unfold longest_line_if
    omega
  · exfalso
    have hl0 : Line5 b p sx sy dx dy := by
      intro k hk0 hk5
      have := hl k hk0 hk5
      rw [place_stone_empty b x y p hr he] at this
      refine ⟨this.1, ?_⟩
      have hne : ¬ (sy + k * dy = y ∧ sx + k * dx = x) := fun h =>
        hex ⟨k, hk0, hk5, h.2, h.1⟩
      have h2 := this.2
      unfold set_cell at h2
      rw [if_neg hne] at h2
      exact h2
    have := check_win_of_line5_scan hd hl0
    omega

/-- C28: on a board where `check_win p` is false, for an in-range empty cell `(x, y)`,
`is_five_if x y p` is true if and only if `check_win p` is true on the board obtained by
`place_stone x y p`.  It holds for every `p`, in particular for the players 1 and 2. -/
theorem is_five_iff_check_win (b : Board) (x y p : Int)
    (hr : 0 ≤ x ∧ x < 15 ∧ 0 ≤ y ∧ y < 15) (he : b y x = 0) (hno : check_win b p = 0) :
    is_five_if b x y p = true ↔ check_win (place_stone b x y p).2 p = 1 := by
  unfold is_five_if
  rw [decide_eq_true_eq]
  exact ⟨five_makes_win b x y p hr he, win_needs_five b x y p hr he hno⟩

theorem is_five_iff_check_win_witness :
    is_five_if (place_all init_board 1 [(7, 7), (7, 8), (7, 9), (7, 10)]) 7 11 1 = true ∧
    check_win (place_stone (place_all init_board 1 [(7, 7), (7, 8), (7, 9), (7, 10)])
      7 11 1).2 1 = 1 ∧
    is_five_if (place_all init_board 1 [(7, 7), (7, 8), (7, 9), (7, 10)]) 8 11 1 = false :=
  have h := is_five_iff_check_win (place_all init_board 1 [(7, 7), (7, 8), (7, 9), (7, 10)])
    7 11 1 (by decide) (by decide) (by decide)
  ⟨h.2 (by decide), h.1 (by decide), by decide⟩

/-! ### The score of winning and blocking cells -/

theorem evaluate_cell_win_lower (b : Board) (x y hx hy : Int)
    (hr : 0 ≤ x ∧ x < 15 ∧ 0 ≤ y ∧ y < 15) (he : b y x = 0) (hhx : hx < 15) (hhy : hy < 15)
    (h5 : longest_line_if b x y 2 ≥ 5) : 999510 ≤ evaluate_cell b x y hx hy := by
  rw [evaluate_cell_eq b x y hx hy hr he hhx hhy, if_pos h5]
  have b2 : (0 : Int) ≤ (if longest_line_if b x y 1 ≥ 5 then 900000 else 0) := by
    split_ifs <;> norm_num
  have b3 : (0 : Int) ≤ (if longest_line_if b x y 2 = 4 then 50000
      else if longest_line_if b x y 2 = 3 then 10000 else 0) := by
    split_ifs <;> norm_num
  have b4 : (0 : Int) ≤ (if longest_line_if b x y 1 = 4 then 40000
      else if longest_line_if b x y 1 = 3 then 8000 else 0) := by
    split_ifs <;> norm_num
  have d1 : (x - 7) ^ 2 ≤ 49 := by nlinarith
  have d2 : (y - 7) ^ 2 ≤ 49 := by nlinarith
  have d3 : (if hx ≥ 0 ∧ hy ≥ 0 then (x - hx) ^ 2 + (y - hy) ^ 2 else 0) ≤ 392 := by
    split_ifs with h
    · have e1 : (x - hx) ^ 2 ≤ 196 := by nlinarith
      have e2 : (y - hy) ^ 2 ≤ 196 := by nlinarith
      omega
    · norm_num
  omega

/-- A cell that wins for the human scores at least 899510. -/
theorem evaluate_cell_block_lower (b : Board) (x y hx hy : Int)
    (hr : 0 ≤ x ∧ x < 15 ∧ 0 ≤ y ∧ y < 15) (he : b y x = 0) (hhx : hx < 15) (hhy : hy < 15)
    (h5 : longest_line_if b x y 1 ≥ 5) : 899510 ≤ evaluate_cell b x y hx hy := by
  rw [evaluate_cell_eq b x y hx hy hr he hhx hhy, if_pos h5]
  have b2 : (0 : Int) ≤ (if longest_line_if b x y 2 ≥ 5 then 1000000 else 0) := by
    split_ifs <;> norm_num
  have b3 : (0 : Int) ≤ (if longest_line_if b x y 2 = 4 then 50000
      else if longest_line_if b x y 2 = 3 then 10000 else 0) := by
    split_ifs <;> norm_num
  have b4 : (0 : Int) ≤ (if longest_line_if b x y 1 = 4 then 40000
      else if longest_line_if b x y 1 = 3 then 8000 else 0) := by
    split_ifs <;> norm_num
  have d1 : (x - 7) ^ 2 ≤ 49 := by nlinarith
  have d2 : (y - 7) ^ 2 ≤ 49 := by nlinarith
  have d3 : (if hx ≥ 0 ∧ hy ≥ 0 then (x - hx) ^ 2 + (y - hy) ^ 2 else 0) ≤ 392 := by
    split_ifs with h
    · have e1 : (x - hx) ^ 2 ≤ 196 := by nlinarith
      have e2 : (y - hy) ^ 2 ≤ 196 := by nlinarith
      omega
    · norm_num
  omega

/-- A cell that does not win for the AI scores at most 950000. -/
theorem evaluate_cell_nowin_upper (b : Board) (x y hx hy : Int)
    (hr : 0 ≤ x ∧ x < 15 ∧ 0 ≤ y ∧ y < 15) (he : b y x = 0) (hhx : hx < 15) (hhy : hy < 15)
    (h5 : ¬ longest_line_if b x y 2 ≥ 5) : evaluate_cell b x y hx hy ≤ 950000 := by
  rw [evaluate_cell_eq b x y hx hy hr he hhx hhy, if_neg h5]
  generalize longest_line_if b x y 2 = l2
  generalize longest_line_if b x y 1 = l1
  have b2 : (if l2 = 4 then (50000 : Int) else if l2 = 3 then 10000 else 0) ≤ 50000 := by
    split_ifs <;> omega
  have b1 : (if l1 ≥ 5 then (900000 : Int) else 0) +
      (if l1 = 4 then 40000 else if l1 = 3 then 8000 else 0) ≤ 900000 := by
    split_ifs <;> omega
  have d1 : 0 ≤ (x - 7) ^ 2 + (y - 7) ^ 2 := by positivity
  have d3 : 0 ≤ (if hx ≥ 0 ∧ hy ≥ 0 then (x - hx) ^ 2 + (y - hy) ^ 2 else 0) := by
    split_ifs
    · positivity
    · exact le_refl _
  omega

/-- A cell that wins for neither player scores at most 90000. -/
theorem evaluate_cell_plain_upper (b : Board) (x y hx hy : Int)
    (hr : 0 ≤ x ∧ x < 15 ∧ 0 ≤ y ∧ y < 15) (he : b y x = 0) (hhx : hx < 15) (hhy : hy < 15)
    (h2 : ¬ longest_line_if b x y 2 ≥ 5) (h1 : ¬ longest_line_if b x y 1 ≥ 5) :
    evaluate_cell b x y hx hy ≤ 90000 := by
  rw [evaluate_cell_eq b x y hx hy hr he hhx hhy, if_neg h2, if_neg h1]
  generalize longest_line_if b x y 2 = l2
  generalize longest_line_if b x y 1 = l1
  have b2 : (if l2 = 4 then (50000 : Int) else if l2 = 3 then 10000 else 0) ≤ 50000 := by
    split_ifs <;> omega
  have b1 : (if l1 = 4 then (40000 : Int) else if l1 = 3 then 8000 else 0) ≤ 40000 := by
    split_ifs <;> omega
  have d1 : 0 ≤ (x - 7) ^ 2 + (y - 7) ^ 2 := by positivity
  have d3 : 0 ≤ (if hx ≥ 0 ∧ hy ≥ 0 then (x - hx) ^ 2 + (y - hy) ^ 2 else 0) := by
    split_ifs
    · positivity
    · exact le_refl _
  omega

/-- C26: the AI takes an immediate win.  For `(hx, hy)` with each coordinate in 0..14 or
negative, if some empty in-range cell `(cx, cy)` has `longest_line_if` at least 5 for the AI,
then the cell returned by `choose_ai_move` has `longest_line_if` at least 5 for the AI, the
stone can be placed there, and `check_win 2` is true on the board after it is placed. -/
theorem ai_takes_win (b : Board) (hx hy cx cy : Int)
    (hhx : hx < 0 ∨ (0 ≤ hx ∧ hx ≤ 14)) (hhy : hy < 0 ∨ (0 ≤ hy ∧ hy ≤ 14))
    (hr : 0 ≤ cx ∧ cx < 15 ∧ 0 ≤ cy ∧ cy < 15) (he : b cy cx = 0)
    (h5 : longest_line_if b cx cy 2 ≥ 5) :
    longest_line_if b (choose_ai_move b hx hy).1 (choose_ai_move b hx hy).2 2 ≥ 5 ∧
    is_five_if b (choose_ai_move b hx hy).1 (choose_ai_move b hx hy).2 2 = true ∧
    (place_stone b (choose_ai_move b hx hy).1 (choose_ai_move b hx hy).2 2).1 = 1 ∧
    check_win (place_stone b (choose_ai_move b hx hy).1 (choose_ai_move b hx hy).2 2).2 2
      = 1 := by
  have hx15 : hx < 15 := by omega
  have hy15 : hy < 15 := by omega
  obtain ⟨har, hae, hmax⟩ := choose_ai_move_char b hx hy hx15 hy15 ⟨cx, cy, hr, he⟩
  have hc := evaluate_cell_win_lower b cx cy hx hy hr he hx15 hy15 h5
  have hle := (hmax cx cy hr he).1
  have ha5 : longest_line_if b (choose_ai_move b hx hy).1 (choose_ai_move b hx hy).2 2 ≥ 5 := by
    by_contra hn
    have := evaluate_cell_nowin_upper b _ _ hx hy har hae hx15 hy15 hn
    omega
  refine ⟨ha5, ?_, ?_, five_makes_win b _ _ 2 har hae ha5⟩
  · unfold is_five_if
    rw [decide_eq_true_eq]
    exact ha5
  · exact (place_stone_char b _ _ 2).1.2 ⟨har.1, har.2.1, har.2.2.1, har.2.2.2, hae⟩

/-- C27: the AI blocks an immediate human win when it cannot win itself.  For `(hx, hy)` with
each coordinate in 0..14 or negative, if no empty in-range cell has `longest_line_if` at least
5 for the AI and some empty in-range cell `(cx, cy)` has `longest_line_if` at least 5 for the
human, then the cell returned by `choose_ai_move` has `longest_line_if` at least 5 for the
human. -/
theorem ai_blocks_win (b : Board) (hx hy cx cy : Int)
    (hhx : hx < 0 ∨ (0 ≤ hx ∧ hx ≤ 14)) (hhy : hy < 0 ∨ (0 ≤ hy ∧ hy ≤ 14))
    (hnowin : ∀ x y : Int, (0 ≤ x ∧ x < 15 ∧ 0 ≤ y ∧ y < 15) → b y x = 0 →
      ¬ longest_line_if b x y 2 ≥ 5)
    (hr : 0 ≤ cx ∧ cx < 15 ∧ 0 ≤ cy ∧ cy < 15) (he : b cy cx = 0)
    (h5 : longest_line_if b cx cy 1 ≥ 5) :
    longest_line_if b (choose_ai_move b hx hy).1 (choose_ai_move b hx hy).2 1 ≥ 5 ∧
    is_five_if b (choose_ai_move b hx hy).1 (choose_ai_move b hx hy).2 1 = true := by
  have hx15 : hx < 15 := by omega
  have hy15 : hy < 15 := by omega
  obtain ⟨har, hae, hmax⟩ := choose_ai_move_char b hx hy hx15 hy15 ⟨cx, cy, hr, he⟩
  have hc := evaluate_cell_block_lower b cx cy hx hy hr he hx15 hy15 h5
  have hle := (hmax cx cy hr he).1
  have ha5 : longest_line_if b (choose_ai_move b hx hy).1 (choose_ai_move b hx hy).2 1 ≥ 5 := by
    by_contra hn
    have := evaluate_cell_plain_upper b _ _ hx hy har hae hx15 hy15 (hnowin _ _ har hae) hn
    omega
  refine ⟨ha5, ?_⟩
  unfold is_five_if
  rw [decide_eq_true_eq]
  exact ha5

/-- Stones of another player leave the board free of stones of `q`. -/
theorem place_all_no_stone (p q : Int) (hpq : p ≠ q) (cells : List (Int × Int)) :
    ∀ b : Board, (∀ x y : Int, b y x ≠ q) → ∀ x y : Int, place_all b p cells y x ≠ q := by
  induction cells with
  | nil => intro b h; exact h
  | cons c cs ih =>
    intro b h
    apply ih
    intro x y
    rcases place_stone_fst b c.1 c.2 p with h0 | h1
    · rw [((place_stone_char b c.1 c.2 p).2.2 (by omega)).2]
      exact h x y
    · obtain ⟨hx0, hx1, hy0, hy1, he⟩ := (place_stone_char b c.1 c.2 p).1.1 h1
      rw [place_stone_empty b c.1 c.2 p ⟨hx0, hx1, hy0, hy1⟩ he]
      unfold set_cell
      split_ifs
      · exact hpq
      · exact h x y

/-- On a board without any stone of `p`, no cell gives `p` a line of five. -/
theorem no_stone_no_five (b : Board) (p : Int) (hnone : ∀ x y : Int, b y x ≠ p)
    (x y : Int) (hr : 0 ≤ x ∧ x < 15 ∧ 0 ≤ y ∧ y < 15) (he : b y x = 0) :
    ¬ longest_line_if b x y p ≥ 5 := by
  intro h5
  obtain ⟨sx, sy, dx, dy, hd, hl⟩ := line5_of_check_win (five_makes_win b x y p hr he h5)
  have hnz : dx ≠ 0 ∨ dy ≠ 0 := dirs_nonzero (scan_dirs hd)
  rw [place_stone_empty b x y p hr he] at hl
  have hcell : ∀ k : Int, 0 ≤ k → k < 5 → sy + k * dy = y ∧ sx + k * dx = x := by
    intro k hk0 hk5
    by_contra hc
    have h2 := (hl k hk0 hk5).2
    unfold set_cell at h2
    rw [if_neg hc] at h2
    exact hnone _ _ h2
  have c0 := hcell 0 (by decide) (by decide)
  have c1 := hcell 1 (by decide) (by decide)
  rcases hnz with h | h <;> omega

theorem ai_takes_win_witness :
    is_five_if (place_all init_board 2 [(7, 7), (7, 8), (7, 9), (7, 10)])
      (choose_ai_move (place_all init_board 2 [(7, 7), (7, 8), (7, 9), (7, 10)]) 3 3).1
      (choose_ai_move (place_all init_board 2 [(7, 7), (7, 8), (7, 9), (7, 10)]) 3 3).2 2
        = true ∧
    check_win (place_stone (place_all init_board 2 [(7, 7), (7, 8), (7, 9), (7, 10)])
      (choose_ai_move (place_all init_board 2 [(7, 7), (7, 8), (7, 9), (7, 10)]) 3 3).1
      (choose_ai_move (place_all init_board 2 [(7, 7), (7, 8), (7, 9), (7, 10)]) 3 3).2 2).2 2
        = 1 :=
  have h := ai_takes_win (place_all init_board 2 [(7, 7), (7, 8), (7, 9), (7, 10)]) 3 3 7 11
    (by decide) (by decide) (by decide) (by decide) (by decide)
  ⟨h.2.1, h.2.2.2⟩

theorem ai_blocks_win_witness :
    is_five_if (place_all init_board 1 [(7, 7), (7, 8), (7, 9), (7, 10)])
      (choose_ai_move (place_all init_board 1 [(7, 7), (7, 8), (7, 9), (7, 10)]) 7 10).1
      (choose_ai_move (place_all init_board 1 [(7, 7), (7, 8), (7, 9), (7, 10)]) 7 10).2 1
        = true :=
  (ai_blocks_win (place_all init_board 1 [(7, 7), (7, 8), (7, 9), (7, 10)]) 7 10 7 11
    (by decide) (by decide)
    (no_stone_no_five _ 2 (place_all_no_stone 1 2 (by decide) _ init_board
      (fun x y => by unfold init_board; decide)))
    (by decide) (by decide) (by decide)).2

/-! ### No five is left on the board while play goes on -/

/-- A stone of another player does not complete a five of `q`. -/
theorem check_win_other (b : Board) (x y p q : Int) (hpq : p ≠ q)
    (h : check_win b q = 0) : check_win (place_stone b x y p).2 q = 0 := by
  rcases check_win_zero_or_one (place_stone b x y p).2 q with h0 | h1
  · exact h0
  · exfalso
    have hp1 : (place_stone b x y p).1 = 1 := by
      by_contra hne
      rw [((place_stone_char b x y p).2.2 hne).2] at h1
      omega
    obtain ⟨hx0, hx1, hy0, hy1, he⟩ := (place_stone_char b x y p).1.1 hp1
    obtain ⟨sx, sy, dx, dy, hd, hl⟩ := line5_of_check_win h1
    have hl0 : Line5 b q sx sy dx dy := by
      intro k hk0 hk5
      have := hl k hk0 hk5
      rw [place_stone_empty b x y p ⟨hx0, hx1, hy0, hy1⟩ he] at this
      refine ⟨this.1, ?_⟩
      have h2 := this.2
      unfold set_cell at h2
      by_cases hc : sy + k * dy = y ∧ sx + k * dx = x
      · rw [if_pos hc] at h2
        exact absurd h2 hpq
      · rw [if_neg hc] at h2
        exact h2
    have := check_win_of_line5_scan hd hl0
    omega

/-- The empty board holds no five of either player. -/
theorem no_five_init : check_win init_board 1 = 0 ∧ check_win init_board 2 = 0 := by
  decide

/-- After the AI stone is announced with `game_over` still 0, no player has a five. -/
theorem ai_announce_no_five (s : Session) (b : Board) (p ax ay : Int)
    (h1 : check_win b 1 = 0)
    (hgo : (ai_announce s b p ax ay).1.game_over = 0) :
    check_win (ai_announce s b p ax ay).1.board 1 = 0 ∧
    check_win (ai_announce s b p ax ay).1.board 2 = 0 := by
  simp only [ai_announce] at hgo ⊢
  by_cases hw : check_win b 2 ≠ 0
  · rw [if_pos hw] at hgo
    simp at hgo
  · rw [if_neg hw]
    exact ⟨h1, not_not.1 hw⟩

/-- After the AI reply with `game_over` still 0, no player has a five. -/
theorem ai_reply_no_five (s : Session) (b : Board) (p x y : Int)
    (h1 : check_win b 1 = 0)
    (hgo : (ai_reply s b p x y).1.game_over = 0) :
    check_win (ai_reply s b p x y).1.board 1 = 0 ∧
    check_win (ai_reply s b p x y).1.board 2 = 0 := by
  simp only [ai_reply] at hgo ⊢
  split_ifs at hgo ⊢ with hc
  · cases hf : fallback_scan b with
    | none =>
      rw [hf] at hgo
      simp at hgo
    | some r =>
      obtain ⟨ax, ay, b2⟩ := r
      rw [hf] at hgo
      simp only at hgo ⊢
      have hb2 := (fallback_scan_some hf).2
      exact ai_announce_no_five s b2 p ax ay
        (by rw [hb2]; exact check_win_other b ax ay 2 1 (by decide) h1) hgo
  · exact ai_announce_no_five s _ p _ _
      (check_win_other b _ _ 2 1 (by decide) h1) hgo

/-- The `CMD_MOVE` branch keeps the invariant. -/
theorem handle_move_no_five (s : Session) (i : Fin 2) (payload : List Char)
    (hinv : s.game_over = 0 → check_win s.board 1 = 0 ∧ check_win s.board 2 = 0)
    (hgo : (handle_move s i payload).1.game_over = 0) :
    check_win (handle_move s i payload).1.board 1 = 0 ∧
    check_win (handle_move s i payload).1.board 2 = 0 := by
  have hi : (i.val : Int) + 1 = 1 ∨ (i.val : Int) + 1 = 2 := by
    have := i.isLt
    omega
  rcases handle_move_cases s i payload with ⟨t, n, e, _⟩ | ⟨x, y, h0, _, _, _, hc⟩
  · rw [e] at hgo ⊢
    exact hinv hgo
  · obtain ⟨hb1, hb2⟩ := hinv h0
    have hboth : ¬ check_win (place_stone s.board x y ((i.val : Int) + 1)).2
          ((i.val : Int) + 1) ≠ 0 →
        check_win (place_stone s.board x y ((i.val : Int) + 1)).2 1 = 0 ∧
        check_win (place_stone s.board x y ((i.val : Int) + 1)).2 2 = 0 := by
      intro hnw
      have hz := not_not.1 hnw
      rcases hi with hp | hp
      · rw [hp] at hz ⊢
        exact ⟨hz, check_win_other s.board x y 1 2 (by decide) hb2⟩
      · rw [hp] at hz ⊢
        exact ⟨check_win_other s.board x y 2 1 (by decide) hb1, hz⟩
    rcases hc with ⟨_, e⟩ | ⟨hnw, _, e⟩ | ⟨hnw, _, e⟩
    · rw [e] at hgo
      simp at hgo
    · rw [e]
      exact hboth hnw
    · rw [e] at hgo ⊢
      simp only [] at hgo ⊢
      exact ai_reply_no_five s (place_stone s.board x y ((i.val : Int) + 1)).2
        ((i.val : Int) + 1) x y (hboth hnw).1 hgo

/-- Every command keeps the invariant. -/
theorem handle_line_no_five (s : Session) (i : Fin 2) (data : List Char)
    (hinv : s.game_over = 0 → check_win s.board 1 = 0 ∧ check_win s.board 2 = 0)
    (hgo : (handle_line s i data).1.game_over = 0) :
    check_win (handle_line s i data).1.board 1 = 0 ∧
    check_win (handle_line s i data).1.board 2 = 0 := by
  rcases parse_command_cases (c_str (cut_newline data)) with hc | hc | hc | hc | hc | hc
  · rw [handle_line_join hc] at hgo ⊢
    have e1 : (handle_join s i).1.board = s.board := handle_join_board s i
    have e2 : (handle_join s i).1.game_over = s.game_over := by
      unfold handle_join
      split_ifs <;> rfl
    rw [e1]
    rw [e2] at hgo
    exact hinv hgo
  · rw [handle_line_mode hc] at hgo ⊢
    cases hm : sscanf_MODE_d (c_str (cut_newline data)) with
    | none =>
      rw [handle_mode_none i hm] at hgo ⊢
      exact hinv hgo
    | some n =>
      by_cases h1 : n = 1
      · subst h1
        rw [handle_mode_one i hm]
        exact no_five_init
      · by_cases h2 : n = 2
        · subst h2
          rw [handle_mode_two i hm] at hgo ⊢
          exact hinv hgo
        · rw [handle_mode_other i hm h1 h2] at hgo ⊢
          exact hinv hgo
  · rw [handle_line_move hc] at hgo ⊢
    exact handle_move_no_five s i _ hinv hgo
  · rw [handle_line_restart hc] at hgo ⊢
    by_cases hover : s.game_over = 0
    · rw [handle_restart_early i hover] at hgo ⊢
      exact hinv hgo
    · rw [handle_restart_over i hover]
      exact no_five_init
  · rw [handle_line_exit hc]
    exact no_five_init
  · rw [handle_line_none hc] at hgo ⊢
    exact hinv hgo

/-- Every event keeps the invariant. -/
theorem step_no_five (s : Session) (e : Event)
    (hinv : s.game_over = 0 → check_win s.board 1 = 0 ∧ check_win s.board 2 = 0)
    (hgo : (step s e).1.game_over = 0) :
    check_win (step s e).1.board 1 = 0 ∧ check_win (step s e).1.board 2 = 0 := by
  cases e with
  | accept new_fd =>
    have e1 : (step s (Event.accept new_fd)).1.board = s.board := by
      show (handle_accept s new_fd).board = s.board
      unfold handle_accept
      split_ifs <;> rfl
    have e2 : (step s (Event.accept new_fd)).1.game_over = s.game_over := by
      show (handle_accept s new_fd).game_over = s.game_over
      unfold handle_accept
      split_ifs <;> rfl
    rw [e1]
    rw [e2] at hgo
    exact hinv hgo
  | read i n data =>
    have hgo' : (on_read s i n data).1.game_over = 0 := hgo
    show check_win (on_read s i n data).1.board 1 = 0 ∧
      check_win (on_read s i n data).1.board 2 = 0
    unfold on_read at hgo' ⊢
    split_ifs at hgo' ⊢
    · exact hinv hgo'
    · exact hinv hgo'
    · exact handle_line_no_five s i data hinv hgo'

/-- Every sequence of events keeps the invariant. -/
theorem run_events_no_five (evs : List Event) :
    ∀ s : Session, (s.game_over = 0 → check_win s.board 1 = 0 ∧ check_win s.board 2 = 0) →
      (run_events s evs).game_over = 0 →
      check_win (run_events s evs).board 1 = 0 ∧ check_win (run_events s evs).board 2 = 0 := by
  induction evs with
  | nil => intro s hinv hgo; exact hinv hgo
  | cons e es ih =>
    intro s hinv hgo
    exact ih (step s e).1 (step_no_five s e hinv) hgo

/-- C29: in every session state reached from `initial` by a sequence of connections and
reads (commands from either slot, disconnections included), if `game_over` is 0 then neither
`check_win 1` nor `check_win 2` holds on the board. -/
theorem no_five_while_playing (s : Session) (hreach : Reachable s) (hgo : s.game_over = 0) :
    check_win s.board 1 = 0 ∧ check_win s.board 2 = 0 := by
  obtain ⟨evs, rfl⟩ := hreach
  exact run_events_no_five evs initial (fun _ => no_five_init) hgo

theorem no_five_while_playing_witness :
    check_win (run_events initial
      [Event.accept 4, Event.accept 5, Event.read 0 7 "JOIN a\n".toList,
       Event.read 0 7 "MODE 2\n".toList, Event.read 1 7 "JOIN b\n".toList,
       Event.read 0 9 "MOVE 7 7\n".toList, Event.read 1 9 "MOVE 8 8\n".toList]).board 1 = 0 ∧
    check_win (run_events initial
      [Event.accept 4, Event.accept 5, Event.read 0 7 "JOIN a\n".toList,
       Event.read 0 7 "MODE 2\n".toList, Event.read 1 7 "JOIN b\n".toList,
       Event.read 0 9 "MOVE 7 7\n".toList, Event.read 1 9 "MOVE 8 8\n".toList]).board 2 = 0 :=
  no_five_while_playing _ ⟨_, rfl⟩ (by decide)

/-- C30 does not hold: after `JOIN`, `MODE 2`, `JOIN` and one accepted move, `current_turn`
is 2.  A further `MODE 2` then broadcasts `TURN 1` and leaves `current_turn` at 2, and so does
the `JOIN` of a player who takes the place of a disconnected second player; player 1, who
was announced, is answered `ERR NOT_YOUR_TURN` when moving. -/
theorem turn_announce_mismatch :
    (run_events initial
      [Event.accept 4, Event.accept 5, Event.read 0 7 "JOIN a\n".toList,
       Event.read 0 7 "MODE 2\n".toList, Event.read 1 7 "JOIN b\n".toList,
       Event.read 0 9 "MOVE 7 7\n".toList]).current_turn = 2 ∧
    (step (run_events initial
      [Event.accept 4, Event.accept 5, Event.read 0 7 "JOIN a\n".toList,
       Event.read 0 7 "MODE 2\n".toList, Event.read 1 7 "JOIN b\n".toList,
       Event.read 0 9 "MOVE 7 7\n".toList]) (Event.read 0 7 "MODE 2\n".toList)).2 =
      [{ slot := 0, text := waiting_line, len := strlen waiting_line },
       { slot := 0, text := "START\n", len := 6 }, { slot := 1, text := "START\n", len := 6 },
       { slot := 0, text := "TURN 1\n", len := 7 }, { slot := 1, text := "TURN 1\n", len := 7 }] ∧
    (step (run_events initial
      [Event.accept 4, Event.accept 5, Event.read 0 7 "JOIN a\n".toList,
       Event.read 0 7 "MODE 2\n".toList, Event.read 1 7 "JOIN b\n".toList,
       Event.read 0 9 "MOVE 7 7\n".toList]) (Event.read 0 7 "MODE 2\n".toList)
      ).1.current_turn = 2 ∧
    (step (run_events initial
      [Event.accept 4, Event.accept 5, Event.read 0 7 "JOIN a\n".toList,
       Event.read 0 7 "MODE 2\n".toList, Event.read 1 7 "JOIN b\n".toList,
       Event.read 0 9 "MOVE 7 7\n".toList, Event.read 1 0 [], Event.accept 6])
      (Event.read 1 7 "JOIN c\n".toList)).2 =
      [{ slot := 1, text := "OK PLAYER2\n", len := 11 },
       { slot := 0, text := "START\n", len := 6 }, { slot := 1, text := "START\n", len := 6 },
       { slot := 0, text := "TURN 1\n", len := 7 }, { slot := 1, text := "TURN 1\n", len := 7 }] ∧
    (step (run_events initial
      [Event.accept 4, Event.accept 5, Event.read 0 7 "JOIN a\n".toList,
       Event.read 0 7 "MODE 2\n".toList, Event.read 1 7 "JOIN b\n".toList,
       Event.read 0 9 "MOVE 7 7\n".toList, Event.read 1 0 [], Event.accept 6])
      (Event.read 1 7 "JOIN c\n".toList)).1.current_turn = 2 ∧
    (step (step (run_events initial
      [Event.accept 4, Event.accept 5, Event.read 0 7 "JOIN a\n".toList,
       Event.read 0 7 "MODE 2\n".toList, Event.read 1 7 "JOIN b\n".toList,
       Event.read 0 9 "MOVE 7 7\n".toList]) (Event.read 0 7 "MODE 2\n".toList)).1
      (Event.read 0 9 "MOVE 8 8\n".toList)).2 =
      [{ slot := 0, text := "ERR NOT_YOUR_TURN\n", len := 19 }] := by
  decide

/-! ### Moves before a mode is chosen -/

/-- C31 does not hold as stated: the state reached by `won_without_mode` has mode NONE,
player 1 is the current-turn player and the cell `(5, 5)` is empty and in range, yet the
`MOVE 5 5` of player 1 is answered `ERR GAME_OVER` and no stone is placed, because the game
ended with the five of player 1. -/
theorem move_without_mode_counterexample :
    (run_events initial won_without_mode).game_mode = MODE_NONE ∧
    (run_events initial won_without_mode).game_over = 1 ∧
    (run_events initial won_without_mode).current_turn = 1 ∧
    (run_events initial won_without_mode).board 5 5 = 0 ∧
    (step (run_events initial won_without_mode) (Event.read 0 9 "MOVE 5 5\n".toList)).2 =
      [{ slot := 0, text := "ERR GAME_OVER\n", len := 14 }] ∧
    (step (run_events initial won_without_mode)
      (Event.read 0 9 "MOVE 5 5\n".toList)).1.board 5 5 = 0 := by
  decide

/-- The turn after the flip is the other player. -/
theorem flip_turn (s : Session) (i : Fin 2) (h1 : (i.val : Int) + 1 = s.current_turn) :
    (if s.current_turn = 1 then (2 : Int) else 1) = 3 - ((i.val : Int) + 1) := by
  have := i.isLt
  rw [← h1]
  split_ifs <;> omega

/-- C31, amended: while the mode is NONE and the game is not over, a `MOVE x y` from the
current-turn player with an empty in-range target places the stone (only that cell of the
board changes, so no AI stone is placed) and broadcasts `MOVE <player> x y`; if it wins,
`WIN` and `GAME_OVER` follow, `game_over` becomes 1 and the turn is kept; if it does not win,
`current_turn` becomes the other player and `TURN <new>` is broadcast.  The writes, the
board, the turn and the game-over flag are those of the same line in PVP mode. -/
theorem move_without_mode (s : Session) (i : Fin 2) (data : List Char) (x y : Int)
    (hcmd : parse_command (c_str (cut_newline data)) = CMD_MOVE)
    (hmode : s.game_mode = MODE_NONE)
    (h0 : s.game_over = 0) (h1 : (i.val : Int) + 1 = s.current_turn)
    (h2 : sscanf_d_d (c_str ((cut_newline data).drop 5)) = some (x, y))
    (hr : 0 ≤ x ∧ x < 15 ∧ 0 ≤ y ∧ y < 15) (he : s.board y x = 0) :
    (handle_line s i data).1.board = set_cell s.board x y ((i.val : Int) + 1) ∧
    (handle_line s i data).1.game_mode = MODE_NONE ∧
    (check_win (set_cell s.board x y ((i.val : Int) + 1)) ((i.val : Int) + 1) ≠ 0 →
      (handle_line s i data).2 =
        broadcast s.client_fd (move_msg ((i.val : Int) + 1) x y) ++
        broadcast s.client_fd (win_msg ((i.val : Int) + 1)) ++
        broadcast s.client_fd "GAME_OVER\n" ∧
      (handle_line s i data).1.game_over = 1 ∧
      (handle_line s i data).1.current_turn = s.current_turn) ∧
    (check_win (set_cell s.board x y ((i.val : Int) + 1)) ((i.val : Int) + 1) = 0 →
      (handle_line s i data).2 =
        broadcast s.client_fd (move_msg ((i.val : Int) + 1) x y) ++
        broadcast s.client_fd (turn_msg (3 - ((i.val : Int) + 1))) ∧
      (handle_line s i data).1.current_turn = 3 - ((i.val : Int) + 1) ∧
      (handle_line s i data).1.game_over = 0) ∧
    ((handle_line s i data).2 = (handle_line { s with game_mode := MODE_PVP } i data).2 ∧
      (handle_line s i data).1.board =
        (handle_line { s with game_mode := MODE_PVP } i data).1.board ∧
      (handle_line s i data).1.current_turn =
        (handle_line { s with game_mode := MODE_PVP } i data).1.current_turn ∧
      (handle_line s i data).1.game_over =
        (handle_line { s with game_mode := MODE_PVP } i data).1.game_over) := by
  have hb := place_stone_empty s.board x y ((i.val : Int) + 1) hr he
  have h3 : (place_stone s.board x y ((i.val : Int) + 1)).1 ≠ 0 := by
    rw [(place_stone_char s.board x y ((i.val : Int) + 1)).1.2
      ⟨hr.1, hr.2.1, hr.2.2.1, hr.2.2.2, he⟩]
    decide
  have hflip := flip_turn s i h1
  rw [handle_line_move hcmd,
    handle_line_move (s := { s with game_mode := MODE_PVP }) (i := i) hcmd]
  by_cases hw : check_win (place_stone s.board x y ((i.val : Int) + 1)).2 ((i.val : Int) + 1) ≠ 0
  · rw [handle_move_win i _ x y h0 h1 h2 h3 hw,
      handle_move_win (s := { s with game_mode := MODE_PVP }) i _ x y h0 h1 h2 h3 hw]
    rw [hb] at hw
    refine ⟨hb, hmode, fun _ => ⟨rfl, rfl, rfl⟩, fun hz => absurd hz hw, rfl, rfl, rfl, rfl⟩
  · rw [handle_move_pvp i _ x y h0 h1 h2 h3 hw (by rw [hmode]; decide),
      handle_move_pvp (s := { s with game_mode := MODE_PVP }) i _ x y h0 h1 h2 h3 hw
        (show MODE_PVP ≠ MODE_PVAI by decide)]
    rw [hb] at hw
    refine ⟨hb, hmode, fun hz => absurd hz hw, fun _ => ⟨?_, hflip, h0⟩, rfl, rfl, rfl, rfl⟩
    show _ ++ broadcast s.client_fd (turn_msg (if s.current_turn = 1 then 2 else 1)) = _
    rw [hflip]

theorem move_without_mode_witness :
    (handle_line (example_session MODE_NONE init_board 1 0) 0 "MOVE 7 7\n".toList).2 =
      [{ slot := 0, text := "MOVE 1 7 7\n", len := 11 },
       { slot := 1, text := "MOVE 1 7 7\n", len := 11 },
       { slot := 0, text := "TURN 2\n", len := 7 }, { slot := 1, text := "TURN 2\n", len := 7 }] ∧
    (handle_line (example_session MODE_NONE init_board 1 0) 0
      "MOVE 7 7\n".toList).1.current_turn = 2 ∧
    (handle_line (example_session MODE_NONE init_board 1 0) 0
      "MOVE 7 7\n".toList).1.board = set_cell init_board 7 7 1 := by
  have h := move_without_mode (example_session MODE_NONE init_board 1 0) 0
    "MOVE 7 7\n".toList 7 7 (by decide) (by decide) (by decide) (by decide) (by decide)
    (by decide) (by decide)
  have h4 := h.2.2.2.1 (by decide)
  exact ⟨h4.1.trans (by decide), h4.2.1, h.1⟩

/-! ### The turn in PVAI mode -/

/-- The turn after the AI stone is announced is the turn before or the human's number. -/
theorem ai_announce_turn (s : Session) (b : Board) (p ax ay : Int) :
    (ai_announce s b p ax ay).1.current_turn = s.current_turn ∨
    (ai_announce s b p ax ay).1.current_turn = p := by
  simp only [ai_announce]
  split_ifs
  · exact Or.inl rfl
  · exact Or.inr rfl

/-- The turn after the AI reply is the turn before or the human's number. -/
theorem ai_reply_turn (s : Session) (b : Board) (p x y : Int) :
    (ai_reply s b p x y).1.current_turn = s.current_turn ∨
    (ai_reply s b p x y).1.current_turn = p := by
  simp only [ai_reply]
  split_ifs
  · cases fallback_scan b with
    | none => exact Or.inl rfl
    | some r => exact ai_announce_turn _ _ _ _ _
  · exact ai_announce_turn _ _ _ _ _

/-- The `CMD_MOVE` branch keeps the invariant of the turn in PVAI mode. -/
theorem handle_move_pvai_turn (s : Session) (i : Fin 2) (payload : List Char)
    (hinv : s.game_mode = MODE_PVAI → s.current_turn = 1)
    (hm : (handle_move s i payload).1.game_mode = MODE_PVAI) :
    (handle_move s i payload).1.current_turn = 1 := by
  have hmode : s.game_mode = MODE_PVAI := by
    rw [← handle_move_mode s i payload]
    exact hm
  rcases handle_move_cases s i payload with ⟨t, n, e, _⟩ | ⟨x, y, _, h1, _, _, hc⟩
  · rw [e]
    exact hinv hmode
  · rcases hc with ⟨_, e⟩ | ⟨_, hne, _⟩ | ⟨_, _, e⟩
    · rw [e]
      exact hinv hmode
    · exact absurd hmode hne
    · rw [e]
      simp only []
      have h := ai_reply_turn s (place_stone s.board x y ((i.val : Int) + 1)).2
        ((i.val : Int) + 1) x y
      rcases h with h | h
      · rw [h]
        exact hinv hmode
      · rw [h, h1]
        exact hinv hmode

/-- Every command keeps the invariant of the turn in PVAI mode. -/
theorem handle_line_pvai_turn (s : Session) (i : Fin 2) (data : List Char)
    (hinv : s.game_mode = MODE_PVAI → s.current_turn = 1)
    (hm : (handle_line s i data).1.game_mode = MODE_PVAI) :
    (handle_line s i data).1.current_turn = 1 := by
  rcases parse_command_cases (c_str (cut_newline data)) with hc | hc | hc | hc | hc | hc
  · rw [handle_line_join hc] at hm ⊢
    have e1 : (handle_join s i).1.game_mode = s.game_mode := by
      unfold handle_join
      split_ifs <;> rfl
    have e2 : (handle_join s i).1.current_turn = s.current_turn := by
      unfold handle_join
      split_ifs <;> rfl
    rw [e2]
    rw [e1] at hm
    exact hinv hm
  · rw [handle_line_mode hc] at hm ⊢
    cases hs : sscanf_MODE_d (c_str (cut_newline data)) with
    | none =>
      rw [handle_mode_none i hs] at hm ⊢
      exact hinv hm
    | some n =>
      by_cases h1 : n = 1
      · subst h1
        rw [handle_mode_one i hs]
      · by_cases h2 : n = 2
        · subst h2
          rw [handle_mode_two i hs] at hm
          exact absurd hm (show MODE_PVP ≠ MODE_PVAI by decide)
        · rw [handle_mode_other i hs h1 h2] at hm ⊢
          exact hinv hm
  · rw [handle_line_move hc] at hm ⊢
    exact handle_move_pvai_turn s i _ hinv hm
  · rw [handle_line_restart hc] at hm ⊢
    by_cases hover : s.game_over = 0
    · rw [handle_restart_early i hover] at hm ⊢
      exact hinv hm
    · rw [handle_restart_over i hover]
  · rw [handle_line_exit hc]
    rfl
  · rw [handle_line_none hc] at hm ⊢
    exact hinv hm

/-- Every event keeps the invariant of the turn in PVAI mode. -/
theorem step_pvai_turn (s : Session) (e : Event)
    (hinv : s.game_mode = MODE_PVAI → s.current_turn = 1)
    (hm : (step s e).1.game_mode = MODE_PVAI) : (step s e).1.current_turn = 1 := by
  cases e with
  | accept new_fd =>
    have e1 : (step s (Event.accept new_fd)).1.game_mode = s.game_mode := by
      show (handle_accept s new_fd).game_mode = s.game_mode
      unfold handle_accept
      split_ifs <;> rfl
    have e2 : (step s (Event.accept new_fd)).1.current_turn = s.current_turn := by
      show (handle_accept s new_fd).current_turn = s.current_turn
      unfold handle_accept
      split_ifs <;> rfl
    rw [e2]
    rw [e1] at hm
    exact hinv hm
  | read i n data =>
    have hm2 : (on_read s i n data).1.game_mode = MODE_PVAI := hm
    show (on_read s i n data).1.current_turn = 1
    unfold on_read at hm2 ⊢
    split_ifs at hm2 ⊢
    · exact hinv hm2
    · exact hinv hm2
    · exact handle_line_pvai_turn s i data hinv hm2

/-- Every sequence of events keeps the invariant of the turn in PVAI mode. -/
theorem run_events_pvai_turn (evs : List Event) :
    ∀ s : Session, (s.game_mode = MODE_PVAI → s.current_turn = 1) →
      (run_events s evs).game_mode = MODE_PVAI → (run_events s evs).current_turn = 1 := by
  induction evs with
  | nil => intro s hinv hm; exact hinv hm
  | cons e es ih =>
    intro s hinv hm
    exact ih (step s e).1 (step_pvai_turn s e hinv) hm

/-- C32: in every session state reached from `initial`, mode PVAI implies `current_turn`
is 1; so in PVAI mode every `MOVE` line from slot 1 (player 2) is answered `ERR GAME_OVER`
when the game is over and `ERR NOT_YOUR_TURN` otherwise, one write to the sender, and the
session is unchanged. -/
theorem pvai_turn_one (s : Session) (hreach : Reachable s) (hmode : s.game_mode = MODE_PVAI) :
    s.current_turn = 1 ∧
    ∀ data : List Char, parse_command (c_str (cut_newline data)) = CMD_MOVE →
      (s.game_over ≠ 0 →
        handle_line s 1 data = (s, [{ slot := 1, text := "ERR GAME_OVER\n", len := 14 }])) ∧
      (s.game_over = 0 →
        handle_line s 1 data =
          (s, [{ slot := 1, text := "ERR NOT_YOUR_TURN\n", len := 19 }])) := by
  have ht : s.current_turn = 1 := by
    obtain ⟨evs, rfl⟩ := hreach
    exact run_events_pvai_turn evs initial (fun h => absurd h (by decide)) hmode
  refine ⟨ht, fun data hc => ?_⟩
  rw [handle_line_move hc]
  constructor
  · intro hover
    exact handle_move_game_over 1 _ hover
  · intro hover
    exact handle_move_not_turn 1 _ hover (by rw [ht]; decide)

theorem pvai_turn_one_witness :
    (run_events initial [Event.accept 4, Event.read 0 7 "JOIN a\n".toList,
      Event.read 0 7 "MODE 1\n".toList]).current_turn = 1 ∧
    handle_line (run_events initial [Event.accept 4, Event.read 0 7 "JOIN a\n".toList,
      Event.read 0 7 "MODE 1\n".toList]) 1 "MOVE 7 7\n".toList =
      (run_events initial [Event.accept 4, Event.read 0 7 "JOIN a\n".toList,
        Event.read 0 7 "MODE 1\n".toList],
       [{ slot := 1, text := "ERR NOT_YOUR_TURN\n", len := 19 }]) :=
  have h := pvai_turn_one (run_events initial [Event.accept 4,
    Event.read 0 7 "JOIN a\n".toList, Event.read 0 7 "MODE 1\n".toList]) ⟨_, rfl⟩ (by decide)
  ⟨h.1, (h.2 "MOVE 7 7\n".toList (by decide)).2 (by decide)⟩

end Omok
